import Mathlib

/-! Verification of the AXON IPC packet framer and frame decoder.

Shallow embedding of `src/routing/axon-ipc-dev.c`:
`IPC_CalcCrc16`, `ipc_make_packet`, `ipc_Lpa_packet`, the parse block of
`ipc_oprd3`, `parse_data_frame` and `build_CANHeader`.

Conventions of the embedding.
* Memory cells are bytes (`Byte = Fin 256`); a C array or pointer is the list of
  the bytes that may be accessed through it, `none` standing for `NULL`.
* A C `int` is an `Int`; bitwise operators act on its 32-bit two's-complement
  pattern (`bits32`).
* Whether plain `char` is signed is left to the C implementation, so it is a
  parameter `charSigned` of every function that reads a `char`.
* An access outside an array is undefined behaviour; a function that performs
  one returns `none`. Distinct pointer arguments are taken to point to disjoint
  arrays.
* A `for` loop is a recursive function on the number of iterations left to run,
  carrying the loop index and the state the body updates.
-/

namespace AxonIpc

/-! ## Machine model -/

/-- One byte of memory. -/
abbrev Byte := Fin 256

/-- Conversion of an integer value to a byte cell (`(char) x`, `(uint8_t) x`). -/
def toByte (n : Nat) : Byte := ⟨n % 256, Nat.mod_lt _ (by decide)⟩

/-- Two's-complement bit pattern of a 32-bit C `int`. -/
def bits32 (x : Int) : Nat := (x % 4294967296).toNat

/-- Signed value of a 32-bit pattern (conversion of an `unsigned` to `int32_t`). -/
def toInt32 (n : Nat) : Int :=
  if n % 4294967296 < 2147483648 then ((n % 4294967296 : Nat) : Int)
  else ((n % 4294967296 : Nat) : Int) - 4294967296

/-- Integer promotion of a plain `char` cell, as a 32-bit pattern: sign-extended
when plain `char` is signed, zero-extended otherwise. -/
def charBits (charSigned : Bool) (c : Byte) : Nat :=
  if charSigned && decide (128 ≤ c.val) then c.val + 4294967040 else c.val

/-- Store to `buf[i]`; `none` when `i` is outside the array. -/
def store (buf : List Byte) (i : Nat) (v : Byte) : Option (List Byte) :=
  if i < buf.length then some (buf.set i v) else none

/-! ## `IPC_CalcCrc16` -/

/-- The constant table `crc16Table` of `IPC_CalcCrc16`. -/
def crc16Table : List Nat :=
  [0x0000, 0x1021, 0x2042, 0x3063, 0x4084, 0x50a5, 0x60c6, 0x70e7,
   0x8108, 0x9129, 0xa14a, 0xb16b, 0xc18c, 0xd1ad, 0xe1ce, 0xf1ef,
   0x1231, 0x0210, 0x3273, 0x2252, 0x52b5, 0x4294, 0x72f7, 0x62d6,
   0x9339, 0x8318, 0xb37b, 0xa35a, 0xd3bd, 0xc39c, 0xf3ff, 0xe3de,
   0x2462, 0x3443, 0x0420, 0x1401, 0x64e6, 0x74c7, 0x44a4, 0x5485,
   0xa56a, 0xb54b, 0x8528, 0x9509, 0xe5ee, 0xf5cf, 0xc5ac, 0xd58d,
   0x3653, 0x2672, 0x1611, 0x0630, 0x76d7, 0x66f6, 0x5695, 0x46b4,
   0xb75b, 0xa77a, 0x9719, 0x8738, 0xf7df, 0xe7fe, 0xd79d, 0xc7bc,
   0x48c4, 0x58e5, 0x6886, 0x78a7, 0x0840, 0x1861, 0x2802, 0x3823,
   0xc9cc, 0xd9ed, 0xe98e, 0xf9af, 0x8948, 0x9969, 0xa90a, 0xb92b,
   0x5af5, 0x4ad4, 0x7ab7, 0x6a96, 0x1a71, 0x0a50, 0x3a33, 0x2a12,
   0xdbfd, 0xcbdc, 0xfbbf, 0xeb9e, 0x9b79, 0x8b58, 0xbb3b, 0xab1a,
   0x6ca6, 0x7c87, 0x4ce4, 0x5cc5, 0x2c22, 0x3c03, 0x0c60, 0x1c41,
   0xedae, 0xfd8f, 0xcdec, 0xddcd, 0xad2a, 0xbd0b, 0x8d68, 0x9d49,
   0x7e97, 0x6eb6, 0x5ed5, 0x4ef4, 0x3e13, 0x2e32, 0x1e51, 0x0e70,
   0xff9f, 0xefbe, 0xdfdd, 0xcffc, 0xbf1b, 0xaf3a, 0x9f59, 0x8f78,
   0x9188, 0x81a9, 0xb1ca, 0xa1eb, 0xd10c, 0xc12d, 0xf14e, 0xe16f,
   0x1080, 0x00a1, 0x30c2, 0x20e3, 0x5004, 0x4025, 0x7046, 0x6067,
   0x83b9, 0x9398, 0xa3fb, 0xb3da, 0xc33d, 0xd31c, 0xe37f, 0xf35e,
   0x02b1, 0x1290, 0x22f3, 0x32d2, 0x4235, 0x5214, 0x6277, 0x7256,
   0xb5ea, 0xa5cb, 0x95a8, 0x8589, 0xf56e, 0xe54f, 0xd52c, 0xc50d,
   0x34e2, 0x24c3, 0x14a0, 0x0481, 0x7466, 0x6447, 0x5424, 0x4405,
   0xa7db, 0xb7fa, 0x8799, 0x97b8, 0xe75f, 0xf77e, 0xc71d, 0xd73c,
   0x26d3, 0x36f2, 0x0691, 0x16b0, 0x6657, 0x7676, 0x4615, 0x5634,
   0xd94c, 0xc96d, 0xf90e, 0xe92f, 0x99c8, 0x89e9, 0xb98a, 0xa9ab,
   0x5844, 0x4865, 0x7806, 0x6827, 0x18c0, 0x08e1, 0x3882, 0x28a3,
   0xcb7d, 0xdb5c, 0xeb3f, 0xfb1e, 0x8bf9, 0x9bd8, 0xabbb, 0xbb9a,
   0x4a75, 0x5a54, 0x6a37, 0x7a16, 0x0af1, 0x1ad0, 0x2ab3, 0x3a92,
   0xfd2e, 0xed0f, 0xdd6c, 0xcd4d, 0xbdaa, 0xad8b, 0x9de8, 0x8dc9,
   0x7c26, 0x6c07, 0x5c64, 0x4c45, 0x3ca2, 0x2c83, 0x1ce0, 0x0cc1,
   0xef1f, 0xff3e, 0xcf5d, 0xdf7c, 0xaf9b, 0xbfba, 0x8fd9, 0x9ff8,
   0x6e17, 0x7e36, 0x4e55, 0x5e74, 0x2e93, 0x3eb2, 0x0ed1, 0x1ef0]

/-- Body of the `for` loop of `IPC_CalcCrc16`: the new `crcCode` after the byte
`c = pucBuffer[i]`.
`temp = (((crcCode & 0xFF00) >> 8) ^ pucBuffer[i]) & 0x00FF;`
`crcCode = (crc16Table[temp] ^ ((crcCode & 0x00FF) << 8)) & 0xFFFF;` -/
def crcStep (charSigned : Bool) (crcCode : Int) (c : Byte) : Int :=
  let temp : Nat := (((bits32 crcCode &&& 0xFF00) >>> 8) ^^^ charBits charSigned c) &&& 0x00FF
  (((crc16Table.getD temp 0 ^^^ ((bits32 crcCode &&& 0x00FF) <<< 8)) &&& 0xFFFF : Nat) : Int)

/-- The loop `for (i = 0; i < uiLength; i++)` of `IPC_CalcCrc16`, with `n`
iterations left to run from index `i`; `none` when `pucBuffer[i]` lies outside
the buffer. -/
def crcLoop (charSigned : Bool) (pucBuffer : List Byte) : Nat → Nat → Int → Option Int
  | 0, _, crcCode => some crcCode
  | n + 1, i, crcCode =>
    match pucBuffer[i]? with
    | none => none
    | some c => crcLoop charSigned pucBuffer n (i + 1) (crcStep charSigned crcCode c)

/-- Embedding of `int IPC_CalcCrc16(const char *pucBuffer, int32_t uiLength, int uiInit)`.
A `NULL` buffer skips the loop; a non-positive length runs it zero times. -/
def IPC_CalcCrc16 (charSigned : Bool) (pucBuffer : Option (List Byte)) (uiLength : Int)
    (uiInit : Int) : Option Int :=
  match pucBuffer with
  | none => some uiInit
  | some buf => crcLoop charSigned buf uiLength.toNat 0 uiInit

/-! ### Reference CRC, following the wording of the specification -/

/-- One shift of the bitwise CRC register: shift left by one, xor `0x1021`
when the bit shifted out was 1, keep 16 bits. -/
def crcBitStep (r : Nat) : Nat :=
  if r.testBit 15 then ((r <<< 1) ^^^ 0x1021) % 65536 else (r <<< 1) % 65536

/-- Bitwise treatment of one byte: xor it into the high 8 bits of the register,
then shift 8 times. -/
def crcByteBitwise (r : Nat) (b : Byte) : Nat :=
  crcBitStep^[8] (r ^^^ (b.val <<< 8))

/-- The bitwise MSB-first CRC-16, polynomial `0x1021`, no reflection, no final xor. -/
def crc16Bitwise (init : Nat) (buf : List Byte) : Nat :=
  buf.foldl crcByteBitwise init

/-! ### The table step on natural numbers -/

/-- Table step on a 16-bit register held as a natural number. -/
def stepN (r : Nat) (c : Byte) : Nat :=
  crc16Table.getD (((r / 256) % 256) ^^^ c.val) 0 ^^^ ((r % 256) * 256)


/-! ## `ipc_make_packet` and `ipc_Lpa_packet` -/

/-- Signed `int` addition; `none` on overflow (undefined behaviour). -/
def addInt (a b : Int) : Option Int :=
  if -2147483648 ≤ a + b ∧ a + b ≤ 2147483647 then some (a + b) else none

/-- The nine header stores shared verbatim by both packet builders:
`wbuffer[0] = 0xFF; wbuffer[1] = 0x55; wbuffer[2] = 0xAA;`
`wbuffer[3] = (char) ((ipcCmd1 & 0xFF00) >> 8); wbuffer[4] = (char) (ipcCmd1 & 0x00FF);`
and likewise `ipcCmd2` into bytes 5, 6 and `data_length` into bytes 7, 8. -/
def writeHeader (wbuffer : List Byte) (ipcCmd1 ipcCmd2 data_length : Int) :
    Option (List Byte) := do
  let w ← store wbuffer 0 (toByte 0xFF)
  let w ← store w 1 (toByte 0x55)
  let w ← store w 2 (toByte 0xAA)
  let w ← store w 3 (toByte ((bits32 ipcCmd1 &&& 0xFF00) >>> 8))
  let w ← store w 4 (toByte (bits32 ipcCmd1 &&& 0x00FF))
  let w ← store w 5 (toByte ((bits32 ipcCmd2 &&& 0xFF00) >>> 8))
  let w ← store w 6 (toByte (bits32 ipcCmd2 &&& 0x00FF))
  let w ← store w 7 (toByte ((bits32 data_length &&& 0xFF00) >>> 8))
  store w 8 (toByte (bits32 data_length &&& 0x00FF))

/-- The loop `for (i = 9; i < packet_size - 2; i++) wbuffer[i] = <src at i>;`
with `n` iterations left to run from index `i`. `src i` is the byte stored at
index `i`, `none` when reading it is out of bounds. -/
def fillLoop (src : Nat → Option Byte) : Nat → Nat → List Byte → Option (List Byte)
  | 0, _, w => some w
  | n + 1, i, w =>
    match src i with
    | none => none
    | some c =>
      match store w i c with
      | none => none
      | some w' => fillLoop src n (i + 1) w'

/-- The tail shared by both packet builders:
`crc = IPC_CalcCrc16(&wbuffer[0], (packet_size - 2U), 0);`
`wbuffer[i++] = (char) ((crc & 0xFF00) >> 8); wbuffer[i] = (char) (crc & 0x00FF);`
The length argument is computed in `unsigned` and converted to `int32_t`. -/
def writeTrailer (charSigned : Bool) (w : List Byte) (i : Nat) (packet_size : Int) :
    Option (List Byte) := do
  let crc ← IPC_CalcCrc16 charSigned (some w)
    (toInt32 ((bits32 packet_size + 4294967296 - 2) % 4294967296)) 0
  let w ← store w i (toByte ((bits32 crc &&& 0xFF00) >>> 8))
  store w (i + 1) (toByte (bits32 crc &&& 0x00FF))

/-- The body of `if (wbuffer != NULL) { ... }`, identical in both packet builders
up to the byte `src i` stored at payload index `i`: header stores, payload loop
from `i = 9` while `i < packet_size - 2`, then CRC and trailer stores at the
final value of `i`. Returns the final content of `wbuffer`. -/
def packetBody (charSigned : Bool) (src : Nat → Option Byte) (w0 : List Byte)
    (ipcCmd1 ipcCmd2 data_length packet_size : Int) : Option (List Byte) :=
  match writeHeader w0 ipcCmd1 ipcCmd2 data_length with
  | none => none
  | some w1 =>
    match fillLoop src (packet_size - 2 - 9).toNat 9 w1 with
    | none => none
    | some w2 => writeTrailer charSigned w2 (9 + (packet_size - 2 - 9).toNat) packet_size

/-- Embedding of `int ipc_make_packet(char *wbuffer, char add_num, int ipcCmd1, int ipcCmd2,
int data_length)`: returns the final content of `wbuffer` and the returned
`packet_size = data_length + 11`. Every payload byte is `add_num + 1`. -/
def ipc_make_packet (charSigned : Bool) (wbuffer : Option (List Byte)) (add_num : Byte)
    (ipcCmd1 ipcCmd2 data_length : Int) : Option (Option (List Byte) × Int) :=
  match addInt data_length 11 with
  | none => none
  | some packet_size =>
    match wbuffer with
    | none => some (none, packet_size)
    | some w0 =>
      match packetBody charSigned (fun _ => some (toByte (charBits charSigned add_num + 1)))
          w0 ipcCmd1 ipcCmd2 data_length packet_size with
      | none => none
      | some w => some (some w, packet_size)

/-- Embedding of `int ipc_Lpa_packet(char *wbuffer, char *ipc_buff, int ipcCmd1, int ipcCmd2,
int data_length)`: returns the final content of `wbuffer` and the returned
`packet_size = data_length + 11`. Payload byte `i` is `ipc_buff[i-9]`. -/
def ipc_Lpa_packet (charSigned : Bool) (wbuffer : Option (List Byte)) (ipc_buff : List Byte)
    (ipcCmd1 ipcCmd2 data_length : Int) : Option (Option (List Byte) × Int) :=
  match addInt data_length 11 with
  | none => none
  | some packet_size =>
    match wbuffer with
    | none => some (none, packet_size)
    | some w0 =>
      match packetBody charSigned (fun i => ipc_buff[i - 9]?)
          w0 ipcCmd1 ipcCmd2 data_length packet_size with
      | none => none
      | some w => some (some w, packet_size)

/-- The nine bytes the header stores leave in `wbuffer[0..8]`. -/
def headerBytes (ipcCmd1 ipcCmd2 data_length : Int) : List Byte :=
  [toByte 0xFF, toByte 0x55, toByte 0xAA,
   toByte ((bits32 ipcCmd1 &&& 0xFF00) >>> 8), toByte (bits32 ipcCmd1 &&& 0x00FF),
   toByte ((bits32 ipcCmd2 &&& 0xFF00) >>> 8), toByte (bits32 ipcCmd2 &&& 0x00FF),
   toByte ((bits32 data_length &&& 0xFF00) >>> 8), toByte (bits32 data_length &&& 0x00FF)]

/-- Buffer content after a packet builder has run on `wbuffer = w0` with the
payload bytes `pl`: header, payload, the two CRC bytes (high byte first) of the
table CRC of header and payload, then the untouched rest of `w0`. -/
def builtBuffer (w0 : List Byte) (ipcCmd1 ipcCmd2 data_length : Int) (pl : List Byte) :
    List Byte :=
  headerBytes ipcCmd1 ipcCmd2 data_length ++ pl
    ++ [toByte ((headerBytes ipcCmd1 ipcCmd2 data_length ++ pl).foldl stepN 0 / 256),
        toByte ((headerBytes ipcCmd1 ipcCmd2 data_length ++ pl).foldl stepN 0 % 256)]
    ++ w0.drop (pl.length + 11)

/-! ## `parse_data_frame` -/

/-- Modelled from the spec: the macro `DATA_FRAME` of `axon-ipc-dev.h`, a header
that is not among the sources. Section 4.4 step 1: the variant "data frame" is
discriminator bit = 0. -/
def DATA_FRAME : Nat := 0

/-- Modelled from the spec: the macro `PROTOCOL_CAN` of `axon-ipc-dev.h`.
Section 4.4 step 3: protocol bit 1 = LIN, 0 = CAN. -/
def PROTOCOL_CAN : Nat := 0

/-- Modelled from the spec: the macro `STANDARD_CAN` of `axon-ipc-dev.h`, the
value of the IDE flag of a frame with a standard (11-bit) identifier. Section
4.3 packs an extended identifier with IDE = 1, so standard is IDE = 0. -/
def STANDARD_CAN : Nat := 0

/-- Modelled from the spec: the macro `CAN_FD` of `axon-ipc-dev.h`, the value of
the FDF flag of a CAN FD frame (section 4.4 step 5, "FD" is flag set). -/
def CAN_FD : Nat := 1

/-- Modelled from the spec: the `FRAME_TYPE_*` constants of `axon-ipc-dev.h`;
section 3 lists the five frame types. -/
inductive FrameType
  | FRAME_TYPE_CAN_BASE
  | FRAME_TYPE_CAN_EXT
  | FRAME_TYPE_CANFD_BASE
  | FRAME_TYPE_CANFD_EXT
  | FRAME_TYPE_LIN_RX
  deriving DecidableEq

/-- Modelled from the spec: the record type `RX_DATA_FRAME` of `axon-ipc-dev.h`,
with the fields the function assigns. Section 3 gives the fields as unsigned
integers and `data` as an ordered byte sequence; the capacity of the C array
`Data` is not visible in the sources, so `Data` holds the bytes stored so far,
in index order. -/
structure RX_DATA_FRAME where
  port : Nat
  proto : Nat
  ts_us_high : Nat
  ts_us_low : Nat
  ts_ns : Nat
  Data : List Byte
  data_len : Nat
  ftype : FrameType
  ID : Nat
  deriving DecidableEq

/-- One `printf` of `parse_data_frame`, by its arguments. The port is recorded by
its number (the name table `PORT_NAME` is declared outside the sources); a data
byte that was never stored is recorded as `none`. -/
inductive TraceLine
  | banner
  | summary (protoIsCan : Bool) (port : Nat) (data_len : Nat)
  | idLine (ftype : FrameType) (ID : Nat)
  | dataBytes (bytes : List (Option Byte))
  deriving DecidableEq

/-- What one call of `parse_data_frame` leaves behind: the local `data_frame`
when the data-frame branch ran, the local `route_id` when it was assigned, and
the lines printed. -/
structure ParseOut where
  data_frame : Option RX_DATA_FRAME
  route_id : Option Nat
  output : List TraceLine
  deriving DecidableEq

/-- The loop `for (i = 15U; i < data_length; i++) data_frame.Data[i-15U] = buffer[i];`
with `n` iterations left to run from index `i`; `none` when `buffer[i]` lies
outside the buffer. -/
def copyData (buffer : List Byte) : Nat → Nat → List Byte → Option (List Byte)
  | 0, _, Data => some Data
  | n + 1, i, Data =>
    match buffer[i]? with
    | none => none
    | some b => copyData buffer n (i + 1) (Data ++ [b])

/-- The local `rx_frame_type = buffer[0] & 0x01U` -/
def rx_frame_type (b0 : Byte) : Nat := b0.val &&& 0x01

/-- The local `rx_sourcePort = ((buffer[0] & 0xFEU) >> 1U) + ((buffer[1] & 0x01U) << 7U)`,
stored in a `uint8_t`. -/
def rx_sourcePort (b0 b1 : Byte) : Nat :=
  (((b0.val &&& 0xFE) >>> 1) + ((b1.val &&& 0x01) <<< 7)) % 256

/-- The local `rx_timeStamp_ns`, a `uint16_t`: `(buffer[1] & 0xFEU) >> 1U`, then
`|= (buffer[2] & 0x01U) << 7U`, then `*= 10U`. -/
def rx_timeStamp_ns (b1 b2 : Byte) : Nat :=
  (((((b1.val &&& 0xFE) >>> 1) % 65536 ||| ((b2.val &&& 0x01) <<< 7)) % 65536) * 10) % 65536

/-- The five-byte pattern shared by `rx_timeStamp_us_L` (bytes 2..6) and
`rx_timeStamp_us_H` (bytes 6..10), a `uint32_t`:
`(c0 >> 1U) | (c1 << 7U) | (c2 << 15U) | (c3 << 23U) | ((c4 & 0x01U) << 31U)`. -/
def rx_timeStamp_us (c0 c1 c2 c3 c4 : Byte) : Nat :=
  ((c0.val >>> 1) ||| (c1.val <<< 7) ||| (c2.val <<< 15) ||| (c3.val <<< 23)
    ||| ((c4.val &&& 0x01) <<< 31)) % 4294967296

/-- The local `rx_protocol_type = ((buffer[10] & 0x80U) == 0x80U)?1U:0U` -/
def rx_protocol_type (b10 : Byte) : Nat := if b10.val &&& 0x80 = 0x80 then 1 else 0

/-- The local `rx_can_id = (uint16_t)buffer[11] + (((uint16_t)buffer[12] & 0x07U) << 8U)`,
stored in a `uint16_t`. -/
def rx_can_id (b11 b12 : Byte) : Nat := (b11.val + ((b12.val &&& 0x07) <<< 8)) % 65536

/-- The local `rx_lin_id = (uint16_t)buffer[11] & 0x3FU` -/
def rx_lin_id (b11 : Byte) : Nat := b11.val &&& 0x3F

/-- The local `rx_extCan_id`, a `uint32_t`: `buffer[11] | (buffer[12] << 8U) |
(buffer[13] << 16U) | ((buffer[14] & 0x1FU) << 24U)`. -/
def rx_extCan_id (b11 b12 b13 b14 : Byte) : Nat :=
  (b11.val ||| (b12.val <<< 8) ||| (b13.val <<< 16) ||| ((b14.val &&& 0x1F) <<< 24))
    % 4294967296

/-- The local `rx_fdf = ((buffer[14] & 0x20U) == 0x20U)?1U:0U` -/
def rx_fdf (b14 : Byte) : Nat := if b14.val &&& 0x20 = 0x20 then 1 else 0

/-- The local `rx_rtr = ((buffer[14] & 0x40U) == 0x40U)?1U:0U` -/
def rx_rtr (b14 : Byte) : Nat := if b14.val &&& 0x40 = 0x40 then 1 else 0

/-- The local `rx_ide = ((buffer[14] & 0x80U) == 0x80U)?1U:0U` -/
def rx_ide (b14 : Byte) : Nat := if b14.val &&& 0x80 = 0x80 then 1 else 0

/-- The statement `i = data_length - 15U;` (computed in `unsigned`, stored in the `uint16_t i`)
followed by `if (i <= 255U) data_len = (uint8_t)i; else data_len = 8U;`. -/
def rx_data_len (data_length : Nat) : Nat :=
  let i := (data_length + 4294967296 - 15) % 4294967296 % 65536
  if i ≤ 255 then i % 256 else 8

/-- The value `data_frame.ftype` receives in the `if (rx_protocol_type ==
PROTOCOL_CAN)` cascade. -/
def rx_ftype (proto ide fdf : Nat) : FrameType :=
  if proto = PROTOCOL_CAN then
    if ide = STANDARD_CAN then
      (if fdf = CAN_FD then FrameType.FRAME_TYPE_CANFD_BASE else FrameType.FRAME_TYPE_CAN_BASE)
    else
      (if fdf = CAN_FD then FrameType.FRAME_TYPE_CANFD_EXT else FrameType.FRAME_TYPE_CAN_EXT)
  else FrameType.FRAME_TYPE_LIN_RX

/-- The value `data_frame.ID` receives in the same cascade: `rx_can_id`,
`rx_extCan_id` or `rx_lin_id`. -/
def rx_ID (proto ide can_id extCan_id lin_id : Nat) : Nat :=
  if proto = PROTOCOL_CAN then (if ide = STANDARD_CAN then can_id else extCan_id)
  else lin_id

/-- The local `route_id` (a `uint32_t`) after the cascade: `data_frame.ID` for a
standard CAN frame, `data_frame.ID | 0x80000000` for an extended one, never
assigned for LIN. -/
def rx_route_id (proto ide ID : Nat) : Option Nat :=
  if proto = PROTOCOL_CAN then
    (if ide = STANDARD_CAN then some (ID % 4294967296)
     else some ((ID ||| 0x80000000) % 4294967296))
  else none

/-- The `printf` calls that end the data-frame branch. -/
def printFrame (data_frame : RX_DATA_FRAME) : List TraceLine :=
  [TraceLine.banner,
   TraceLine.summary (decide (data_frame.proto = PROTOCOL_CAN)) data_frame.port
     data_frame.data_len,
   TraceLine.idLine data_frame.ftype data_frame.ID,
   TraceLine.dataBytes ((List.range data_frame.data_len).map (fun k => data_frame.Data[k]?))]

/-- Embedding of `void parse_data_frame(const uint8_t *buffer, uint16_t data_length)`.
The fifteen header bytes are read unconditionally, before the frame kind is
tested; `none` when one of them, or a payload byte, lies outside `buffer`. -/
def parse_data_frame (buffer : List Byte) (data_length : Nat) : Option ParseOut :=
  match buffer with
  | b0 :: b1 :: b2 :: b3 :: b4 :: b5 :: b6 :: b7 :: b8 :: b9 :: b10 :: b11 :: b12 :: b13
      :: b14 :: _ =>
    if rx_frame_type b0 = DATA_FRAME then
      match copyData buffer (data_length - 15) 15 [] with
      | none => none
      | some Data =>
        let ID := rx_ID (rx_protocol_type b10) (rx_ide b14) (rx_can_id b11 b12)
          (rx_extCan_id b11 b12 b13 b14) (rx_lin_id b11)
        let data_frame : RX_DATA_FRAME :=
          { port := rx_sourcePort b0 b1, proto := rx_protocol_type b10,
            ts_us_high := rx_timeStamp_us b6 b7 b8 b9 b10,
            ts_us_low := rx_timeStamp_us b2 b3 b4 b5 b6,
            ts_ns := rx_timeStamp_ns b1 b2, Data := Data,
            data_len := rx_data_len data_length,
            ftype := rx_ftype (rx_protocol_type b10) (rx_ide b14) (rx_fdf b14), ID := ID }
        some { data_frame := some data_frame,
               route_id := rx_route_id (rx_protocol_type b10) (rx_ide b14) ID,
               output := printFrame data_frame }
    else some { data_frame := none, route_id := none, output := [] }
  | _ => none

/-! ## The parse block of `ipc_oprd3` -/

/-- The conversion `(uint16_t) c` for a plain `char` cell `c`. -/
def charToU16 (charSigned : Bool) (c : Byte) : Nat := charBits charSigned c % 65536

/-- The expression `((uint16_t)hi<<8)|((uint16_t)lo)` stored into a `uint16_t`. -/
def rdU16 (charSigned : Bool) (hi lo : Byte) : Nat :=
  ((charToU16 charSigned hi <<< 8) ||| charToU16 charSigned lo) % 65536

/-- The loop `for (int j = 0; j < IPC_datalen; j++) IPC_data[j] = readBuf[j+9];`
with `n` iterations left to run from index `j`; `none` when `readBuf[j+9]` or
`IPC_data[j]` lies outside its array. -/
def rxCopyLoop (charSigned : Bool) (readBuf : List Byte) :
    Nat → Nat → List Byte → Option (List Byte)
  | 0, _, IPC_data => some IPC_data
  | n + 1, j, IPC_data =>
    match readBuf[j + 9]? with
    | none => none
    | some c =>
      match store IPC_data j (toByte (charBits charSigned c)) with
      | none => none
      | some d => rxCopyLoop charSigned readBuf n (j + 1) d

/-- What the parse block of `ipc_oprd3` computes: the three header fields, the
final content of the local array `IPC_data`, and the outcome of the call to
`parse_data_frame` when the call was made. -/
structure RxResult where
  cmd1 : Nat
  cmd2 : Nat
  IPC_datalen : Nat
  IPC_data : List Byte
  parsed : Option ParseOut
  deriving DecidableEq

/-- The block `/**** read data parse **********/` of `ipc_oprd3`, run on the
content of `readBuf` and the initial (indeterminate) content of `IPC_data`. The
command constants `TCC_IPC_CMD_AP_TEST` and `TCC_IPC_CMD_AP_SEND` come from a
header that is not among the sources and are parameters. -/
def ipc_oprd3_parse (TCC_IPC_CMD_AP_TEST TCC_IPC_CMD_AP_SEND : Nat) (charSigned : Bool)
    (readBuf IPC_data : List Byte) : Option RxResult :=
  match readBuf with
  | _ :: _ :: _ :: r3 :: r4 :: r5 :: r6 :: r7 :: r8 :: _ =>
    let cmd1 := rdU16 charSigned r3 r4
    let cmd2 := rdU16 charSigned r5 r6
    let IPC_datalen := rdU16 charSigned r7 r8
    if cmd1 = TCC_IPC_CMD_AP_TEST ∧ cmd2 = TCC_IPC_CMD_AP_SEND then
      match rxCopyLoop charSigned readBuf IPC_datalen 0 IPC_data with
      | none => none
      | some d =>
        match parse_data_frame d IPC_datalen with
        | none => none
        | some out =>
          some { cmd1 := cmd1, cmd2 := cmd2, IPC_datalen := IPC_datalen, IPC_data := d,
                 parsed := some out }
    else
      some { cmd1 := cmd1, cmd2 := cmd2, IPC_datalen := IPC_datalen, IPC_data := IPC_data,
             parsed := none }
  | _ => none

/-- Content of `char readBuf[512] = {0}` after `read(fd3, readBuf, sizeof(readBuf))`
delivered the bytes `received`: at most 512 of them, the rest of the array still
zero. -/
def readBufAfterRead (received : List Byte) : List Byte :=
  received.take 512 ++ List.replicate (512 - received.length) 0

/-- The receive path of `ipc_oprd3` from the bytes delivered by `read` (the
branch `read_size > 0`) to the end of the parse block. `indet` is the
indeterminate initial content of `uint8_t IPC_data[132]`. -/
def ipc_oprd3_rx (TCC_IPC_CMD_AP_TEST TCC_IPC_CMD_AP_SEND : Nat) (charSigned : Bool)
    (indet : Fin 132 → Byte) (received : List Byte) : Option RxResult :=
  ipc_oprd3_parse TCC_IPC_CMD_AP_TEST TCC_IPC_CMD_AP_SEND charSigned
    (readBufAfterRead received) (List.ofFn indet)

/-! ## Tampering -/

/-- The buffer with bit `bit` of byte `pos` inverted (unchanged when `pos` is
outside the buffer). -/
def flipBit (buf : List Byte) (pos bit : Nat) : List Byte :=
  match buf[pos]? with
  | none => buf
  | some b => buf.set pos (toByte (b.val ^^^ (1 <<< bit)))

/-! ## The decoded frame, by its header bytes -/

/-- The record `data_frame` that the data-frame branch of `parse_data_frame`
fills from the fifteen header bytes, the bytes `rest` that follow them and
`data_length`. -/
def decodedFrame (b0 b1 b2 b3 b4 b5 b6 b7 b8 b9 b10 b11 b12 b13 b14 : Byte)
    (rest : List Byte) (data_length : Nat) : RX_DATA_FRAME :=
  { port := rx_sourcePort b0 b1, proto := rx_protocol_type b10,
    ts_us_high := rx_timeStamp_us b6 b7 b8 b9 b10,
    ts_us_low := rx_timeStamp_us b2 b3 b4 b5 b6,
    ts_ns := rx_timeStamp_ns b1 b2, Data := rest.take (data_length - 15),
    data_len := rx_data_len data_length,
    ftype := rx_ftype (rx_protocol_type b10) (rx_ide b14) (rx_fdf b14),
    ID := rx_ID (rx_protocol_type b10) (rx_ide b14) (rx_can_id b11 b12)
      (rx_extCan_id b11 b12 b13 b14) (rx_lin_id b11) }

/-! ## `build_CANHeader` -/

/-- The bit-field macros `TIMESTAMP`, `PROTOCOL`, `CANID`, `CANEXTID`, `FDF`,
`RTR`, `IDE`, `BRS` that `build_CANHeader` adds up. They are defined in
`axon-ipc-dev.h`, a header that is not among the sources, so the value each
contributes for a given argument is a parameter of the embedding. -/
structure CanHeaderMacros where
  TIMESTAMP : Nat → Nat
  PROTOCOL : Nat → Nat
  CANID : Nat → Nat
  CANEXTID : Nat → Nat
  FDF : Nat → Nat
  RTR : Nat → Nat
  IDE : Nat → Nat
  BRS : Nat → Nat

/-- The value of `uint64_t can_header_frame` after the `if (uIDE == 1U)` /
`if (uFDF == 1U)` cascade of `build_CANHeader`. -/
def can_header_frame (M : CanHeaderMacros) (Timestamp_onoff uCAN_ID uFDF uIDE uBRS : Nat) :
    Nat :=
  if uIDE = 1 then
    if uFDF = 1 then
      (M.TIMESTAMP Timestamp_onoff + M.PROTOCOL 0 + M.CANEXTID uCAN_ID + M.FDF 1 + M.RTR 0
        + M.IDE 1 + M.BRS uBRS) % 18446744073709551616
    else
      (M.TIMESTAMP Timestamp_onoff + M.PROTOCOL 0 + M.CANEXTID uCAN_ID + M.FDF 0 + M.RTR 0
        + M.IDE 1 + M.BRS 0) % 18446744073709551616
  else
    if uFDF = 1 then
      (M.TIMESTAMP Timestamp_onoff + M.PROTOCOL 0 + M.CANID uCAN_ID + M.FDF 1 + M.RTR 0
        + M.IDE 0 + M.BRS uBRS) % 18446744073709551616
    else
      (M.TIMESTAMP Timestamp_onoff + M.PROTOCOL 0 + M.CANID uCAN_ID + M.FDF 0 + M.RTR 0
        + M.IDE 0 + M.BRS 0) % 18446744073709551616

/-- The five stores that end `build_CANHeader`:
`header_buffer[0] = (uint8_t)((can_header_frame&0x00000000FFULL));`
`header_buffer[1] = (uint8_t)((can_header_frame&0x000000FF00ULL)>>8U);` and so on
up to `header_buffer[4] = (uint8_t)((can_header_frame&0xFF00000000ULL)>>32U);`. -/
def storeHeaderBytes (header_buffer : List Byte) (frame : Nat) : Option (List Byte) := do
  let h ← store header_buffer 0 (toByte (frame &&& 0x00000000FF))
  let h ← store h 1 (toByte ((frame &&& 0x000000FF00) >>> 8))
  let h ← store h 2 (toByte ((frame &&& 0x0000FF0000) >>> 16))
  let h ← store h 3 (toByte ((frame &&& 0x00FF000000) >>> 24))
  store h 4 (toByte ((frame &&& 0xFF00000000) >>> 32))

/-- Embedding of `void build_CANHeader(uint8_t *header_buffer, uint8_t Timestamp_onoff,
uint32_t uCAN_ID, uint8_t uFDF, uint8_t uIDE, uint8_t uBRS)`: returns the final
content of `header_buffer`. -/
def build_CANHeader (M : CanHeaderMacros) (header_buffer : List Byte)
    (Timestamp_onoff uCAN_ID uFDF uIDE uBRS : Nat) : Option (List Byte) :=
  storeHeaderBytes header_buffer (can_header_frame M Timestamp_onoff uCAN_ID uFDF uIDE uBRS)

/-! ## Byte sequences as little-endian numbers -/

/-- Value of a byte sequence read as a little-endian number: the sum of
`bytes[k] * 256^k`, so that bit `8k + j` of the value is bit `j` of byte `k`. -/
def littleEndianValue : List Byte → Nat
  | [] => 0
  | b :: rest => b.val + 256 * littleEndianValue rest

/-- A sample instance of the packing macros, used only to run `build_CANHeader`
on concrete inputs: the fields are placed from bit 0 upwards in the order of
section 4.3 of the specification (timestamp, protocol, identifier, FDF, RTR,
IDE, BRS). The macros of the real header are not among the sources. -/
def sampleMacros : CanHeaderMacros :=
  { TIMESTAMP := fun x => x, PROTOCOL := fun x => x <<< 1,
    CANID := fun x => (x &&& 0x7FF) <<< 2, CANEXTID := fun x => (x &&& 0x1FFFFFFF) <<< 2,
    FDF := fun x => x <<< 31, RTR := fun x => x <<< 32, IDE := fun x => x <<< 33,
    BRS := fun x => x <<< 34 }
/-! # Theorems -/

/-! ## Arithmetic of the table step -/

set_option maxRecDepth 100000 in
theorem table_bitwise_fin : ∀ i : Fin 256, crc16Table.getD i.val 0 = crcBitStep^[8] (i.val <<< 8) := by
  decide

set_option maxRecDepth 100000 in
theorem table_lt_fin : ∀ i : Fin 256, crc16Table.getD i.val 0 < 65536 := by
  decide

set_option maxRecDepth 100000 in
theorem bitStep8_low_fin : ∀ l : Fin 256, crcBitStep^[8] l.val = l.val * 256 := by
  decide

set_option maxRecDepth 100000 in
theorem table_low_byte_fin : ∀ h : Fin 256, crc16Table.getD h.val 0 % 256 = 0 → h.val = 0 := by
  decide

set_option maxRecDepth 100000 in
theorem table_length : crc16Table.length = 256 := by
  decide

theorem table_lt (i : Nat) : crc16Table.getD i 0 < 65536 := by
  by_cases h : i < 256
  · exact table_lt_fin ⟨i, h⟩
  · have hl := table_length
    rw [List.getD_eq_default _ _ (by omega)]; decide

theorem mask_ff (x : Nat) : x &&& 0xFF = x % 256 := Nat.and_pow_two_sub_one_eq_mod x 8

theorem mask_ffff (x : Nat) : x &&& 0xFFFF = x % 65536 := Nat.and_pow_two_sub_one_eq_mod x 16

theorem xor_mod_pow (a b n : Nat) : (a ^^^ b) % 2 ^ n = (a % 2 ^ n) ^^^ (b % 2 ^ n) := by
  apply Nat.eq_of_testBit_eq
  intro i
  simp only [Nat.testBit_mod_two_pow, Nat.testBit_xor]
  by_cases h : i < n <;> simp [h]

theorem mask_ff00_shift (p : Nat) : (p &&& 0xFF00) >>> 8 = (p / 256) % 256 := by
  have h1 : (0xFF00 : Nat) = 0xFF <<< 8 := by decide
  rw [h1]
  apply Nat.eq_of_testBit_eq
  intro i
  have h2 : (p / 256) % 256 = (p >>> 8) % 2 ^ 8 := by
    rw [Nat.shiftRight_eq_div_pow]; rfl
  rw [h2]
  have h3 : (0xFF : Nat) = 2 ^ 8 - 1 := by decide
  rw [h3]
  simp only [Nat.testBit_shiftRight, Nat.testBit_and, Nat.testBit_shiftLeft,
    Nat.testBit_mod_two_pow, Nat.testBit_two_pow_sub_one]
  by_cases h : i < 8 <;> simp [h]

theorem charBits_mod (cs : Bool) (c : Byte) : charBits cs c % 256 = c.val := by
  have := c.isLt
  unfold charBits
  split <;> omega

theorem crcStep_eq (cs : Bool) (crc : Int) (c : Byte) :
    crcStep cs crc c = ((stepN (bits32 crc) c : Nat) : Int) := by
  unfold crcStep stepN
  simp only []
  rw [mask_ff, mask_ff00_shift, mask_ff, mask_ffff, Nat.shiftLeft_eq]
  have e1 : ((bits32 crc / 256) % 256 ^^^ charBits cs c) % 256
      = (bits32 crc / 256) % 256 ^^^ c.val := by
    have := xor_mod_pow ((bits32 crc / 256) % 256) (charBits cs c) 8
    simp only [Nat.reducePow] at this
    rw [this, charBits_mod, Nat.mod_mod]
  rw [e1]
  have e2 : (crc16Table.getD ((bits32 crc / 256) % 256 ^^^ c.val) 0
      ^^^ (bits32 crc % 256 * 2 ^ 8)) < 65536 := by
    apply Nat.xor_lt_two_pow (n := 16)
    · exact table_lt _
    · have := Nat.mod_lt (bits32 crc) (show 0 < 256 by decide); omega
  rw [Nat.mod_eq_of_lt e2]
  rfl
theorem shiftLeft_xor (a b k : Nat) : (a ^^^ b) <<< k = (a <<< k) ^^^ (b <<< k) := by
  apply Nat.eq_of_testBit_eq
  intro i
  simp only [Nat.testBit_shiftLeft, Nat.testBit_xor]
  by_cases h : k ≤ i <;> simp [h]

theorem crcBitStep_eq (r : Nat) :
    crcBitStep r = ((r <<< 1) ^^^ (if r.testBit 15 then 0x1021 else 0)) % 65536 := by
  unfold crcBitStep
  split <;> simp

theorem crcBitStep_xor (a b : Nat) : crcBitStep (a ^^^ b) = crcBitStep a ^^^ crcBitStep b := by
  have hm := fun x y => xor_mod_pow x y 16
  simp only [Nat.reducePow] at hm
  rw [crcBitStep_eq, crcBitStep_eq, crcBitStep_eq, ← hm, shiftLeft_xor, Nat.testBit_xor]
  congr 1
  cases a.testBit 15 <;> cases b.testBit 15 <;> simp only [Bool.xor_false, Bool.xor_true,
    Bool.not_false, Bool.not_true, if_true, if_false, Nat.xor_zero, Bool.false_eq_true] <;>
    apply Nat.eq_of_testBit_eq <;> intro i <;> simp only [Nat.testBit_xor] <;>
    cases (a <<< 1).testBit i <;> cases (b <<< 1).testBit i <;> cases (4129 : Nat).testBit i <;> rfl

theorem crcBitStep_iter_xor (k a b : Nat) :
    crcBitStep^[k] (a ^^^ b) = crcBitStep^[k] a ^^^ crcBitStep^[k] b := by
  induction k generalizing a b with
  | zero => rfl
  | succ k ih => rw [Function.iterate_succ_apply, Function.iterate_succ_apply,
      Function.iterate_succ_apply, crcBitStep_xor, ih]

theorem split_register (r c : Nat) :
    r ^^^ (c <<< 8) = (((r / 256) ^^^ c) <<< 8) ^^^ (r % 256) := by
  have h1 : r / 256 = r >>> 8 := by rw [Nat.shiftRight_eq_div_pow]
  have h2 : r % 256 = r % 2 ^ 8 := rfl
  rw [h1, h2]
  apply Nat.eq_of_testBit_eq
  intro i
  simp only [Nat.testBit_xor, Nat.testBit_shiftLeft, Nat.testBit_shiftRight,
    Nat.testBit_mod_two_pow]
  by_cases h : 8 ≤ i
  · have e : 8 + (i - 8) = i := by omega
    have h' : ¬ i < 8 := by omega
    simp [h, h', e]
  · have h' : i < 8 := by omega
    simp [h, h']

theorem stepN_lt (r : Nat) (c : Byte) : stepN r c < 65536 := by
  unfold stepN
  apply Nat.xor_lt_two_pow (n := 16)
  · exact table_lt _
  · have := Nat.mod_lt r (show 0 < 256 by decide); omega

theorem stepN_eq_bitwise (r : Nat) (c : Byte) (hr : r < 65536) :
    stepN r c = crcByteBitwise r c := by
  unfold stepN crcByteBitwise
  have hh : (r / 256) ^^^ c.val < 256 := by
    apply Nat.xor_lt_two_pow (n := 8)
    · show r / 256 < 256
      omega
    · exact c.isLt
  have hl : r % 256 < 256 := Nat.mod_lt _ (by decide)
  rw [split_register, crcBitStep_iter_xor,
    ← table_bitwise_fin ⟨(r / 256) ^^^ c.val, hh⟩, bitStep8_low_fin ⟨r % 256, hl⟩]
  have e : r / 256 % 256 = r / 256 := Nat.mod_eq_of_lt (by omega)
  rw [e]

theorem bits32_natCast (r : Nat) : bits32 (r : Int) = r % 4294967296 := by
  unfold bits32
  omega

theorem stepN_mod (r : Nat) (c : Byte) : stepN (r % 4294967296) c = stepN r c := by
  unfold stepN
  have e1 : r % 4294967296 / 256 % 256 = r / 256 % 256 := by omega
  have e2 : r % 4294967296 % 256 = r % 256 := by omega
  rw [e1, e2]

theorem crcStep_natCast (cs : Bool) (r : Nat) (c : Byte) :
    crcStep cs (r : Int) c = ((stepN r c : Nat) : Int) := by
  rw [crcStep_eq, bits32_natCast, stepN_mod]

theorem crcLoop_eq_foldl (cs : Bool) (buf : List Byte) (n i : Nat) (crc : Int)
    (h : i + n ≤ buf.length) :
    crcLoop cs buf n i crc = some (((buf.drop i).take n).foldl (crcStep cs) crc) := by
  induction n generalizing i crc with
  | zero => simp [crcLoop]
  | succ n ih =>
    have hi : i < buf.length := by omega
    rw [crcLoop, List.getElem?_eq_getElem hi]
    simp only []
    rw [ih (i + 1) _ (by omega), List.drop_eq_getElem_cons hi, List.take_succ_cons,
      List.foldl_cons]

theorem foldl_crcStep_natCast (cs : Bool) (l : List Byte) (r : Nat) :
    l.foldl (crcStep cs) (r : Int) = ((l.foldl stepN r : Nat) : Int) := by
  induction l generalizing r with
  | nil => rfl
  | cons c l ih => rw [List.foldl_cons, List.foldl_cons, crcStep_natCast, ih]

theorem foldl_stepN_lt (l : List Byte) (r : Nat) (hr : r < 65536) :
    l.foldl stepN r < 65536 := by
  induction l generalizing r with
  | nil => exact hr
  | cons c l ih => exact ih _ (stepN_lt r c)

theorem foldl_stepN_eq_bitwise (l : List Byte) (r : Nat) (hr : r < 65536) :
    l.foldl stepN r = crc16Bitwise r l := by
  unfold crc16Bitwise
  induction l generalizing r with
  | nil => rfl
  | cons c l ih =>
    rw [List.foldl_cons, List.foldl_cons, ← stepN_eq_bitwise r c hr]
    exact ih _ (stepN_lt r c)

/-- The whole-buffer call on a register given as a natural number. -/
theorem calc_whole (cs : Bool) (buf : List Byte) (r : Nat) :
    IPC_CalcCrc16 cs (some buf) buf.length (r : Int) = some ((buf.foldl stepN r : Nat) : Int) := by
  unfold IPC_CalcCrc16
  simp only [Int.toNat_ofNat]
  rw [crcLoop_eq_foldl cs buf buf.length 0 _ (by omega)]
  simp [foldl_crcStep_natCast]

theorem foldl_crcStep_range (cs : Bool) (l : List Byte) (crc : Int)
    (h : (0 ≤ crc ∧ crc ≤ 65535) ∨ l ≠ []) :
    0 ≤ l.foldl (crcStep cs) crc ∧ l.foldl (crcStep cs) crc ≤ 65535 := by
  induction l generalizing crc with
  | nil =>
    rcases h with h | h
    · exact h
    · exact absurd rfl h
  | cons c l ih =>
    rw [List.foldl_cons]
    apply ih
    left
    rw [crcStep_eq]
    have := stepN_lt (bits32 crc) c
    omega

/-! ## Claims on `IPC_CalcCrc16` -/

/-- C1: for every byte sequence and every `init` in `0..0xFFFF`, the table-driven
`IPC_CalcCrc16` over the whole buffer equals the bitwise MSB-first CRC-16 with
polynomial `0x1021` (no reflection, no final xor), whichever signedness plain
`char` has; and each of the 256 table entries is the 8-step bitwise reduction of
`i << 8`. -/
theorem C1_crc16_refines_bitwise (charSigned : Bool) (buf : List Byte) (init : Int)
    (h0 : 0 ≤ init) (h1 : init ≤ 0xFFFF) :
    IPC_CalcCrc16 charSigned (some buf) (buf.length : Int) init
        = some ((crc16Bitwise init.toNat buf : Nat) : Int)
      ∧ crc16Table.length = 256
      ∧ ∀ i : Fin 256, crc16Table.getD i.val 0 = crcBitStep^[8] (i.val <<< 8) := by
  refine ⟨?_, table_length, table_bitwise_fin⟩
  have hi : init = ((init.toNat : Nat) : Int) := (Int.toNat_of_nonneg h0).symm
  have hlt : init.toNat < 65536 := by omega
  conv_lhs => rw [hi]
  rw [calc_whole, foldl_stepN_eq_bitwise _ _ hlt]

/-- C1 at the check string "123456789" with `init = 0`. -/
theorem C1_crc16_refines_bitwise_witness :
    IPC_CalcCrc16 false (some [0x31, 0x32, 0x33, 0x34, 0x35, 0x36, 0x37, 0x38, 0x39]) 9 0
        = some ((crc16Bitwise 0 [0x31, 0x32, 0x33, 0x34, 0x35, 0x36, 0x37, 0x38, 0x39] : Nat) : Int)
      ∧ crc16Bitwise 0 [0x31, 0x32, 0x33, 0x34, 0x35, 0x36, 0x37, 0x38, 0x39] = 0x31C3 :=
  ⟨(C1_crc16_refines_bitwise false [0x31, 0x32, 0x33, 0x34, 0x35, 0x36, 0x37, 0x38, 0x39] 0
      (by decide) (by decide)).1, by set_option maxRecDepth 100000 in decide⟩

theorem calc_whole_int (cs : Bool) (buf : List Byte) (init : Int) :
    IPC_CalcCrc16 cs (some buf) (buf.length : Int) init
      = some (buf.foldl (crcStep cs) init) := by
  unfold IPC_CalcCrc16
  simp only [Int.toNat_ofNat]
  rw [crcLoop_eq_foldl cs buf buf.length 0 _ (by omega), List.drop_zero, List.take_length]

/-- C2: CRC chaining. For all byte sequences `a`, `b` and every `int` value of
`init` (in particular `0..0xFFFF`), the three calls return, and
`IPC_CalcCrc16(a ++ b, len a + len b, init)` equals
`IPC_CalcCrc16(b, len b, IPC_CalcCrc16(a, len a, init))`. -/
theorem C2_crc16_chaining (charSigned : Bool) (a b : List Byte) (init : Int) :
    ∃ c v,
      IPC_CalcCrc16 charSigned (some a) (a.length : Int) init = some c
        ∧ IPC_CalcCrc16 charSigned (some b) (b.length : Int) c = some v
        ∧ IPC_CalcCrc16 charSigned (some (a ++ b)) ((a.length : Int) + (b.length : Int)) init
            = some v := by
  refine ⟨_, _, calc_whole_int charSigned a init, calc_whole_int charSigned b _, ?_⟩
  have e : (a.length : Int) + (b.length : Int) = ((a ++ b).length : Int) := by
    rw [List.length_append]; push_cast; rfl
  rw [e, calc_whole_int, List.foldl_append]

/-- C3: `IPC_CalcCrc16` returns `init` unchanged when the buffer is `NULL`
(whatever the length) or the length is 0 (whatever the buffer); in particular the
CRC of the empty buffer with `init = 0` is 0. -/
theorem C3_crc16_empty_returns_init (charSigned : Bool) (pucBuffer : Option (List Byte))
    (uiLength init : Int) :
    IPC_CalcCrc16 charSigned none uiLength init = some init
      ∧ IPC_CalcCrc16 charSigned pucBuffer 0 init = some init
      ∧ IPC_CalcCrc16 charSigned (some []) 0 0 = some 0 := by
  refine ⟨rfl, ?_, rfl⟩
  cases pucBuffer <;> rfl

/-- C4 fails as stated: with length 0 the `int` value `0x10000` of `init` comes
back unchanged, and it is not a 16-bit value; so does `-1` through a `NULL` buffer. -/
theorem C4_counterexample :
    IPC_CalcCrc16 false (some []) 0 0x10000 = some 0x10000 ∧ ¬ ((0x10000 : Int) ≤ 0xFFFF)
      ∧ IPC_CalcCrc16 false none 4 (-1) = some (-1) ∧ ¬ ((0 : Int) ≤ -1) := by
  refine ⟨rfl, by decide, rfl, by decide⟩

/-- C4 (amended): when every index below `uiLength` lies inside the buffer,
`IPC_CalcCrc16` returns a value, and that value lies in `0..0xFFFF` as soon as
`init` lies in `0..0xFFFF` or at least one byte is processed (non-`NULL` buffer,
`uiLength ≥ 1`). -/
theorem C4_crc16_result_16bit (charSigned : Bool) (pucBuffer : Option (List Byte))
    (uiLength init : Int)
    (hb : ∀ buf, pucBuffer = some buf → uiLength ≤ (buf.length : Int))
    (h : (0 ≤ init ∧ init ≤ 0xFFFF) ∨ (pucBuffer ≠ none ∧ 1 ≤ uiLength)) :
    ∃ v, IPC_CalcCrc16 charSigned pucBuffer uiLength init = some v ∧ 0 ≤ v ∧ v ≤ 0xFFFF := by
  cases pucBuffer with
  | none =>
    rcases h with h | h
    · exact ⟨init, rfl, h⟩
    · exact absurd rfl h.1
  | some buf =>
    have hlen := hb buf rfl
    unfold IPC_CalcCrc16
    simp only []
    rw [crcLoop_eq_foldl _ _ _ 0 _ (by omega)]
    refine ⟨_, rfl, ?_⟩
    apply foldl_crcStep_range
    rcases h with h | h
    · exact Or.inl h
    · right
      intro hnil
      have h1 : 0 < uiLength.toNat := by omega
      have h2 : uiLength.toNat ≤ buf.length := by omega
      have h3 : ((List.drop 0 buf).take uiLength.toNat).length = 0 := by rw [hnil]; rfl
      rw [List.drop_zero, List.length_take] at h3
      omega

/-- C4 (amended) at a one-byte buffer with `init = -1`. -/
theorem C4_crc16_result_16bit_witness :
    ∃ v, IPC_CalcCrc16 true (some [0x80]) 1 (-1) = some v ∧ 0 ≤ v ∧ v ≤ 0xFFFF :=
  C4_crc16_result_16bit true (some [0x80]) 1 (-1)
    (by intro buf hbuf; cases hbuf; decide) (Or.inr ⟨by simp, by decide⟩)

/-! ## The packet builders -/

theorem store_eq (w : List Byte) (i : Nat) (v : Byte) (h : i < w.length) :
    store w i v = some (w.take i ++ v :: w.drop (i + 1)) := by
  unfold store
  rw [if_pos h, List.set_eq_take_append_cons_drop, if_pos h]

theorem exists_nine (w : List Byte) (h : 9 ≤ w.length) :
    ∃ a0 a1 a2 a3 a4 a5 a6 a7 a8 rest, w = a0 :: a1 :: a2 :: a3 :: a4 :: a5 :: a6 :: a7 :: a8 :: rest := by
  match w, h with
  | a0 :: a1 :: a2 :: a3 :: a4 :: a5 :: a6 :: a7 :: a8 :: rest, _ =>
    exact ⟨a0, a1, a2, a3, a4, a5, a6, a7, a8, rest, rfl⟩

theorem writeHeader_eq (w : List Byte) (c1 c2 n : Int) (h : 9 ≤ w.length) :
    writeHeader w c1 c2 n = some (headerBytes c1 c2 n ++ w.drop 9) := by
  obtain ⟨a0, a1, a2, a3, a4, a5, a6, a7, a8, rest, rfl⟩ := exists_nine w h
  simp [writeHeader, store, headerBytes, List.set]

theorem fillLoop_eq (src : Nat → Option Byte) (pl : List Byte) (k i : Nat) (w : List Byte)
    (hk : pl.length = k) (hw : i + k ≤ w.length)
    (hsrc : ∀ j, j < k → src (i + j) = pl[j]?) :
    fillLoop src k i w = some (w.take i ++ pl ++ w.drop (i + k)) := by
  induction k generalizing i w pl with
  | zero =>
    have : pl = [] := List.length_eq_zero.mp hk
    subst this
    simp [fillLoop]
  | succ k ih =>
    match pl, hk with
    | c :: pl', hk' =>
      have h0 := hsrc 0 (by omega)
      simp only [Nat.add_zero, List.getElem?_cons_zero] at h0
      rw [fillLoop, h0]
      simp only []
      rw [store_eq w i c (by omega)]
      simp only []
      rw [ih pl' (i + 1) _ (by simpa using hk') (by simp; omega)
        (by
          intro j hj
          have := hsrc (j + 1) (by omega)
          rw [List.getElem?_cons_succ] at this
          rw [← this]; congr 1; omega)]
      congr 1
      have hA : (w.take i ++ [c]).length = i + 1 := by
        simp [List.length_take, Nat.min_eq_left (show i ≤ w.length by omega)]
      have e0 : w.take i ++ c :: w.drop (i + 1) = (w.take i ++ [c]) ++ w.drop (i + 1) := by
        simp
      have e1 : (w.take i ++ c :: w.drop (i + 1)).take (i + 1) = w.take i ++ [c] := by
        rw [e0]; exact List.take_left' hA
      have e2 : (w.take i ++ c :: w.drop (i + 1)).drop (i + 1 + k) = w.drop (i + (k + 1)) := by
        rw [e0, ← hA, List.drop_append, List.drop_drop, hA]
        congr 1; omega
      rw [e1, e2]
      simp

theorem lenArg_eq (ps : Int) (h0 : 2 ≤ ps) (h1 : ps ≤ 2147483647) :
    toInt32 ((bits32 ps + 4294967296 - 2) % 4294967296) = ps - 2 := by
  unfold toInt32 bits32
  split <;> omega

theorem hiByte_of_u16 (x : Nat) (h : x < 65536) :
    toByte ((bits32 (x : Int) &&& 0xFF00) >>> 8) = toByte (x / 256) := by
  rw [mask_ff00_shift, bits32_natCast]
  have e : x % 4294967296 / 256 % 256 = x / 256 := by omega
  rw [e]

theorem loByte_of_nat (x : Nat) :
    toByte (bits32 (x : Int) &&& 0x00FF) = toByte (x % 256) := by
  rw [mask_ff, bits32_natCast]
  have e : x % 4294967296 % 256 = x % 256 := by omega
  rw [e]

theorem writeTrailer_eq (cs : Bool) (w : List Byte) (i : Nat) (ps : Int)
    (hps : ps = (i : Int) + 2) (hi : i + 2 ≤ w.length) (h1 : ps ≤ 2147483647) :
    writeTrailer cs w i ps
      = some (w.take i ++ [toByte ((w.take i).foldl stepN 0 / 256),
          toByte ((w.take i).foldl stepN 0 % 256)] ++ w.drop (i + 2)) := by
  unfold writeTrailer
  rw [lenArg_eq ps (by omega) h1]
  have e : ps - 2 = (i : Int) := by omega
  rw [e]
  unfold IPC_CalcCrc16
  simp only [Int.toNat_ofNat]
  rw [crcLoop_eq_foldl cs w i 0 _ (by omega)]
  simp only [List.drop_zero, Option.bind_eq_bind, Option.some_bind]
  have e0 : (0 : Int) = ((0 : Nat) : Int) := rfl
  rw [e0, foldl_crcStep_natCast]
  have hlt := foldl_stepN_lt (w.take i) 0 (by decide)
  rw [hiByte_of_u16 _ hlt, loByte_of_nat, store_eq w i _ (by omega)]
  simp only [Option.some_bind]
  rw [store_eq _ (i + 1) _ (by simp [List.length_take]; omega)]
  congr 1
  have hA : (w.take i).length = i := by
    simp [List.length_take, Nat.min_eq_left (show i ≤ w.length by omega)]
  have e1 : ∀ (x : Byte) (t : List Byte), (w.take i ++ x :: t).take (i + 1) = w.take i ++ [x] := by
    intro x t
    have : w.take i ++ x :: t = (w.take i ++ [x]) ++ t := by simp
    rw [this]
    exact List.take_left' (by simp [hA])
  have e2 : ∀ (x : Byte) (t : List Byte), (w.take i ++ x :: t).drop (i + 1 + 1) = t.drop 1 := by
    intro x t
    have : w.take i ++ x :: t = (w.take i ++ [x]) ++ t := by simp
    have hl : (w.take i ++ [x]).length = i + 1 := by simp [hA]
    rw [this, ← hl, List.drop_append]
  rw [e1, e2, List.drop_drop]
  simp

theorem headerBytes_length (c1 c2 dl : Int) : (headerBytes c1 c2 dl).length = 9 := rfl

theorem addInt_eq (a b : Int) (h0 : -2147483648 ≤ a + b) (h1 : a + b ≤ 2147483647) :
    addInt a b = some (a + b) := by
  unfold addInt
  rw [if_pos ⟨h0, h1⟩]

/-- The three phases of a packet builder, run in sequence. -/
theorem packetBody_eq (cs : Bool) (w0 : List Byte) (src : Nat → Option Byte) (pl : List Byte)
    (c1 c2 dl : Int) (n : Nat) (hdl : dl = (n : Int)) (hn : n ≤ 2147483636)
    (hw : n + 11 ≤ w0.length) (hpl : pl.length = n)
    (hsrc : ∀ j, j < n → src (9 + j) = pl[j]?) :
    packetBody cs src w0 c1 c2 dl (dl + 11) = some (builtBuffer w0 c1 c2 dl pl) := by
  have hk : (dl + 11 - 2 - 9).toNat = n := by omega
  unfold packetBody
  rw [hk, writeHeader_eq w0 c1 c2 dl (by omega)]
  simp only []
  have hH := headerBytes_length c1 c2 dl
  have hl1 : 9 + n ≤ (headerBytes c1 c2 dl ++ w0.drop 9).length := by
    rw [List.length_append, hH, List.length_drop]; omega
  rw [fillLoop_eq src pl n 9 _ hpl hl1 hsrc]
  simp only []
  have t9 : (headerBytes c1 c2 dl ++ w0.drop 9).take 9 = headerBytes c1 c2 dl :=
    List.take_left' hH
  have d9 : (headerBytes c1 c2 dl ++ w0.drop 9).drop (9 + n) = w0.drop (9 + n) := by
    rw [← hH, List.drop_append, List.drop_drop, hH]
  rw [t9, d9]
  have hB : (headerBytes c1 c2 dl ++ pl).length = 9 + n := by
    rw [List.length_append, hH, hpl]
  have hl2 : 9 + n + 2 ≤ (headerBytes c1 c2 dl ++ pl ++ w0.drop (9 + n)).length := by
    rw [List.length_append, hB, List.length_drop]; omega
  rw [writeTrailer_eq cs _ (9 + n) (dl + 11) (by push_cast; omega) hl2 (by omega)]
  have tB : (headerBytes c1 c2 dl ++ pl ++ w0.drop (9 + n)).take (9 + n)
      = headerBytes c1 c2 dl ++ pl := List.take_left' hB
  have dB : (headerBytes c1 c2 dl ++ pl ++ w0.drop (9 + n)).drop (9 + n + 2)
      = w0.drop (n + 11) := by
    rw [← hB, List.drop_append, List.drop_drop, hB]
    congr 1; omega
  rw [tB, dB]
  unfold builtBuffer
  rw [hpl]

theorem ipc_Lpa_packet_unfold (cs : Bool) (w0 ipc_buff : List Byte) (c1 c2 dl ps : Int)
    (w : List Byte) (h : addInt dl 11 = some ps)
    (hb : packetBody cs (fun i => ipc_buff[i - 9]?) w0 c1 c2 dl ps = some w) :
    ipc_Lpa_packet cs (some w0) ipc_buff c1 c2 dl = some (some w, ps) := by
  unfold ipc_Lpa_packet
  rw [h]
  simp only []
  rw [hb]

theorem ipc_Lpa_packet_eq (cs : Bool) (w0 ipc_buff : List Byte) (c1 c2 : Int) (n : Nat)
    (hn : n ≤ 2147483636) (hw : n + 11 ≤ w0.length) (hb : n ≤ ipc_buff.length) :
    ipc_Lpa_packet cs (some w0) ipc_buff c1 c2 (n : Int)
      = some (some (builtBuffer w0 c1 c2 (n : Int) (ipc_buff.take n)), (n : Int) + 11) := by
  apply ipc_Lpa_packet_unfold
  · exact addInt_eq _ _ (by omega) (by omega)
  · exact packetBody_eq cs w0 _ (ipc_buff.take n) c1 c2 _ n rfl hn hw
      (by rw [List.length_take]; omega)
      (by
        intro j hj
        have e : 9 + j - 9 = j := by omega
        simp only [e]
        rw [List.getElem?_take_of_lt hj])

theorem toByte_charBits_succ (cs : Bool) (c : Byte) :
    toByte (charBits cs c + 1) = toByte (c.val + 1) := by
  unfold toByte
  have := charBits_mod cs c
  apply Fin.ext
  simp only []
  omega

theorem ipc_make_packet_unfold (cs : Bool) (w0 : List Byte) (add_num : Byte) (c1 c2 dl ps : Int)
    (w : List Byte) (h : addInt dl 11 = some ps)
    (hb : packetBody cs (fun _ => some (toByte (charBits cs add_num + 1))) w0 c1 c2 dl ps
      = some w) :
    ipc_make_packet cs (some w0) add_num c1 c2 dl = some (some w, ps) := by
  unfold ipc_make_packet
  rw [h]
  simp only []
  rw [hb]

theorem ipc_make_packet_eq (cs : Bool) (w0 : List Byte) (add_num : Byte) (c1 c2 : Int) (n : Nat)
    (hn : n ≤ 2147483636) (hw : n + 11 ≤ w0.length) :
    ipc_make_packet cs (some w0) add_num c1 c2 (n : Int)
      = some (some (builtBuffer w0 c1 c2 (n : Int)
          (List.replicate n (toByte (add_num.val + 1)))), (n : Int) + 11) := by
  apply ipc_make_packet_unfold
  · exact addInt_eq _ _ (by omega) (by omega)
  · rw [toByte_charBits_succ]
    exact packetBody_eq cs w0 _ (List.replicate n (toByte (add_num.val + 1))) c1 c2 _ n rfl hn hw
      (List.length_replicate _ _)
      (by
        intro j hj
        rw [List.getElem?_replicate, if_pos hj])

theorem calc_initial_segment (cs : Bool) (a b : List Byte) (len : Int) (r : Nat)
    (hlen : len = (a.length : Int)) :
    IPC_CalcCrc16 cs (some (a ++ b)) len (r : Int) = some ((a.foldl stepN r : Nat) : Int) := by
  subst hlen
  unfold IPC_CalcCrc16
  simp only [Int.toNat_ofNat]
  rw [crcLoop_eq_foldl cs (a ++ b) a.length 0 _ (by rw [List.length_append]; omega),
    List.drop_zero, List.take_left' rfl, foldl_crcStep_natCast]

theorem headerBytes_eq (cmd1 cmd2 n : Nat) (h1 : cmd1 ≤ 65535) (h2 : cmd2 ≤ 65535)
    (hn : n ≤ 65535) :
    headerBytes (cmd1 : Int) (cmd2 : Int) (n : Int)
      = [0xFF, 0x55, 0xAA, toByte (cmd1 / 256), toByte (cmd1 % 256),
         toByte (cmd2 / 256), toByte (cmd2 % 256), toByte (n / 256), toByte (n % 256)] := by
  unfold headerBytes
  rw [hiByte_of_u16 cmd1 (by omega), hiByte_of_u16 cmd2 (by omega), hiByte_of_u16 n (by omega),
    loByte_of_nat, loByte_of_nat, loByte_of_nat]
  rfl

theorem builtBuffer_split (w0 : List Byte) (c1 c2 dl : Int) (pl : List Byte) :
    builtBuffer w0 c1 c2 dl pl
      = (headerBytes c1 c2 dl ++ pl)
        ++ ([toByte ((headerBytes c1 c2 dl ++ pl).foldl stepN 0 / 256),
             toByte ((headerBytes c1 c2 dl ++ pl).foldl stepN 0 % 256)]
            ++ w0.drop (pl.length + 11)) := by
  unfold builtBuffer
  rw [List.append_assoc]

theorem builtBuffer_take (w0 : List Byte) (c1 c2 dl : Int) (pl : List Byte) :
    (builtBuffer w0 c1 c2 dl pl).take (pl.length + 11)
      = headerBytes c1 c2 dl ++ pl
        ++ [toByte ((headerBytes c1 c2 dl ++ pl).foldl stepN 0 / 256),
            toByte ((headerBytes c1 c2 dl ++ pl).foldl stepN 0 % 256)] := by
  unfold builtBuffer
  apply List.take_left'
  simp only [List.length_append, headerBytes_length, List.length_cons, List.length_nil]
  omega

theorem builtBuffer_drop (w0 : List Byte) (c1 c2 dl : Int) (pl : List Byte) :
    (builtBuffer w0 c1 c2 dl pl).drop (pl.length + 11) = w0.drop (pl.length + 11) := by
  unfold builtBuffer
  apply List.drop_left'
  simp only [List.length_append, headerBytes_length, List.length_cons, List.length_nil]
  omega

/-! ## Claims on the packet builders -/

/-- C5: for `cmd1`, `cmd2` in `0..65535` and a payload of `n ≤ 65535` bytes (the
first `n` bytes of `ipc_buff`), `ipc_Lpa_packet` returns `n + 11` and leaves in
`wbuffer[0 .. n+10]` exactly `FF 55 AA`, `cmd1`, `cmd2` and `n` big-endian, the
payload verbatim, and the big-endian bytes of `IPC_CalcCrc16` over the first
`n + 9` bytes with `init = 0`; bytes of `wbuffer` from `n + 11` on are untouched. -/
theorem C5_ipc_Lpa_packet_layout (charSigned : Bool) (wbuffer ipc_buff : List Byte)
    (cmd1 cmd2 n : Nat) (h1 : cmd1 ≤ 65535) (h2 : cmd2 ≤ 65535) (hn : n ≤ 65535)
    (hb : n ≤ ipc_buff.length) (hw : n + 11 ≤ wbuffer.length) :
    ∃ (w : List Byte) (crc : Nat),
      ipc_Lpa_packet charSigned (some wbuffer) ipc_buff (cmd1 : Int) (cmd2 : Int) (n : Int)
          = some (some w, (n : Int) + 11)
        ∧ IPC_CalcCrc16 charSigned (some w) ((n : Int) + 9) 0 = some (crc : Int)
        ∧ crc ≤ 65535
        ∧ w.take (n + 11)
            = [0xFF, 0x55, 0xAA, toByte (cmd1 / 256), toByte (cmd1 % 256),
               toByte (cmd2 / 256), toByte (cmd2 % 256), toByte (n / 256), toByte (n % 256)]
              ++ ipc_buff.take n ++ [toByte (crc / 256), toByte (crc % 256)]
        ∧ w.drop (n + 11) = wbuffer.drop (n + 11) := by
  have hpl : (ipc_buff.take n).length = n := by rw [List.length_take]; omega
  refine ⟨builtBuffer wbuffer cmd1 cmd2 n (ipc_buff.take n),
    (headerBytes cmd1 cmd2 n ++ ipc_buff.take n).foldl stepN 0,
    ipc_Lpa_packet_eq charSigned wbuffer ipc_buff _ _ n (by omega) hw hb, ?_, ?_, ?_, ?_⟩
  · rw [builtBuffer_split]
    exact calc_initial_segment charSigned _ _ _ 0
      (by rw [List.length_append, headerBytes_length, hpl]; push_cast; omega)
  · have := foldl_stepN_lt (headerBytes cmd1 cmd2 n ++ ipc_buff.take n) 0 (by decide)
    omega
  · have := builtBuffer_take wbuffer cmd1 cmd2 n (ipc_buff.take n)
    rw [hpl] at this
    rw [this, headerBytes_eq cmd1 cmd2 n h1 h2 hn]
  · have := builtBuffer_drop wbuffer cmd1 cmd2 n (ipc_buff.take n)
    rw [hpl] at this
    exact this

/-- C5 at `cmd1 = 0x1234`, `cmd2 = 0xABCD` and the payload `01 02 03 04 05`, with
the packet the function writes there. -/
theorem C5_ipc_Lpa_packet_layout_witness :
    (∃ (w : List Byte) (crc : Nat),
      ipc_Lpa_packet false (some (List.replicate 20 0)) [1, 2, 3, 4, 5]
          ((0x1234 : Nat) : Int) ((0xABCD : Nat) : Int) ((5 : Nat) : Int)
          = some (some w, ((5 : Nat) : Int) + 11)
        ∧ IPC_CalcCrc16 false (some w) (((5 : Nat) : Int) + 9) 0 = some (crc : Int)
        ∧ crc ≤ 65535
        ∧ w.take (5 + 11)
            = [0xFF, 0x55, 0xAA, toByte (0x1234 / 256), toByte (0x1234 % 256),
               toByte (0xABCD / 256), toByte (0xABCD % 256), toByte (5 / 256), toByte (5 % 256)]
              ++ [1, 2, 3, 4, 5].take 5 ++ [toByte (crc / 256), toByte (crc % 256)]
        ∧ w.drop (5 + 11) = (List.replicate 20 0).drop (5 + 11))
      ∧ ipc_Lpa_packet false (some (List.replicate 20 0)) [1, 2, 3, 4, 5] 0x1234 0xABCD 5
          = some (some [0xFF, 0x55, 0xAA, 0x12, 0x34, 0xAB, 0xCD, 0x00, 0x05, 1, 2, 3, 4, 5,
              0x1C, 0x94, 0, 0, 0, 0], 16) :=
  ⟨C5_ipc_Lpa_packet_layout false (List.replicate 20 0) [1, 2, 3, 4, 5] 0x1234 0xABCD 5
    (by decide) (by decide) (by decide) (by decide) (by decide),
   by set_option maxRecDepth 100000 in decide⟩

theorem builtBuffer_header (w0 : List Byte) (c1 c2 dl : Int) (pl : List Byte) (i : Nat)
    (hi : i < 9) :
    (builtBuffer w0 c1 c2 dl pl)[i]? = (headerBytes c1 c2 dl)[i]? := by
  rw [builtBuffer_split, List.append_assoc]
  exact List.getElem?_append_left (by rw [headerBytes_length]; exact hi)

theorem lengthField_val (n : Nat) :
    (toByte ((bits32 (n : Int) &&& 0xFF00) >>> 8)).val * 256
      + (toByte (bits32 (n : Int) &&& 0x00FF)).val = n % 65536 := by
  rw [mask_ff00_shift, mask_ff, bits32_natCast]
  unfold toByte
  simp only []
  omega

theorem builtBuffer_lengthField (w0 : List Byte) (c1 c2 : Int) (n : Nat) (pl : List Byte) :
    ∃ b7 b8 : Byte, (builtBuffer w0 c1 c2 (n : Int) pl)[7]? = some b7
      ∧ (builtBuffer w0 c1 c2 (n : Int) pl)[8]? = some b8
      ∧ b7.val * 256 + b8.val = n % 65536 := by
  refine ⟨_, _, ?_, ?_, lengthField_val n⟩
  · rw [builtBuffer_header _ _ _ _ _ 7 (by decide)]; rfl
  · rw [builtBuffer_header _ _ _ _ _ 8 (by decide)]; rfl

/-- C6 fails as stated: asked for a payload of 65536 bytes, `ipc_Lpa_packet` does
not fail; it returns 65547 and the packet it wrote carries the length field
`00 00`. -/
theorem C6_counterexample :
    ∃ w : List Byte,
      ipc_Lpa_packet false (some (List.replicate 65547 0)) (List.replicate 65536 0)
          1 1 ((65536 : Nat) : Int) = some (some w, ((65536 : Nat) : Int) + 11)
        ∧ w[7]? = some 0 ∧ w[8]? = some 0 := by
  refine ⟨_, ipc_Lpa_packet_eq false _ _ 1 1 65536 (by decide)
    (by rw [List.length_replicate]) (by rw [List.length_replicate]), ?_, ?_⟩
  · rw [builtBuffer_header _ _ _ _ _ 7 (by decide)]; rfl
  · rw [builtBuffer_header _ _ _ _ _ 8 (by decide)]; rfl

/-- C6 (amended): the packet builders have no failure path. For every payload
length `n` up to `2^31 - 12`, with buffers large enough, `ipc_Lpa_packet` and
`ipc_make_packet` return `n + 11` and write a packet whose big-endian length
field holds `n mod 65536`; the field equals the payload length exactly when
`n ≤ 65535`. -/
theorem C6_length_field_is_mod_65536 (charSigned : Bool) (wbuffer ipc_buff : List Byte)
    (add_num : Byte) (cmd1 cmd2 : Int) (n : Nat) (hn : n ≤ 2147483636)
    (hb : n ≤ ipc_buff.length) (hw : n + 11 ≤ wbuffer.length) :
    (∃ (w : List Byte) (b7 b8 : Byte),
        ipc_Lpa_packet charSigned (some wbuffer) ipc_buff cmd1 cmd2 (n : Int)
            = some (some w, (n : Int) + 11)
          ∧ w[7]? = some b7 ∧ w[8]? = some b8 ∧ b7.val * 256 + b8.val = n % 65536
          ∧ (b7.val * 256 + b8.val = n ↔ n ≤ 65535))
      ∧ (∃ (w : List Byte) (b7 b8 : Byte),
        ipc_make_packet charSigned (some wbuffer) add_num cmd1 cmd2 (n : Int)
            = some (some w, (n : Int) + 11)
          ∧ w[7]? = some b7 ∧ w[8]? = some b8 ∧ b7.val * 256 + b8.val = n % 65536
          ∧ (b7.val * 256 + b8.val = n ↔ n ≤ 65535)) := by
  constructor
  · obtain ⟨b7, b8, e7, e8, hv⟩ :=
      builtBuffer_lengthField wbuffer cmd1 cmd2 n (ipc_buff.take n)
    exact ⟨_, b7, b8, ipc_Lpa_packet_eq charSigned wbuffer ipc_buff cmd1 cmd2 n hn hw hb,
      e7, e8, hv, by omega⟩
  · obtain ⟨b7, b8, e7, e8, hv⟩ :=
      builtBuffer_lengthField wbuffer cmd1 cmd2 n (List.replicate n (toByte (add_num.val + 1)))
    exact ⟨_, b7, b8, ipc_make_packet_eq charSigned wbuffer add_num cmd1 cmd2 n hn hw,
      e7, e8, hv, by omega⟩

/-- C6 (amended) at a payload of 3 bytes. -/
theorem C6_length_field_is_mod_65536_witness :
    (∃ (w : List Byte) (b7 b8 : Byte),
        ipc_Lpa_packet true (some (List.replicate 14 0)) [7, 8, 9] 1 2 ((3 : Nat) : Int)
            = some (some w, ((3 : Nat) : Int) + 11)
          ∧ w[7]? = some b7 ∧ w[8]? = some b8 ∧ b7.val * 256 + b8.val = 3 % 65536
          ∧ (b7.val * 256 + b8.val = 3 ↔ 3 ≤ 65535))
      ∧ (∃ (w : List Byte) (b7 b8 : Byte),
        ipc_make_packet true (some (List.replicate 14 0)) 4 1 2 ((3 : Nat) : Int)
            = some (some w, ((3 : Nat) : Int) + 11)
          ∧ w[7]? = some b7 ∧ w[8]? = some b8 ∧ b7.val * 256 + b8.val = 3 % 65536
          ∧ (b7.val * 256 + b8.val = 3 ↔ 3 ≤ 65535)) :=
  C6_length_field_is_mod_65536 true (List.replicate 14 0) [7, 8, 9] 4 1 2 3
    (by decide) (by decide) (by decide)

/-! ## Injectivity of the table step -/

theorem table_xor (a b : Nat) (ha : a < 256) (hb : b < 256) :
    crc16Table.getD (a ^^^ b) 0 = crc16Table.getD a 0 ^^^ crc16Table.getD b 0 := by
  have hab : a ^^^ b < 256 := Nat.xor_lt_two_pow (n := 8) ha hb
  rw [table_bitwise_fin ⟨a ^^^ b, hab⟩, table_bitwise_fin ⟨a, ha⟩, table_bitwise_fin ⟨b, hb⟩]
  simp only []
  rw [shiftLeft_xor, crcBitStep_iter_xor]

theorem table_low_inj (a b : Nat) (ha : a < 256) (hb : b < 256)
    (h : crc16Table.getD a 0 % 256 = crc16Table.getD b 0 % 256) : a = b := by
  have hab : a ^^^ b < 256 := Nat.xor_lt_two_pow (n := 8) ha hb
  have hx := xor_mod_pow (crc16Table.getD a 0) (crc16Table.getD b 0) 8
  simp only [Nat.reducePow] at hx
  rw [h, Nat.xor_self, ← table_xor a b ha hb] at hx
  have hz := table_low_byte_fin ⟨a ^^^ b, hab⟩ hx
  exact Nat.xor_eq_zero.mp hz

theorem stepN_low (r : Nat) (c : Byte) :
    stepN r c % 256 = crc16Table.getD (((r / 256) % 256) ^^^ c.val) 0 % 256 := by
  unfold stepN
  have hx := xor_mod_pow (crc16Table.getD (((r / 256) % 256) ^^^ c.val) 0) (r % 256 * 256) 8
  simp only [Nat.reducePow] at hx
  rw [hx, Nat.mul_mod_left, Nat.xor_zero]

theorem index_lt (r : Nat) (c : Byte) : ((r / 256) % 256) ^^^ c.val < 256 :=
  Nat.xor_lt_two_pow (n := 8) (Nat.mod_lt _ (by decide)) c.isLt

theorem stepN_inj_reg (r1 r2 : Nat) (c : Byte) (h1 : r1 < 65536) (h2 : r2 < 65536)
    (h : stepN r1 c = stepN r2 c) : r1 = r2 := by
  have hl : stepN r1 c % 256 = stepN r2 c % 256 := by rw [h]
  rw [stepN_low, stepN_low] at hl
  have hi := table_low_inj _ _ (index_lt r1 c) (index_lt r2 c) hl
  have hhi : (r1 / 256) % 256 = (r2 / 256) % 256 := Nat.xor_left_injective hi
  unfold stepN at h
  rw [hi] at h
  have hlo : r1 % 256 * 256 = r2 % 256 * 256 := Nat.xor_right_injective h
  omega

theorem stepN_inj_byte (r : Nat) (c1 c2 : Byte) (h : stepN r c1 = stepN r c2) : c1 = c2 := by
  have hl : stepN r c1 % 256 = stepN r c2 % 256 := by rw [h]
  rw [stepN_low, stepN_low] at hl
  have hi := table_low_inj _ _ (index_lt r c1) (index_lt r c2) hl
  exact Fin.ext (Nat.xor_right_injective hi)

theorem foldl_stepN_inj (l : List Byte) (r1 r2 : Nat) (h1 : r1 < 65536) (h2 : r2 < 65536)
    (h : l.foldl stepN r1 = l.foldl stepN r2) : r1 = r2 := by
  induction l generalizing r1 r2 with
  | nil => exact h
  | cons c l ih =>
    rw [List.foldl_cons, List.foldl_cons] at h
    exact stepN_inj_reg r1 r2 c h1 h2 (ih _ _ (stepN_lt r1 c) (stepN_lt r2 c) h)

/-- Replacing one byte of a buffer by a different byte changes the table CRC. -/
theorem foldl_stepN_set_ne (l : List Byte) (pos : Nat) (b' : Byte) (r : Nat) (hr : r < 65536)
    (hpos : pos < l.length) (hne : l[pos]? ≠ some b') :
    (l.set pos b').foldl stepN r ≠ l.foldl stepN r := by
  have hsplit : l = l.take pos ++ l[pos] :: l.drop (pos + 1) := by
    rw [← List.drop_eq_getElem_cons hpos, List.take_append_drop]
  have hset : l.set pos b' = l.take pos ++ b' :: l.drop (pos + 1) := by
    rw [List.set_eq_take_append_cons_drop, if_pos hpos]
  intro h
  rw [hset] at h
  conv_rhs at h => rw [hsplit]
  rw [List.foldl_append, List.foldl_append, List.foldl_cons, List.foldl_cons] at h
  have hlt := foldl_stepN_lt (l.take pos) r hr
  have h1 := foldl_stepN_inj _ _ _ (stepN_lt _ _) (stepN_lt _ _) h
  have h2 := stepN_inj_byte _ _ _ h1
  apply hne
  rw [List.getElem?_eq_getElem hpos, h2]

theorem flip_ne (b : Byte) (bit : Nat) (hbit : bit < 8) :
    toByte (b.val ^^^ (1 <<< bit)) ≠ b := by
  intro h
  have hb := b.isLt
  have hp : 1 <<< bit < 256 := by
    rw [Nat.shiftLeft_eq, Nat.one_mul]
    calc 2 ^ bit < 2 ^ 8 := Nat.pow_lt_pow_right (by decide) hbit
      _ = 256 := by decide
  have hx : b.val ^^^ (1 <<< bit) < 256 := Nat.xor_lt_two_pow (n := 8) hb hp
  have hv : (toByte (b.val ^^^ (1 <<< bit))).val = b.val := by rw [h]
  unfold toByte at hv
  simp only [] at hv
  rw [Nat.mod_eq_of_lt hx] at hv
  have h0 : b.val ^^^ (1 <<< bit) = b.val ^^^ 0 := by rw [hv, Nat.xor_zero]
  have h1 : 1 <<< bit = 0 := Nat.xor_right_injective h0
  rw [Nat.shiftLeft_eq, Nat.one_mul] at h1
  exact absurd h1 (Nat.pos_iff_ne_zero.mp (Nat.two_pow_pos bit))

theorem trailer_value (crc : Nat) (h : crc < 65536) :
    (toByte (crc / 256)).val * 256 + (toByte (crc % 256)).val = crc := by
  unfold toByte
  simp only []
  omega

/-- C8: tamper detection. In a packet built by `ipc_Lpa_packet` (any `cmd1`, `cmd2`,
payload of `n ≤ 65535` bytes), inverting any single bit of the first
`n + 9` bytes (preamble, command pair, length, payload) leaves the trailer in
place and makes `IPC_CalcCrc16` over the first `n + 9` bytes with `init = 0`
differ from the value of the 2-byte big-endian trailer, so that a
recompute-and-compare check finds a mismatch. -/
theorem C8_single_bit_flip_changes_crc (charSigned : Bool) (wbuffer ipc_buff : List Byte)
    (cmd1 cmd2 : Int) (n pos bit : Nat) (hn : n ≤ 65535)
    (hb : n ≤ ipc_buff.length) (hw : n + 11 ≤ wbuffer.length)
    (hpos : pos < n + 9) (hbit : bit < 8) :
    ∃ (w : List Byte) (crc' : Nat) (hi lo : Byte),
      ipc_Lpa_packet charSigned (some wbuffer) ipc_buff cmd1 cmd2 (n : Int)
          = some (some w, (n : Int) + 11)
        ∧ IPC_CalcCrc16 charSigned (some (flipBit w pos bit)) ((n : Int) + 9) 0
            = some (crc' : Int)
        ∧ (flipBit w pos bit)[n + 9]? = some hi ∧ (flipBit w pos bit)[n + 10]? = some lo
        ∧ w[n + 9]? = some hi ∧ w[n + 10]? = some lo
        ∧ crc' ≠ hi.val * 256 + lo.val := by
  have hpl : (ipc_buff.take n).length = n := by rw [List.length_take]; omega
  generalize hA : headerBytes cmd1 cmd2 (n : Int) ++ ipc_buff.take n = A
  have hAlen : A.length = n + 9 := by
    rw [← hA, List.length_append, headerBytes_length, hpl]; omega
  have hcrc := foldl_stepN_lt A 0 (by decide)
  generalize hB : [toByte (A.foldl stepN 0 / 256), toByte (A.foldl stepN 0 % 256)]
      ++ wbuffer.drop ((ipc_buff.take n).length + 11) = B
  have hw' : builtBuffer wbuffer cmd1 cmd2 n (ipc_buff.take n) = A ++ B := by
    rw [builtBuffer_split, hA, ← hB]
  have hposA : pos < A.length := by omega
  have hflip : flipBit (A ++ B) pos bit
      = A.set pos (toByte (A[pos].val ^^^ (1 <<< bit))) ++ B := by
    unfold flipBit
    rw [List.getElem?_append_left hposA, List.getElem?_eq_getElem hposA]
    simp only []
    rw [List.set_append_left _ _ hposA]
  have hB9 : ∀ X : List Byte, X.length = n + 9 →
      (X ++ B)[n + 9]? = some (toByte (A.foldl stepN 0 / 256))
        ∧ (X ++ B)[n + 10]? = some (toByte (A.foldl stepN 0 % 256)) := by
    intro X hX
    constructor
    · rw [List.getElem?_append_right (by omega), hX, ← hB]
      simp
    · rw [List.getElem?_append_right (by omega), hX, ← hB]
      have e : n + 10 - (n + 9) = 1 := by omega
      rw [e]
      simp
  have hsetlen : (A.set pos (toByte (A[pos].val ^^^ (1 <<< bit)))).length = n + 9 := by
    rw [List.length_set, hAlen]
  refine ⟨A ++ B, (A.set pos (toByte (A[pos].val ^^^ (1 <<< bit)))).foldl stepN 0,
    toByte (A.foldl stepN 0 / 256), toByte (A.foldl stepN 0 % 256), ?_, ?_, ?_, ?_, ?_, ?_, ?_⟩
  · rw [← hw']
    exact ipc_Lpa_packet_eq charSigned wbuffer ipc_buff _ _ n (by omega) hw hb
  · rw [hflip]
    exact calc_initial_segment charSigned _ B _ 0 (by rw [hsetlen]; push_cast; omega)
  · rw [hflip]; exact (hB9 _ hsetlen).1
  · rw [hflip]; exact (hB9 _ hsetlen).2
  · exact (hB9 _ hAlen).1
  · exact (hB9 _ hAlen).2
  · rw [trailer_value _ hcrc]
    apply foldl_stepN_set_ne A pos _ 0 (by decide) hposA
    rw [List.getElem?_eq_getElem hposA]
    intro h
    exact flip_ne A[pos] bit hbit (Option.some.inj h).symm

/-- C8 at the packet of `cmd1 = 1`, `cmd2 = 2`, payload `0A 0B 0C`, with bit 7 of
byte 10 (a payload byte) inverted. -/
theorem C8_single_bit_flip_changes_crc_witness :
    ∃ (w : List Byte) (crc' : Nat) (hi lo : Byte),
      ipc_Lpa_packet false (some (List.replicate 14 0)) [0x0A, 0x0B, 0x0C] 1 2 ((3 : Nat) : Int)
          = some (some w, ((3 : Nat) : Int) + 11)
        ∧ IPC_CalcCrc16 false (some (flipBit w 10 7)) (((3 : Nat) : Int) + 9) 0
            = some (crc' : Int)
        ∧ (flipBit w 10 7)[3 + 9]? = some hi ∧ (flipBit w 10 7)[3 + 10]? = some lo
        ∧ w[3 + 9]? = some hi ∧ w[3 + 10]? = some lo
        ∧ crc' ≠ hi.val * 256 + lo.val :=
  C8_single_bit_flip_changes_crc false (List.replicate 14 0) [0x0A, 0x0B, 0x0C] 1 2 3 10 7
    (by decide) (by decide) (by decide) (by decide) (by decide)

/-! ## The frame decoder -/

theorem exists_fifteen (w : List Byte) (h : 15 ≤ w.length) :
    ∃ b0 b1 b2 b3 b4 b5 b6 b7 b8 b9 b10 b11 b12 b13 b14 rest,
      w = b0 :: b1 :: b2 :: b3 :: b4 :: b5 :: b6 :: b7 :: b8 :: b9 :: b10 :: b11 :: b12
        :: b13 :: b14 :: rest := by
  match w, h with
  | b0 :: b1 :: b2 :: b3 :: b4 :: b5 :: b6 :: b7 :: b8 :: b9 :: b10 :: b11 :: b12 :: b13
      :: b14 :: rest, _ =>
    exact ⟨b0, b1, b2, b3, b4, b5, b6, b7, b8, b9, b10, b11, b12, b13, b14, rest, rfl⟩

theorem copyData_eq (buffer : List Byte) (n i : Nat) (D : List Byte)
    (h : i + n ≤ buffer.length) :
    copyData buffer n i D = some (D ++ (buffer.drop i).take n) := by
  induction n generalizing i D with
  | zero => simp [copyData]
  | succ n ih =>
    have hi : i < buffer.length := by omega
    rw [copyData, List.getElem?_eq_getElem hi]
    simp only []
    rw [ih (i + 1) _ (by omega), List.drop_eq_getElem_cons hi, List.take_succ_cons,
      List.append_assoc]
    rfl

/-- The data-frame branch on a buffer given by its fifteen header bytes and the
bytes after them. -/
theorem parse_data_frame_data (b0 b1 b2 b3 b4 b5 b6 b7 b8 b9 b10 b11 b12 b13 b14 : Byte)
    (rest : List Byte) (data_length : Nat) (hlen : data_length ≤ 15 + rest.length)
    (h : b0.val % 2 = 0) :
    parse_data_frame (b0 :: b1 :: b2 :: b3 :: b4 :: b5 :: b6 :: b7 :: b8 :: b9 :: b10 :: b11
        :: b12 :: b13 :: b14 :: rest) data_length
      = some
        { data_frame := some
            { port := rx_sourcePort b0 b1, proto := rx_protocol_type b10,
              ts_us_high := rx_timeStamp_us b6 b7 b8 b9 b10,
              ts_us_low := rx_timeStamp_us b2 b3 b4 b5 b6,
              ts_ns := rx_timeStamp_ns b1 b2, Data := rest.take (data_length - 15),
              data_len := rx_data_len data_length,
              ftype := rx_ftype (rx_protocol_type b10) (rx_ide b14) (rx_fdf b14),
              ID := rx_ID (rx_protocol_type b10) (rx_ide b14) (rx_can_id b11 b12)
                (rx_extCan_id b11 b12 b13 b14) (rx_lin_id b11) },
          route_id := rx_route_id (rx_protocol_type b10) (rx_ide b14)
            (rx_ID (rx_protocol_type b10) (rx_ide b14) (rx_can_id b11 b12)
              (rx_extCan_id b11 b12 b13 b14) (rx_lin_id b11)),
          output := printFrame
            { port := rx_sourcePort b0 b1, proto := rx_protocol_type b10,
              ts_us_high := rx_timeStamp_us b6 b7 b8 b9 b10,
              ts_us_low := rx_timeStamp_us b2 b3 b4 b5 b6,
              ts_ns := rx_timeStamp_ns b1 b2, Data := rest.take (data_length - 15),
              data_len := rx_data_len data_length,
              ftype := rx_ftype (rx_protocol_type b10) (rx_ide b14) (rx_fdf b14),
              ID := rx_ID (rx_protocol_type b10) (rx_ide b14) (rx_can_id b11 b12)
                (rx_extCan_id b11 b12 b13 b14) (rx_lin_id b11) } } := by
  have hcopy := copyData_eq
    (b0 :: b1 :: b2 :: b3 :: b4 :: b5 :: b6 :: b7 :: b8 :: b9 :: b10 :: b11 :: b12 :: b13
      :: b14 :: rest) (data_length - 15) 15 [] (by simp only [List.length_cons]; omega)
  have hft : rx_frame_type b0 = DATA_FRAME := by
    unfold rx_frame_type DATA_FRAME
    rw [Nat.and_one_is_mod, h]
  unfold parse_data_frame
  simp only []
  rw [if_pos hft, hcopy]
  rfl

/-- A buffer whose byte 0 has bit 0 set is not decoded: no frame, no `route_id`,
no output. -/
theorem parse_data_frame_other (b0 b1 b2 b3 b4 b5 b6 b7 b8 b9 b10 b11 b12 b13 b14 : Byte)
    (rest : List Byte) (data_length : Nat) (h : b0.val % 2 = 1) :
    parse_data_frame (b0 :: b1 :: b2 :: b3 :: b4 :: b5 :: b6 :: b7 :: b8 :: b9 :: b10 :: b11
        :: b12 :: b13 :: b14 :: rest) data_length
      = some { data_frame := none, route_id := none, output := [] } := by
  have hft : ¬ rx_frame_type b0 = DATA_FRAME := by
    unfold rx_frame_type DATA_FRAME
    rw [Nat.and_one_is_mod, h]
    decide
  unfold parse_data_frame
  simp only []
  rw [if_neg hft]

/-- C10: for every buffer of at least 15 bytes (and a `data_length` that does
not exceed it), `parse_data_frame` returns, and it produces a decoded frame if
and only if bit 0 of byte 0 is 0; in that case it also prints. When the bit is 1
it produces no frame, assigns no `route_id` and prints nothing. -/
theorem C10_frame_iff_data_discriminator (buffer : List Byte) (data_length : Nat) (b0 : Byte)
    (h15 : 15 ≤ buffer.length) (hlen : data_length ≤ buffer.length)
    (h0 : buffer[0]? = some b0) :
    ∃ out, parse_data_frame buffer data_length = some out
      ∧ (out.data_frame.isSome = true ↔ b0.val % 2 = 0)
      ∧ (b0.val % 2 = 0 → out.output ≠ [])
      ∧ (b0.val % 2 = 1 → out.data_frame = none ∧ out.route_id = none ∧ out.output = []) := by
  obtain ⟨a0, a1, a2, a3, a4, a5, a6, a7, a8, a9, a10, a11, a12, a13, a14, rest, rfl⟩ :=
    exists_fifteen buffer h15
  have e0 : a0 = b0 := by simpa using h0
  subst e0
  have hlen' : data_length ≤ 15 + rest.length := by
    simp only [List.length_cons] at hlen; omega
  rcases Nat.mod_two_eq_zero_or_one a0.val with h | h
  · refine ⟨_, parse_data_frame_data a0 a1 a2 a3 a4 a5 a6 a7 a8 a9 a10 a11 a12 a13 a14 rest
      data_length hlen' h, ?_, ?_, ?_⟩
    · simp [h]
    · intro _
      simp [printFrame]
    · intro h'
      omega
  · refine ⟨_, parse_data_frame_other a0 a1 a2 a3 a4 a5 a6 a7 a8 a9 a10 a11 a12 a13 a14 rest
      data_length h, ?_, ?_, ?_⟩
    · simp [h]
    · intro h'
      omega
    · intro _
      exact ⟨rfl, rfl, rfl⟩

/-- C10 at a 15-byte standard CAN data frame, and the same bytes with bit 0 of
byte 0 set. -/
theorem C10_frame_iff_data_discriminator_witness :
    (∃ out, parse_data_frame [0x04, 0x03, 0x02, 0, 0, 0, 0, 0, 0, 0, 0, 0x23, 0x01, 0, 0] 15
        = some out
      ∧ (out.data_frame.isSome = true ↔ (0x04 : Byte).val % 2 = 0)
      ∧ ((0x04 : Byte).val % 2 = 0 → out.output ≠ [])
      ∧ ((0x04 : Byte).val % 2 = 1 →
          out.data_frame = none ∧ out.route_id = none ∧ out.output = []))
      ∧ (parse_data_frame [0x04, 0x03, 0x02, 0, 0, 0, 0, 0, 0, 0, 0, 0x23, 0x01, 0, 0] 15).map
          (fun out => out.data_frame.map (fun f => (f.ftype, f.ID, f.data_len)))
          = some (some (FrameType.FRAME_TYPE_CAN_BASE, 0x123, 0))
      ∧ parse_data_frame [0x05, 0x03, 0x02, 0, 0, 0, 0, 0, 0, 0, 0, 0x23, 0x01, 0, 0] 15
          = some { data_frame := none, route_id := none, output := [] } :=
  ⟨C10_frame_iff_data_discriminator
    [0x04, 0x03, 0x02, 0, 0, 0, 0, 0, 0, 0, 0, 0x23, 0x01, 0, 0] 15 0x04
    (by decide) (by decide) (by decide), by decide, by decide⟩

/-! ## The receive path -/

theorem toByte_charBits (cs : Bool) (c : Byte) : toByte (charBits cs c) = c := by
  apply Fin.ext
  unfold toByte
  simp only []
  exact charBits_mod cs c

theorem rxCopyLoop_eq_fillLoop (cs : Bool) (readBuf : List Byte) (n j : Nat) (d : List Byte) :
    rxCopyLoop cs readBuf n j d = fillLoop (fun k => readBuf[k + 9]?) n j d := by
  induction n generalizing j d with
  | zero => rfl
  | succ n ih =>
    rw [rxCopyLoop, fillLoop]
    cases hget : readBuf[j + 9]? with
    | none => rfl
    | some c =>
      simp only []
      rw [toByte_charBits]
      cases hst : store d j c with
      | none => rfl
      | some d' => exact ih (j + 1) d'

theorem rxCopyLoop_eq (cs : Bool) (readBuf d : List Byte) (n : Nat)
    (hr : n + 9 ≤ readBuf.length) (hd : n ≤ d.length) :
    rxCopyLoop cs readBuf n 0 d = some ((readBuf.drop 9).take n ++ d.drop n) := by
  rw [rxCopyLoop_eq_fillLoop,
    fillLoop_eq _ ((readBuf.drop 9).take n) n 0 d
      (by rw [List.length_take, List.length_drop]; omega) (by omega)
      (by
        intro k hk
        rw [List.getElem?_take_of_lt hk, List.getElem?_drop]
        congr 1
        omega)]
  simp

/-- Overrunning `IPC_data`: the copy loop asked for more bytes than the array
holds performs an out-of-bounds store. -/
theorem rxCopyLoop_overrun (cs : Bool) (readBuf : List Byte) (n j : Nat) (d : List Byte)
    (hd : d.length < j + n) (hj : j ≤ d.length) :
    rxCopyLoop cs readBuf n j d = none := by
  induction n generalizing j d with
  | zero => omega
  | succ n ih =>
    rw [rxCopyLoop]
    cases hget : readBuf[j + 9]? with
    | none => rfl
    | some c =>
      simp only []
      by_cases hjd : j < d.length
      · rw [store_eq d j _ hjd]
        simp only []
        apply ih
        · simp [List.length_take]; omega
        · simp [List.length_take]; omega
      · unfold store
        rw [if_neg hjd]

theorem rdU16_unsigned (hi lo : Byte) : rdU16 false hi lo = hi.val * 256 + lo.val := by
  unfold rdU16 charToU16 charBits
  have h1 := hi.isLt
  have h2 := lo.isLt
  simp only [Bool.false_and, Bool.false_eq_true, if_false]
  rw [Nat.mod_eq_of_lt (by omega : hi.val < 65536), Nat.mod_eq_of_lt (by omega : lo.val < 65536),
    Nat.shiftLeft_eq]
  have := Nat.mul_add_lt_is_or (i := 8) (b := lo.val) (by omega) hi.val
  rw [Nat.mul_comm] at this
  rw [← this]
  omega

theorem readBufAfterRead_length (received : List Byte) :
    (readBufAfterRead received).length = 512 := by
  unfold readBufAfterRead
  rw [List.length_append, List.length_take, List.length_replicate]
  omega

theorem parse_data_frame_isSome (buffer : List Byte) (data_length : Nat)
    (h15 : 15 ≤ buffer.length) (hlen : data_length ≤ buffer.length) :
    ∃ out, parse_data_frame buffer data_length = some out := by
  obtain ⟨a0, a1, a2, a3, a4, a5, a6, a7, a8, a9, a10, a11, a12, a13, a14, rest, rfl⟩ :=
    exists_fifteen buffer h15
  have hlen' : data_length ≤ 15 + rest.length := by
    simp only [List.length_cons] at hlen; omega
  rcases Nat.mod_two_eq_zero_or_one a0.val with h | h
  · exact ⟨_, parse_data_frame_data a0 a1 a2 a3 a4 a5 a6 a7 a8 a9 a10 a11 a12 a13 a14 rest
      data_length hlen' h⟩
  · exact ⟨_, parse_data_frame_other a0 a1 a2 a3 a4 a5 a6 a7 a8 a9 a10 a11 a12 a13 a14 rest
      data_length h⟩

theorem ipc_oprd3_parse_cons (T S : Nat) (cs : Bool) (p0 p1 p2 r3 r4 r5 r6 r7 r8 : Byte)
    (rest d : List Byte) :
    ipc_oprd3_parse T S cs (p0 :: p1 :: p2 :: r3 :: r4 :: r5 :: r6 :: r7 :: r8 :: rest) d
      = if rdU16 cs r3 r4 = T ∧ rdU16 cs r5 r6 = S then
          match rxCopyLoop cs (p0 :: p1 :: p2 :: r3 :: r4 :: r5 :: r6 :: r7 :: r8 :: rest)
              (rdU16 cs r7 r8) 0 d with
          | none => none
          | some d' =>
            match parse_data_frame d' (rdU16 cs r7 r8) with
            | none => none
            | some out =>
              some { cmd1 := rdU16 cs r3 r4, cmd2 := rdU16 cs r5 r6,
                     IPC_datalen := rdU16 cs r7 r8, IPC_data := d', parsed := some out }
        else
          some { cmd1 := rdU16 cs r3 r4, cmd2 := rdU16 cs r5 r6,
                 IPC_datalen := rdU16 cs r7 r8, IPC_data := d, parsed := none } := rfl

/-- The parse block on a read buffer given by its nine header bytes and the
bytes after them, when the declared length fits both arrays. -/
theorem ipc_oprd3_parse_match (T S : Nat) (cs : Bool) (p0 p1 p2 r3 r4 r5 r6 r7 r8 : Byte)
    (rest d : List Byte) (h1 : rdU16 cs r3 r4 = T) (h2 : rdU16 cs r5 r6 = S)
    (hr : rdU16 cs r7 r8 ≤ rest.length) (hd : rdU16 cs r7 r8 ≤ d.length)
    (h15 : 15 ≤ d.length) :
    ∃ out, parse_data_frame (rest.take (rdU16 cs r7 r8) ++ d.drop (rdU16 cs r7 r8))
          (rdU16 cs r7 r8) = some out
      ∧ ipc_oprd3_parse T S cs (p0 :: p1 :: p2 :: r3 :: r4 :: r5 :: r6 :: r7 :: r8 :: rest) d
        = some { cmd1 := T, cmd2 := S, IPC_datalen := rdU16 cs r7 r8,
                 IPC_data := rest.take (rdU16 cs r7 r8) ++ d.drop (rdU16 cs r7 r8),
                 parsed := some out } := by
  have hlenD : (rest.take (rdU16 cs r7 r8) ++ d.drop (rdU16 cs r7 r8)).length = d.length := by
    rw [List.length_append, List.length_take, List.length_drop]; omega
  obtain ⟨out, hout⟩ := parse_data_frame_isSome
    (rest.take (rdU16 cs r7 r8) ++ d.drop (rdU16 cs r7 r8)) (rdU16 cs r7 r8)
    (by omega) (by omega)
  refine ⟨out, hout, ?_⟩
  rw [ipc_oprd3_parse_cons, if_pos ⟨h1, h2⟩,
    rxCopyLoop_eq cs _ d _ (by simp only [List.length_cons]; omega) hd]
  simp only [List.drop_succ_cons, List.drop_zero]
  rw [hout, h1, h2]

theorem ipc_oprd3_parse_skip (T S : Nat) (cs : Bool) (p0 p1 p2 r3 r4 r5 r6 r7 r8 : Byte)
    (rest d : List Byte) (h : ¬ (rdU16 cs r3 r4 = T ∧ rdU16 cs r5 r6 = S)) :
    ipc_oprd3_parse T S cs (p0 :: p1 :: p2 :: r3 :: r4 :: r5 :: r6 :: r7 :: r8 :: rest) d
      = some { cmd1 := rdU16 cs r3 r4, cmd2 := rdU16 cs r5 r6,
               IPC_datalen := rdU16 cs r7 r8, IPC_data := d, parsed := none } := by
  rw [ipc_oprd3_parse_cons, if_neg h]

theorem ipc_oprd3_parse_overrun (T S : Nat) (cs : Bool) (p0 p1 p2 r3 r4 r5 r6 r7 r8 : Byte)
    (rest d : List Byte) (h1 : rdU16 cs r3 r4 = T) (h2 : rdU16 cs r5 r6 = S)
    (hd : d.length < rdU16 cs r7 r8) :
    ipc_oprd3_parse T S cs (p0 :: p1 :: p2 :: r3 :: r4 :: r5 :: r6 :: r7 :: r8 :: rest) d
      = none := by
  rw [ipc_oprd3_parse_cons, if_pos ⟨h1, h2⟩, rxCopyLoop_overrun cs _ _ 0 d (by omega) (by omega)]

theorem readBufAfterRead_cons (p0 p1 p2 r3 r4 r5 r6 r7 r8 : Byte) (tail : List Byte) :
    readBufAfterRead (p0 :: p1 :: p2 :: r3 :: r4 :: r5 :: r6 :: r7 :: r8 :: tail)
      = p0 :: p1 :: p2 :: r3 :: r4 :: r5 :: r6 :: r7 :: r8
          :: (tail.take 503 ++ List.replicate (503 - tail.length) 0) := by
  unfold readBufAfterRead
  have e : 512 - (p0 :: p1 :: p2 :: r3 :: r4 :: r5 :: r6 :: r7 :: r8 :: tail).length
      = 503 - tail.length := by
    simp only [List.length_cons]; omega
  rw [e]
  rfl

theorem readTail_length (tail : List Byte) :
    (tail.take 503 ++ List.replicate (503 - tail.length) 0).length = 503 := by
  rw [List.length_append, List.length_take, List.length_replicate]
  omega

/-! ## Claims on the receive path -/

theorem rdU16_toByte (x : Nat) (h : x ≤ 65535) :
    rdU16 false (toByte (x / 256)) (toByte (x % 256)) = x := by
  rw [rdU16_unsigned]
  unfold toByte
  simp only []
  omega

/-- Placing `a` above the `k` low bits `b`: or, sum and shift agree. -/
theorem or_shiftLeft_eq_add (a b k : Nat) (hb : b < 2 ^ k) :
    b ||| (a <<< k) = b + a * 2 ^ k := by
  rw [Nat.shiftLeft_eq, Nat.or_comm, Nat.mul_comm a, ← Nat.mul_add_lt_is_or hb a]
  omega

theorem or_high_byte (A lo : Nat) (h : lo < 256) :
    (A <<< 8 ||| (lo ||| (2 ^ 8 - 1) <<< 8)) % 2 ^ 16 = lo ||| (2 ^ 8 - 1) <<< 8 := by
  apply Nat.eq_of_testBit_eq
  intro i
  simp only [Nat.testBit_mod_two_pow, Nat.testBit_or, Nat.testBit_shiftLeft,
    Nat.testBit_two_pow_sub_one]
  by_cases h16 : i < 16
  · by_cases h8 : 8 ≤ i
    · have : i - 8 < 8 := by omega
      simp [h16, h8, this]
    · have : ¬ (i ≥ 8) := h8
      simp [h16, this]
  · have hlo : lo.testBit i = false :=
      Nat.testBit_eq_false_of_lt (lt_of_lt_of_le h (by
        calc 256 = 2 ^ 8 := by norm_num
          _ ≤ 2 ^ i := Nat.pow_le_pow_right (by norm_num) (by omega)))
    have : ¬ (i - 8 < 8) := by omega
    simp [h16, hlo, this]

theorem or_high_byte_sum (A lo : Nat) (h : lo < 256) :
    (A <<< 8 ||| (65280 + lo)) % 65536 = 65280 + lo := by
  have e : lo ||| (2 ^ 8 - 1) <<< 8 = 65280 + lo := by
    rw [or_shiftLeft_eq_add _ _ 8 (by omega)]
    omega
  have k := or_high_byte A lo h
  rw [e] at k
  exact k

theorem charToU16_signed (c : Byte) :
    charToU16 true c = if c.val < 128 then c.val else 65280 + c.val := by
  unfold charToU16 charBits
  have h := c.isLt
  by_cases hc : c.val < 128
  · rw [if_pos hc, if_neg (by simp only [Bool.true_and, decide_eq_true_eq]; omega)]
    omega
  · rw [if_neg hc, if_pos (by simp only [Bool.true_and, decide_eq_true_eq]; omega)]
    omega

/-- The field expression where plain `char` is signed: a low byte of `0x80` or
more is sign-extended over the high byte, whose own sign extension is cut off by
the 16-bit store. -/
theorem rdU16_signed (hi lo : Byte) :
    rdU16 true hi lo = if lo.val < 128 then hi.val * 256 + lo.val else 65280 + lo.val := by
  have h1 := hi.isLt
  have h2 := lo.isLt
  unfold rdU16
  rw [charToU16_signed lo]
  by_cases hl : lo.val < 128
  · rw [if_pos hl, if_pos hl, Nat.or_comm, or_shiftLeft_eq_add _ _ 8 (by omega),
      charToU16_signed hi]
    by_cases hh : hi.val < 128
    · rw [if_pos hh]; omega
    · rw [if_neg hh]; omega
  · rw [if_neg hl, if_neg hl]
    exact or_high_byte_sum _ _ h2

/-- A 16-bit field written big-endian by the builders is read back by the field
expression of `ipc_oprd3`: always where plain `char` is unsigned, and where it
is signed when the low byte is below `0x80` or the high byte is `0xFF`. -/
theorem rdU16_field (cs : Bool) (x : Nat) (h : x ≤ 65535)
    (hs : cs = true → x % 256 < 128 ∨ 0xFF00 ≤ x) :
    rdU16 cs (toByte (x / 256)) (toByte (x % 256)) = x := by
  cases cs with
  | false => exact rdU16_toByte x h
  | true =>
    rw [rdU16_signed]
    unfold toByte
    simp only []
    rcases hs rfl with hlo | hhi
    · rw [if_pos (by omega)]; omega
    · by_cases hl : x % 256 % 256 < 128
      · rw [if_pos hl]; omega
      · rw [if_neg hl]; omega

theorem take_take_append (pl t z : List Byte) (n : Nat) (hpl : pl.length = n) (hn : n ≤ 503) :
    ((pl ++ t).take 503 ++ z).take n = pl := by
  have e1 : (pl ++ t).take 503 = pl ++ t.take (503 - n) := by
    rw [List.take_append_eq_append_take, hpl, List.take_of_length_le (by omega)]
  rw [e1, List.append_assoc]
  exact List.take_left' hpl

/-- C7 fails as stated, in three ways. (a) A payload of 133 bytes under the
command pair the parse block accepts: the packet is built, but the copy loop
overruns `IPC_data[132]` and the receive path has no defined result. (b) Under
any other command pair no payload is extracted at all. (c) Where plain `char`
is signed, `cmd1 = 0x0080` is read back as `0xFF80`. -/
theorem C7_counterexample :
    (ipc_Lpa_packet false (some (List.replicate 144 0)) (List.replicate 133 7) 1 2 133).map
        (fun r => r.1.map (fun w => ipc_oprd3_rx 1 2 false (fun _ => 0) (w.take 144)))
        = some (some none)
      ∧ (ipc_Lpa_packet false (some (List.replicate 14 0)) [7, 8, 9] 3 4 3).map
          (fun r => r.1.map (fun w => (ipc_oprd3_rx 1 2 false (fun _ => 0) (w.take 14)).map
            (fun res => (res.cmd1, res.cmd2, res.IPC_datalen, res.parsed.isSome))))
          = some (some (some (3, 4, 3, false)))
      ∧ (ipc_Lpa_packet true (some (List.replicate 14 0)) [7, 8, 9] 0x0080 2 3).map
          (fun r => r.1.map (fun w => (ipc_oprd3_rx 0x0080 2 true (fun _ => 0) (w.take 14)).map
            (fun res => (res.cmd1, res.parsed.isSome))))
          = some (some (some (0xFF80, false))) := by
  set_option maxRecDepth 1000000 in
  exact ⟨by decide, by decide, by decide⟩

/-- C7 (amended): round trip through the receive path of `ipc_oprd3`, for either
signedness of plain `char`. For `cmd1`, `cmd2` in `0..65535` and a payload of
`n ≤ 65535` bytes, where with signed plain `char` each of `cmd1`, `cmd2`, `n`
has its low byte below `0x80` or its high byte equal to `0xFF`, the parse block
applied to the `n + 11` bytes built by `ipc_Lpa_packet` recovers `cmd1`, `cmd2`
and `n`. When the command pair is the one the block accepts
(`TCC_IPC_CMD_AP_TEST`, `TCC_IPC_CMD_AP_SEND`) and `n ≤ 132`, the `n` payload
bytes, whatever their values, are copied verbatim into `IPC_data` and handed to
the decoder; for any other pair no payload is extracted. -/
theorem C7_round_trip_header_and_bounded_payload (T S : Nat) (charSigned : Bool)
    (indet : Fin 132 → Byte) (wbuffer ipc_buff : List Byte) (cmd1 cmd2 n : Nat)
    (h1 : cmd1 ≤ 65535) (h2 : cmd2 ≤ 65535) (hn : n ≤ 65535)
    (hb : n ≤ ipc_buff.length) (hw : n + 11 ≤ wbuffer.length)
    (hs1 : charSigned = true → cmd1 % 256 < 128 ∨ 0xFF00 ≤ cmd1)
    (hs2 : charSigned = true → cmd2 % 256 < 128 ∨ 0xFF00 ≤ cmd2)
    (hsn : charSigned = true → n % 256 < 128 ∨ 0xFF00 ≤ n)
    (hfit : cmd1 = T ∧ cmd2 = S → n ≤ 132) :
    ∃ w res,
      ipc_Lpa_packet charSigned (some wbuffer) ipc_buff (cmd1 : Int) (cmd2 : Int) (n : Int)
          = some (some w, (n : Int) + 11)
        ∧ ipc_oprd3_rx T S charSigned indet (w.take (n + 11)) = some res
        ∧ res.cmd1 = cmd1 ∧ res.cmd2 = cmd2 ∧ res.IPC_datalen = n
        ∧ (cmd1 = T ∧ cmd2 = S →
            res.parsed.isSome = true ∧ res.IPC_data.take n = ipc_buff.take n)
        ∧ (¬ (cmd1 = T ∧ cmd2 = S) → res.parsed = none) := by
  have hpl : (ipc_buff.take n).length = n := by rw [List.length_take]; omega
  have htake := builtBuffer_take wbuffer cmd1 cmd2 n (ipc_buff.take n)
  rw [hpl] at htake
  generalize (headerBytes (cmd1 : Int) (cmd2 : Int) (n : Int)
    ++ ipc_buff.take n).foldl stepN 0 = crc at htake
  rw [headerBytes_eq cmd1 cmd2 n h1 h2 hn] at htake
  have hrecv : (builtBuffer wbuffer cmd1 cmd2 n (ipc_buff.take n)).take (n + 11)
      = 0xFF :: 0x55 :: 0xAA :: toByte (cmd1 / 256) :: toByte (cmd1 % 256)
        :: toByte (cmd2 / 256) :: toByte (cmd2 % 256) :: toByte (n / 256) :: toByte (n % 256)
        :: (ipc_buff.take n ++ [toByte (crc / 256), toByte (crc % 256)]) := by
    rw [htake]; rfl
  have hrx : ipc_oprd3_rx T S charSigned indet
      ((builtBuffer wbuffer cmd1 cmd2 n (ipc_buff.take n)).take (n + 11))
      = ipc_oprd3_parse T S charSigned
        (0xFF :: 0x55 :: 0xAA :: toByte (cmd1 / 256) :: toByte (cmd1 % 256)
          :: toByte (cmd2 / 256) :: toByte (cmd2 % 256) :: toByte (n / 256) :: toByte (n % 256)
          :: ((ipc_buff.take n ++ [toByte (crc / 256), toByte (crc % 256)]).take 503
            ++ List.replicate
              (503 - (ipc_buff.take n ++ [toByte (crc / 256), toByte (crc % 256)]).length) 0))
        (List.ofFn indet) := by
    unfold ipc_oprd3_rx
    rw [hrecv, readBufAfterRead_cons]
  have hc1 := rdU16_field charSigned cmd1 h1 hs1
  have hc2 := rdU16_field charSigned cmd2 h2 hs2
  have hcn := rdU16_field charSigned n hn hsn
  suffices key : ∃ res, ipc_oprd3_rx T S charSigned indet
        ((builtBuffer wbuffer cmd1 cmd2 n (ipc_buff.take n)).take (n + 11)) = some res
      ∧ res.cmd1 = cmd1 ∧ res.cmd2 = cmd2 ∧ res.IPC_datalen = n
      ∧ (cmd1 = T ∧ cmd2 = S →
          res.parsed.isSome = true ∧ res.IPC_data.take n = ipc_buff.take n)
      ∧ (¬ (cmd1 = T ∧ cmd2 = S) → res.parsed = none) by
    obtain ⟨res, hres⟩ := key
    exact ⟨_, res, ipc_Lpa_packet_eq charSigned wbuffer ipc_buff _ _ n (by omega) hw hb, hres⟩
  rw [hrx]
  by_cases hg : cmd1 = T ∧ cmd2 = S
  · have hn132 := hfit hg
    obtain ⟨out, _, hres⟩ := ipc_oprd3_parse_match T S charSigned 0xFF 0x55 0xAA
      (toByte (cmd1 / 256)) (toByte (cmd1 % 256)) (toByte (cmd2 / 256)) (toByte (cmd2 % 256))
      (toByte (n / 256)) (toByte (n % 256))
      ((ipc_buff.take n ++ [toByte (crc / 256), toByte (crc % 256)]).take 503
        ++ List.replicate
          (503 - (ipc_buff.take n ++ [toByte (crc / 256), toByte (crc % 256)]).length) 0)
      (List.ofFn indet) (by rw [hc1]; exact hg.1) (by rw [hc2]; exact hg.2)
      (by rw [hcn, readTail_length]; omega) (by rw [hcn, List.length_ofFn]; omega)
      (by rw [List.length_ofFn]; decide)
    rw [hcn] at hres
    refine ⟨_, hres, hg.1.symm, hg.2.symm, rfl, ?_, ?_⟩
    · intro _
      refine ⟨rfl, ?_⟩
      simp only []
      rw [take_take_append _ _ _ n hpl (by omega)]
      exact List.take_left' hpl
    · intro h
      exact absurd hg h
  · have hres := ipc_oprd3_parse_skip T S charSigned 0xFF 0x55 0xAA
      (toByte (cmd1 / 256)) (toByte (cmd1 % 256)) (toByte (cmd2 / 256)) (toByte (cmd2 % 256))
      (toByte (n / 256)) (toByte (n % 256))
      ((ipc_buff.take n ++ [toByte (crc / 256), toByte (crc % 256)]).take 503
        ++ List.replicate
          (503 - (ipc_buff.take n ++ [toByte (crc / 256), toByte (crc % 256)]).length) 0)
      (List.ofFn indet) (by rw [hc1, hc2]; exact hg)
    rw [hc1, hc2, hcn] at hres
    refine ⟨_, hres, rfl, rfl, rfl, ?_, ?_⟩
    · intro h
      exact absurd h hg
    · intro _
      rfl

/-- C7 (amended) where plain `char` is signed, at `cmd1 = 0x0102`,
`cmd2 = 0xFF84`, the payload `80 FF 90`, with that pair as the accepted one. -/
theorem C7_round_trip_header_and_bounded_payload_witness :
    ∃ w res,
      ipc_Lpa_packet true (some (List.replicate 14 0)) [0x80, 0xFF, 0x90]
          ((0x0102 : Nat) : Int) ((0xFF84 : Nat) : Int) ((3 : Nat) : Int)
          = some (some w, ((3 : Nat) : Int) + 11)
        ∧ ipc_oprd3_rx 0x0102 0xFF84 true (fun _ => 0xEE) (w.take (3 + 11)) = some res
        ∧ res.cmd1 = 0x0102 ∧ res.cmd2 = 0xFF84 ∧ res.IPC_datalen = 3
        ∧ (0x0102 = 0x0102 ∧ 0xFF84 = 0xFF84 →
            res.parsed.isSome = true
              ∧ res.IPC_data.take 3 = ([0x80, 0xFF, 0x90] : List Byte).take 3)
        ∧ (¬ (0x0102 = 0x0102 ∧ 0xFF84 = 0xFF84) → res.parsed = none) :=
  C7_round_trip_header_and_bounded_payload 0x0102 0xFF84 true (fun _ => 0xEE)
    (List.replicate 14 0) [0x80, 0xFF, 0x90] 0x0102 0xFF84 3
    (by decide) (by decide) (by decide) (by decide) (by decide)
    (by decide) (by decide) (by decide) (by decide)

/-- C9 fails as stated: `read` delivered 11 bytes whose length field declares 16
payload bytes (16 + 11 > 11), under the command pair the parse block accepts.
The packet is not rejected: 16 bytes are copied, 14 of them from beyond the
received data (the zero fill of `readBuf`), and handed to `parse_data_frame`,
which decodes a frame from them. -/
theorem C9_counterexample :
    (ipc_oprd3_rx 1 2 false (fun _ => 0xEE)
        [0xFF, 0x55, 0xAA, 0x00, 0x01, 0x00, 0x02, 0x00, 0x10, 0x02, 0x00]).map
      (fun res => (res.IPC_datalen, res.IPC_data.take 16,
        res.parsed.map (fun out => out.data_frame.isSome)))
      = some (16, [0x02, 0x00, 0, 0, 0, 0, 0, 0, 0, 0, 0, 0, 0, 0, 0, 0], some true) := by
  set_option maxRecDepth 1000000 in
  decide

/-- C9 (amended): the receive path of `ipc_oprd3` has no length validation and
never rejects a packet as truncated. With `L` the value it reads from bytes 7-8:
under the accepted command pair and `L ≤ 132` it copies the `L` bytes
`readBuf[9 .. 9+L)` (received bytes, then the zero fill of the 512-byte read
buffer where the received data ends earlier) into `IPC_data` and calls
`parse_data_frame` on them with length `L`; under any other command pair it
copies nothing and does not call the decoder. -/
theorem C9_receive_path_has_no_length_check (T S : Nat) (charSigned : Bool)
    (indet : Fin 132 → Byte) (p0 p1 p2 r3 r4 r5 r6 r7 r8 : Byte) (tail : List Byte) :
    (rdU16 charSigned r3 r4 = T ∧ rdU16 charSigned r5 r6 = S → rdU16 charSigned r7 r8 ≤ 132 →
      ∃ out,
        parse_data_frame
            ((tail.take 503 ++ List.replicate (503 - tail.length) 0).take
                (rdU16 charSigned r7 r8)
              ++ (List.ofFn indet).drop (rdU16 charSigned r7 r8))
            (rdU16 charSigned r7 r8) = some out
          ∧ ipc_oprd3_rx T S charSigned indet
              (p0 :: p1 :: p2 :: r3 :: r4 :: r5 :: r6 :: r7 :: r8 :: tail)
            = some { cmd1 := T, cmd2 := S, IPC_datalen := rdU16 charSigned r7 r8,
                     IPC_data :=
                       (tail.take 503 ++ List.replicate (503 - tail.length) 0).take
                           (rdU16 charSigned r7 r8)
                         ++ (List.ofFn indet).drop (rdU16 charSigned r7 r8),
                     parsed := some out })
      ∧ (¬ (rdU16 charSigned r3 r4 = T ∧ rdU16 charSigned r5 r6 = S) →
          ipc_oprd3_rx T S charSigned indet
              (p0 :: p1 :: p2 :: r3 :: r4 :: r5 :: r6 :: r7 :: r8 :: tail)
            = some { cmd1 := rdU16 charSigned r3 r4, cmd2 := rdU16 charSigned r5 r6,
                     IPC_datalen := rdU16 charSigned r7 r8, IPC_data := List.ofFn indet,
                     parsed := none }) := by
  unfold ipc_oprd3_rx
  rw [readBufAfterRead_cons]
  constructor
  · intro hg hL
    exact ipc_oprd3_parse_match T S charSigned p0 p1 p2 r3 r4 r5 r6 r7 r8 _ (List.ofFn indet)
      hg.1 hg.2 (by rw [readTail_length]; omega) (by rw [List.length_ofFn]; exact hL)
      (by rw [List.length_ofFn]; decide)
  · intro hg
    exact ipc_oprd3_parse_skip T S charSigned p0 p1 p2 r3 r4 r5 r6 r7 r8 _ (List.ofFn indet) hg

/-! ## Fields of the decoded frame -/

/-- The data-frame branch, with the frame written as `decodedFrame`. -/
theorem parse_data_frame_decoded (b0 b1 b2 b3 b4 b5 b6 b7 b8 b9 b10 b11 b12 b13 b14 : Byte)
    (rest : List Byte) (data_length : Nat) (hlen : data_length ≤ 15 + rest.length)
    (h : b0.val % 2 = 0) :
    parse_data_frame (b0 :: b1 :: b2 :: b3 :: b4 :: b5 :: b6 :: b7 :: b8 :: b9 :: b10 :: b11
        :: b12 :: b13 :: b14 :: rest) data_length
      = some
        { data_frame := some
            (decodedFrame b0 b1 b2 b3 b4 b5 b6 b7 b8 b9 b10 b11 b12 b13 b14 rest data_length),
          route_id := rx_route_id (rx_protocol_type b10) (rx_ide b14)
            (decodedFrame b0 b1 b2 b3 b4 b5 b6 b7 b8 b9 b10 b11 b12 b13 b14 rest
              data_length).ID,
          output := printFrame
            (decodedFrame b0 b1 b2 b3 b4 b5 b6 b7 b8 b9 b10 b11 b12 b13 b14 rest
              data_length) } :=
  parse_data_frame_data b0 b1 b2 b3 b4 b5 b6 b7 b8 b9 b10 b11 b12 b13 b14 rest data_length
    hlen h

set_option maxRecDepth 100000 in
theorem rx_protocol_type_bit : ∀ b : Byte,
    rx_protocol_type b = if b.val.testBit 7 then 1 else 0 := by
  decide

set_option maxRecDepth 100000 in
theorem rx_ide_bit : ∀ b : Byte, rx_ide b = if b.val.testBit 7 then 1 else 0 := by
  decide

set_option maxRecDepth 100000 in
theorem rx_fdf_bit : ∀ b : Byte, rx_fdf b = if b.val.testBit 5 then 1 else 0 := by
  decide

set_option maxRecDepth 100000 in
theorem and7_le : ∀ b : Byte, b.val &&& 0x07 ≤ 7 := by
  decide

set_option maxRecDepth 100000 in
theorem and1F_le : ∀ b : Byte, b.val &&& 0x1F ≤ 31 := by
  decide

set_option maxRecDepth 100000 in
theorem and3F_le : ∀ b : Byte, b.val &&& 0x3F ≤ 63 := by
  decide

theorem rx_can_id_eq (b11 b12 : Byte) :
    rx_can_id b11 b12 = b11.val + (b12.val &&& 0x07) * 256 := by
  unfold rx_can_id
  have h7 := and7_le b12
  have h := b11.isLt
  rw [Nat.shiftLeft_eq]
  have e : (2 : Nat) ^ 8 = 256 := by decide
  rw [e]
  omega

theorem rx_can_id_or (b11 b12 : Byte) :
    rx_can_id b11 b12 = b11.val ||| ((b12.val &&& 0x07) <<< 8) := by
  rw [rx_can_id_eq, or_shiftLeft_eq_add _ _ 8 b11.isLt]
  rfl

theorem rx_extCan_id_sum (b11 b12 b13 b14 : Byte) :
    b11.val ||| (b12.val <<< 8) ||| (b13.val <<< 16) ||| ((b14.val &&& 0x1F) <<< 24)
      = b11.val + b12.val * 256 + b13.val * 65536 + (b14.val &&& 0x1F) * 16777216 := by
  have h11 := b11.isLt
  have h12 := b12.isLt
  have h13 := b13.isLt
  rw [or_shiftLeft_eq_add _ _ 8 (by omega : b11.val < 2 ^ 8)]
  rw [or_shiftLeft_eq_add _ _ 16 (by norm_num; omega)]
  rw [or_shiftLeft_eq_add _ _ 24 (by norm_num; omega)]
  norm_num

theorem rx_extCan_id_eq (b11 b12 b13 b14 : Byte) :
    rx_extCan_id b11 b12 b13 b14
      = b11.val ||| (b12.val <<< 8) ||| (b13.val <<< 16) ||| ((b14.val &&& 0x1F) <<< 24) := by
  unfold rx_extCan_id
  apply Nat.mod_eq_of_lt
  rw [rx_extCan_id_sum]
  have h11 := b11.isLt
  have h12 := b12.isLt
  have h13 := b13.isLt
  have h14 := and1F_le b14
  omega

theorem rx_extCan_id_le (b11 b12 b13 b14 : Byte) : rx_extCan_id b11 b12 b13 b14 ≤ 0x1FFFFFFF := by
  rw [rx_extCan_id_eq, rx_extCan_id_sum]
  have h11 := b11.isLt
  have h12 := b12.isLt
  have h13 := b13.isLt
  have h14 := and1F_le b14
  omega

/-! ## Claims on the frame decoder -/

/-- C11: frame classification. For every data-frame buffer of at least 15 bytes,
with `P` = bit 7 of byte 10, `IDE` = bit 7 of byte 14 and `FDF` = bit 5 of byte
14, `parse_data_frame` yields: `P = 1`: `LIN_RX` with `id = byte11 & 0x3F`;
`P = 0, IDE = 0`: `CAN_BASE` (`FDF = 0`) or `CANFD_BASE` (`FDF = 1`) with
`id = byte11 | ((byte12 & 0x07) << 8)`; `P = 0, IDE = 1`: `CAN_EXT` (`FDF = 0`)
or `CANFD_EXT` (`FDF = 1`) with
`id = byte11 | byte12<<8 | byte13<<16 | ((byte14 & 0x1F) << 24)`. -/
theorem C11_frame_classification
    (b0 b1 b2 b3 b4 b5 b6 b7 b8 b9 b10 b11 b12 b13 b14 : Byte) (rest : List Byte)
    (data_length : Nat) (hlen : data_length ≤ 15 + rest.length) (hdata : b0.val % 2 = 0) :
    ∃ f,
      (parse_data_frame (b0 :: b1 :: b2 :: b3 :: b4 :: b5 :: b6 :: b7 :: b8 :: b9 :: b10
          :: b11 :: b12 :: b13 :: b14 :: rest) data_length).map (fun out => out.data_frame)
          = some (some f)
        ∧ (b10.val.testBit 7 = true →
            f.ftype = FrameType.FRAME_TYPE_LIN_RX ∧ f.ID = b11.val &&& 0x3F)
        ∧ (b10.val.testBit 7 = false → b14.val.testBit 7 = false → b14.val.testBit 5 = false →
            f.ftype = FrameType.FRAME_TYPE_CAN_BASE
              ∧ f.ID = b11.val ||| ((b12.val &&& 0x07) <<< 8))
        ∧ (b10.val.testBit 7 = false → b14.val.testBit 7 = false → b14.val.testBit 5 = true →
            f.ftype = FrameType.FRAME_TYPE_CANFD_BASE
              ∧ f.ID = b11.val ||| ((b12.val &&& 0x07) <<< 8))
        ∧ (b10.val.testBit 7 = false → b14.val.testBit 7 = true → b14.val.testBit 5 = false →
            f.ftype = FrameType.FRAME_TYPE_CAN_EXT
              ∧ f.ID = b11.val ||| (b12.val <<< 8) ||| (b13.val <<< 16)
                  ||| ((b14.val &&& 0x1F) <<< 24))
        ∧ (b10.val.testBit 7 = false → b14.val.testBit 7 = true → b14.val.testBit 5 = true →
            f.ftype = FrameType.FRAME_TYPE_CANFD_EXT
              ∧ f.ID = b11.val ||| (b12.val <<< 8) ||| (b13.val <<< 16)
                  ||| ((b14.val &&& 0x1F) <<< 24)) := by
  refine ⟨decodedFrame b0 b1 b2 b3 b4 b5 b6 b7 b8 b9 b10 b11 b12 b13 b14 rest data_length,
    ?_, ?_, ?_, ?_, ?_, ?_⟩
  · rw [parse_data_frame_decoded _ _ _ _ _ _ _ _ _ _ _ _ _ _ _ _ _ hlen hdata]
    rfl
  · intro hP
    have e : rx_protocol_type b10 = 1 := by rw [rx_protocol_type_bit, hP]; rfl
    unfold decodedFrame
    simp only [e]
    exact ⟨rfl, rfl⟩
  · intro hP hI hF
    have e : rx_protocol_type b10 = 0 := by rw [rx_protocol_type_bit, hP]; rfl
    have e1 : rx_ide b14 = 0 := by rw [rx_ide_bit, hI]; rfl
    have e2 : rx_fdf b14 = 0 := by rw [rx_fdf_bit, hF]; rfl
    unfold decodedFrame
    simp only [e, e1, e2]
    exact ⟨rfl, rx_can_id_or b11 b12⟩
  · intro hP hI hF
    have e : rx_protocol_type b10 = 0 := by rw [rx_protocol_type_bit, hP]; rfl
    have e1 : rx_ide b14 = 0 := by rw [rx_ide_bit, hI]; rfl
    have e2 : rx_fdf b14 = 1 := by rw [rx_fdf_bit, hF]; rfl
    unfold decodedFrame
    simp only [e, e1, e2]
    exact ⟨rfl, rx_can_id_or b11 b12⟩
  · intro hP hI hF
    have e : rx_protocol_type b10 = 0 := by rw [rx_protocol_type_bit, hP]; rfl
    have e1 : rx_ide b14 = 1 := by rw [rx_ide_bit, hI]; rfl
    have e2 : rx_fdf b14 = 0 := by rw [rx_fdf_bit, hF]; rfl
    unfold decodedFrame
    simp only [e, e1, e2]
    exact ⟨rfl, rx_extCan_id_eq b11 b12 b13 b14⟩
  · intro hP hI hF
    have e : rx_protocol_type b10 = 0 := by rw [rx_protocol_type_bit, hP]; rfl
    have e1 : rx_ide b14 = 1 := by rw [rx_ide_bit, hI]; rfl
    have e2 : rx_fdf b14 = 1 := by rw [rx_fdf_bit, hF]; rfl
    unfold decodedFrame
    simp only [e, e1, e2]
    exact ⟨rfl, rx_extCan_id_eq b11 b12 b13 b14⟩

/-- C11 at the 15-byte frame with standard id `0x123`, classic; and, evaluated,
the same frame with the FD flag, and the frame with extended id `0x1ABCDE`. -/
theorem C11_frame_classification_witness :
    (∃ f,
      (parse_data_frame ((0x04 : Byte) :: 0x03 :: 0x02 :: 0 :: 0 :: 0 :: 0 :: 0 :: 0 :: 0 :: 0
          :: 0x23 :: 0x01 :: 0 :: 0 :: []) 15).map (fun out => out.data_frame)
          = some (some f)
        ∧ ((0 : Byte).val.testBit 7 = true →
            f.ftype = FrameType.FRAME_TYPE_LIN_RX ∧ f.ID = (0x23 : Byte).val &&& 0x3F)
        ∧ ((0 : Byte).val.testBit 7 = false → (0 : Byte).val.testBit 7 = false →
            (0 : Byte).val.testBit 5 = false →
            f.ftype = FrameType.FRAME_TYPE_CAN_BASE
              ∧ f.ID = (0x23 : Byte).val ||| (((0x01 : Byte).val &&& 0x07) <<< 8))
        ∧ ((0 : Byte).val.testBit 7 = false → (0 : Byte).val.testBit 7 = false →
            (0 : Byte).val.testBit 5 = true →
            f.ftype = FrameType.FRAME_TYPE_CANFD_BASE
              ∧ f.ID = (0x23 : Byte).val ||| (((0x01 : Byte).val &&& 0x07) <<< 8))
        ∧ ((0 : Byte).val.testBit 7 = false → (0 : Byte).val.testBit 7 = true →
            (0 : Byte).val.testBit 5 = false →
            f.ftype = FrameType.FRAME_TYPE_CAN_EXT
              ∧ f.ID = (0x23 : Byte).val ||| ((0x01 : Byte).val <<< 8)
                  ||| ((0 : Byte).val <<< 16) ||| (((0 : Byte).val &&& 0x1F) <<< 24))
        ∧ ((0 : Byte).val.testBit 7 = false → (0 : Byte).val.testBit 7 = true →
            (0 : Byte).val.testBit 5 = true →
            f.ftype = FrameType.FRAME_TYPE_CANFD_EXT
              ∧ f.ID = (0x23 : Byte).val ||| ((0x01 : Byte).val <<< 8)
                  ||| ((0 : Byte).val <<< 16) ||| (((0 : Byte).val &&& 0x1F) <<< 24)))
      ∧ (parse_data_frame [0x04, 0x03, 0x02, 0, 0, 0, 0, 0, 0, 0, 0, 0x23, 0x01, 0, 0x00] 15).map
          (fun out => out.data_frame.map (fun f => (f.ftype, f.ID)))
          = some (some (FrameType.FRAME_TYPE_CAN_BASE, 0x123))
      ∧ (parse_data_frame [0x04, 0x03, 0x02, 0, 0, 0, 0, 0, 0, 0, 0, 0x23, 0x01, 0, 0x20] 15).map
          (fun out => out.data_frame.map (fun f => (f.ftype, f.ID)))
          = some (some (FrameType.FRAME_TYPE_CANFD_BASE, 0x123))
      ∧ (parse_data_frame [0x04, 0x03, 0x02, 0, 0, 0, 0, 0, 0, 0, 0, 0xDE, 0xBC, 0x1A, 0x80] 15).map
          (fun out => out.data_frame.map (fun f => (f.ftype, f.ID)))
          = some (some (FrameType.FRAME_TYPE_CAN_EXT, 0x1ABCDE))
      ∧ (parse_data_frame [0x04, 0x03, 0x02, 0, 0, 0, 0, 0, 0, 0, 0x80, 0xE3, 0x01, 0, 0] 15).map
          (fun out => out.data_frame.map (fun f => (f.ftype, f.ID)))
          = some (some (FrameType.FRAME_TYPE_LIN_RX, 0x23)) :=
  ⟨C11_frame_classification 0x04 0x03 0x02 0 0 0 0 0 0 0 0 0x23 0x01 0 0 [] 15
    (by decide) (by decide), by decide, by decide, by decide, by decide⟩

theorem rx_data_len_eq (data_length : Nat) :
    rx_data_len data_length
      = if (data_length + 4294967296 - 15) % 4294967296 % 65536 ≤ 255
        then (data_length + 4294967296 - 15) % 4294967296 % 65536 % 256 else 8 := rfl

theorem rx_data_len_short (data_length : Nat) (h : data_length < 15) :
    rx_data_len data_length = 8 := by
  rw [rx_data_len_eq, if_neg (by omega)]

theorem rx_data_len_fits (data_length : Nat) (h15 : 15 ≤ data_length)
    (h : data_length - 15 ≤ 255) : rx_data_len data_length = data_length - 15 := by
  rw [rx_data_len_eq, if_pos (by omega)]
  omega

theorem rx_data_len_clamped (data_length : Nat) (h : 255 < data_length - 15)
    (hmax : data_length ≤ 65535) : rx_data_len data_length = 8 := by
  rw [rx_data_len_eq, if_neg (by omega)]

theorem decodedFrame_Data (b0 b1 b2 b3 b4 b5 b6 b7 b8 b9 b10 b11 b12 b13 b14 : Byte)
    (rest : List Byte) (data_length : Nat) :
    (decodedFrame b0 b1 b2 b3 b4 b5 b6 b7 b8 b9 b10 b11 b12 b13 b14 rest data_length).Data
      = rest.take (data_length - 15) := rfl

theorem decodedFrame_data_len (b0 b1 b2 b3 b4 b5 b6 b7 b8 b9 b10 b11 b12 b13 b14 : Byte)
    (rest : List Byte) (data_length : Nat) :
    (decodedFrame b0 b1 b2 b3 b4 b5 b6 b7 b8 b9 b10 b11 b12 b13 b14 rest data_length).data_len
      = rx_data_len data_length := by
  simp only [decodedFrame]

theorem decodedFrame_port (b0 b1 b2 b3 b4 b5 b6 b7 b8 b9 b10 b11 b12 b13 b14 : Byte)
    (rest : List Byte) (data_length : Nat) :
    (decodedFrame b0 b1 b2 b3 b4 b5 b6 b7 b8 b9 b10 b11 b12 b13 b14 rest data_length).port
      = rx_sourcePort b0 b1 := rfl

theorem decodedFrame_ts_ns (b0 b1 b2 b3 b4 b5 b6 b7 b8 b9 b10 b11 b12 b13 b14 : Byte)
    (rest : List Byte) (data_length : Nat) :
    (decodedFrame b0 b1 b2 b3 b4 b5 b6 b7 b8 b9 b10 b11 b12 b13 b14 rest data_length).ts_ns
      = rx_timeStamp_ns b1 b2 := rfl

theorem decodedFrame_ts_us_low (b0 b1 b2 b3 b4 b5 b6 b7 b8 b9 b10 b11 b12 b13 b14 : Byte)
    (rest : List Byte) (data_length : Nat) :
    (decodedFrame b0 b1 b2 b3 b4 b5 b6 b7 b8 b9 b10 b11 b12 b13 b14 rest data_length).ts_us_low
      = rx_timeStamp_us b2 b3 b4 b5 b6 := rfl

theorem decodedFrame_ts_us_high (b0 b1 b2 b3 b4 b5 b6 b7 b8 b9 b10 b11 b12 b13 b14 : Byte)
    (rest : List Byte) (data_length : Nat) :
    (decodedFrame b0 b1 b2 b3 b4 b5 b6 b7 b8 b9 b10 b11 b12 b13 b14 rest data_length).ts_us_high
      = rx_timeStamp_us b6 b7 b8 b9 b10 := rfl

theorem decodedFrame_proto (b0 b1 b2 b3 b4 b5 b6 b7 b8 b9 b10 b11 b12 b13 b14 : Byte)
    (rest : List Byte) (data_length : Nat) :
    (decodedFrame b0 b1 b2 b3 b4 b5 b6 b7 b8 b9 b10 b11 b12 b13 b14 rest data_length).proto
      = rx_protocol_type b10 := rfl

theorem decodedFrame_ftype (b0 b1 b2 b3 b4 b5 b6 b7 b8 b9 b10 b11 b12 b13 b14 : Byte)
    (rest : List Byte) (data_length : Nat) :
    (decodedFrame b0 b1 b2 b3 b4 b5 b6 b7 b8 b9 b10 b11 b12 b13 b14 rest data_length).ftype
      = rx_ftype (rx_protocol_type b10) (rx_ide b14) (rx_fdf b14) := rfl

theorem decodedFrame_ID (b0 b1 b2 b3 b4 b5 b6 b7 b8 b9 b10 b11 b12 b13 b14 : Byte)
    (rest : List Byte) (data_length : Nat) :
    (decodedFrame b0 b1 b2 b3 b4 b5 b6 b7 b8 b9 b10 b11 b12 b13 b14 rest data_length).ID
      = rx_ID (rx_protocol_type b10) (rx_ide b14) (rx_can_id b11 b12)
          (rx_extCan_id b11 b12 b13 b14) (rx_lin_id b11) := rfl

/-- C12 fails as stated. `parse_data_frame` is handed `data_length = 3` and a
pointer to a 132-byte array of which only the first three bytes were filled (as
`ipc_oprd3` does for a packet declaring 3 payload bytes): it does not fail, it
reads bytes 3..14 beyond the declared length and decodes a frame from them, with
`data_len = 8` and no data byte stored. When the array itself holds only the 3
bytes, the same reads leave the array (no defined result). -/
theorem C12_counterexample :
    (parse_data_frame ([0x04, 0x03, 0x02] ++ List.replicate 129 0xEE) 3).map
        (fun out => out.data_frame.map (fun f => (f.port, f.ID, f.data_len, f.Data)))
        = some (some (130, 46, 8, []))
      ∧ (ipc_oprd3_rx 1 2 false (fun _ => 0xEE)
          [0xFF, 0x55, 0xAA, 0x00, 0x01, 0x00, 0x02, 0x00, 0x03, 0x04, 0x03, 0x02]).map
          (fun res => (res.IPC_datalen,
            res.parsed.map (fun out => out.data_frame.map (fun f => (f.data_len, f.Data)))))
          = some (3, some (some (8, [])))
      ∧ parse_data_frame [0x04, 0x03, 0x02] 3 = none := by
  set_option maxRecDepth 1000000 in
  exact ⟨by decide, by decide, by decide⟩

/-- C12 (amended): `parse_data_frame` has no length check and no failure result;
it reads the fifteen header bytes whatever `data_length` is. When
`data_length < 15` and the array behind `buffer` holds at least 15 bytes, a data
frame (bit 0 of byte 0 clear) is decoded from those bytes all the same, with no
data byte stored and `data_len = 8`; with bit 0 of byte 0 set nothing is
produced. -/
theorem C12_short_length_still_decoded
    (b0 b1 b2 b3 b4 b5 b6 b7 b8 b9 b10 b11 b12 b13 b14 : Byte) (rest : List Byte)
    (data_length : Nat) (hshort : data_length < 15) :
    (b0.val % 2 = 0 →
      ∃ f,
        (parse_data_frame (b0 :: b1 :: b2 :: b3 :: b4 :: b5 :: b6 :: b7 :: b8 :: b9 :: b10
            :: b11 :: b12 :: b13 :: b14 :: rest) data_length).map (fun out => out.data_frame)
            = some (some f)
          ∧ f = decodedFrame b0 b1 b2 b3 b4 b5 b6 b7 b8 b9 b10 b11 b12 b13 b14 rest data_length
          ∧ f.Data = [] ∧ f.data_len = 8)
      ∧ (b0.val % 2 = 1 →
          parse_data_frame (b0 :: b1 :: b2 :: b3 :: b4 :: b5 :: b6 :: b7 :: b8 :: b9 :: b10
            :: b11 :: b12 :: b13 :: b14 :: rest) data_length
            = some { data_frame := none, route_id := none, output := [] }) := by
  constructor
  · intro h
    refine ⟨_, ?_, rfl, ?_, ?_⟩
    · rw [parse_data_frame_decoded _ _ _ _ _ _ _ _ _ _ _ _ _ _ _ _ _ (by omega) h]
      rfl
    · have e : data_length - 15 = 0 := by omega
      rw [decodedFrame_Data, e]
      rfl
    · rw [decodedFrame_data_len]
      exact rx_data_len_short data_length hshort
  · intro h
    exact parse_data_frame_other _ _ _ _ _ _ _ _ _ _ _ _ _ _ _ _ _ h

/-- C12 (amended) at `data_length = 3` over a 15-byte array. -/
theorem C12_short_length_still_decoded_witness :
    ((0x04 : Byte).val % 2 = 0 →
      ∃ f,
        (parse_data_frame ((0x04 : Byte) :: 0x03 :: 0x02 :: 0 :: 0 :: 0 :: 0 :: 0 :: 0 :: 0
            :: 0 :: 0x23 :: 0x01 :: 0 :: 0 :: []) 3).map (fun out => out.data_frame)
            = some (some f)
          ∧ f = decodedFrame 0x04 0x03 0x02 0 0 0 0 0 0 0 0 0x23 0x01 0 0 [] 3
          ∧ f.Data = [] ∧ f.data_len = 8)
      ∧ ((0x04 : Byte).val % 2 = 1 →
          parse_data_frame ((0x04 : Byte) :: 0x03 :: 0x02 :: 0 :: 0 :: 0 :: 0 :: 0 :: 0 :: 0
            :: 0 :: 0x23 :: 0x01 :: 0 :: 0 :: []) 3
            = some { data_frame := none, route_id := none, output := [] }) :=
  C12_short_length_still_decoded 0x04 0x03 0x02 0 0 0 0 0 0 0 0 0x23 0x01 0 0 [] 3
    (by decide)

/-- C13: for every data-frame buffer and every `data_length = L` with
`15 ≤ L ≤ 65535` inside it: if `L - 15 ≤ 255` then `data_len = L - 15` and the
data bytes stored are exactly `buffer[15], ..., buffer[L-1]` in order; if
`L - 15 > 255` then `data_len = 8`. -/
theorem C13_data_len_and_payload
    (b0 b1 b2 b3 b4 b5 b6 b7 b8 b9 b10 b11 b12 b13 b14 : Byte) (rest : List Byte)
    (data_length : Nat) (h15 : 15 ≤ data_length) (hmax : data_length ≤ 65535)
    (hlen : data_length ≤ 15 + rest.length) (hdata : b0.val % 2 = 0) :
    ∃ f,
      (parse_data_frame (b0 :: b1 :: b2 :: b3 :: b4 :: b5 :: b6 :: b7 :: b8 :: b9 :: b10
          :: b11 :: b12 :: b13 :: b14 :: rest) data_length).map (fun out => out.data_frame)
          = some (some f)
        ∧ (data_length - 15 ≤ 255 →
            f.data_len = data_length - 15
              ∧ f.Data.length = data_length - 15
              ∧ f.Data = ((b0 :: b1 :: b2 :: b3 :: b4 :: b5 :: b6 :: b7 :: b8 :: b9 :: b10
                  :: b11 :: b12 :: b13 :: b14 :: rest).drop 15).take (data_length - 15)
              ∧ ∀ k, k < data_length - 15 →
                  f.Data[k]? = (b0 :: b1 :: b2 :: b3 :: b4 :: b5 :: b6 :: b7 :: b8 :: b9 :: b10
                    :: b11 :: b12 :: b13 :: b14 :: rest)[15 + k]?)
        ∧ (255 < data_length - 15 → f.data_len = 8) := by
  refine ⟨decodedFrame b0 b1 b2 b3 b4 b5 b6 b7 b8 b9 b10 b11 b12 b13 b14 rest data_length,
    ?_, ?_, ?_⟩
  · rw [parse_data_frame_decoded _ _ _ _ _ _ _ _ _ _ _ _ _ _ _ _ _ hlen hdata]
    rfl
  · intro h
    rw [decodedFrame_data_len, decodedFrame_Data]
    refine ⟨rx_data_len_fits data_length h15 h, ?_, rfl, ?_⟩
    · rw [List.length_take]
      omega
    · intro k hk
      rw [List.getElem?_take_of_lt hk]
      have e : 15 + k = k + 15 := by omega
      rw [e]
      simp only [List.getElem?_cons_succ]
  · intro h
    rw [decodedFrame_data_len]
    exact rx_data_len_clamped data_length h hmax

/-- C13 at a 23-byte frame (8 data bytes), with the decoded data evaluated, and,
evaluated, a 300-byte frame (285 > 255 data bytes, `data_len = 8`). -/
theorem C13_data_len_and_payload_witness :
    (∃ f,
      (parse_data_frame ((0x04 : Byte) :: 0x03 :: 0x02 :: 0 :: 0 :: 0 :: 0 :: 0 :: 0 :: 0 :: 0
          :: 0x23 :: 0x01 :: 0 :: 0 :: [1, 2, 3, 4, 5, 6, 7, 8]) 23).map
            (fun out => out.data_frame) = some (some f)
        ∧ (23 - 15 ≤ 255 →
            f.data_len = 23 - 15
              ∧ f.Data.length = 23 - 15
              ∧ f.Data = (((0x04 : Byte) :: 0x03 :: 0x02 :: 0 :: 0 :: 0 :: 0 :: 0 :: 0 :: 0 :: 0
                  :: 0x23 :: 0x01 :: 0 :: 0 :: [1, 2, 3, 4, 5, 6, 7, 8]).drop 15).take (23 - 15)
              ∧ ∀ k, k < 23 - 15 →
                  f.Data[k]? = ((0x04 : Byte) :: 0x03 :: 0x02 :: 0 :: 0 :: 0 :: 0 :: 0 :: 0 :: 0
                    :: 0 :: 0x23 :: 0x01 :: 0 :: 0 :: [1, 2, 3, 4, 5, 6, 7, 8])[15 + k]?)
        ∧ (255 < 23 - 15 → f.data_len = 8))
      ∧ (parse_data_frame [0x04, 0x03, 0x02, 0, 0, 0, 0, 0, 0, 0, 0, 0x23, 0x01, 0, 0,
          1, 2, 3, 4, 5, 6, 7, 8] 23).map
          (fun out => out.data_frame.map (fun f => (f.data_len, f.Data)))
          = some (some (8, [1, 2, 3, 4, 5, 6, 7, 8]))
      ∧ (parse_data_frame (List.replicate 300 0) 300).map
          (fun out => out.data_frame.map (fun f => (f.data_len, f.Data.length)))
          = some (some (8, 285)) :=
  ⟨C13_data_len_and_payload 0x04 0x03 0x02 0 0 0 0 0 0 0 0 0x23 0x01 0 0
    [1, 2, 3, 4, 5, 6, 7, 8] 23 (by decide) (by decide) (by decide) (by decide),
   by decide, by set_option maxRecDepth 1000000 in decide⟩

set_option maxRecDepth 100000 in
theorem andFE_shift : ∀ b : Byte, (b.val &&& 0xFE) >>> 1 = b.val / 2 := by
  decide

set_option maxRecDepth 100000 in
theorem and01_shift7 : ∀ b : Byte, (b.val &&& 0x01) <<< 7 = 128 * (b.val % 2) := by
  decide

set_option maxRecDepth 100000 in
theorem and01_mod : ∀ b : Byte, b.val &&& 0x01 = b.val % 2 := by
  decide

theorem rx_sourcePort_eq (b0 b1 : Byte) :
    rx_sourcePort b0 b1 = b0.val / 2 + 128 * (b1.val % 2) := by
  unfold rx_sourcePort
  rw [andFE_shift, and01_shift7]
  have h0 := b0.isLt
  omega

/-- C14 fails as stated: with bit 0 of byte 1 set the decoded port is 128 or
more; bytes `FE FF` give 255. -/
theorem C14_counterexample :
    (parse_data_frame [0x00, 0x01, 0, 0, 0, 0, 0, 0, 0, 0, 0, 0, 0, 0, 0] 15).map
        (fun out => out.data_frame.map (fun f => f.port)) = some (some 128)
      ∧ (parse_data_frame [0xFE, 0xFF, 0, 0, 0, 0, 0, 0, 0, 0, 0, 0, 0, 0, 0] 15).map
        (fun out => out.data_frame.map (fun f => f.port)) = some (some 255) := by
  exact ⟨by decide, by decide⟩

/-- C14 (amended): for every data-frame buffer of at least 15 bytes the decoded
port is an 8-bit value, `0..255`: bits 1..7 of byte 0 in its low seven bits and
bit 0 of byte 1 in its bit 7. It lies in `0..127` exactly when bit 0 of byte 1
is clear. -/
theorem C14_port_is_eight_bits
    (b0 b1 b2 b3 b4 b5 b6 b7 b8 b9 b10 b11 b12 b13 b14 : Byte) (rest : List Byte)
    (data_length : Nat) (hlen : data_length ≤ 15 + rest.length) (hdata : b0.val % 2 = 0) :
    ∃ f,
      (parse_data_frame (b0 :: b1 :: b2 :: b3 :: b4 :: b5 :: b6 :: b7 :: b8 :: b9 :: b10
          :: b11 :: b12 :: b13 :: b14 :: rest) data_length).map (fun out => out.data_frame)
          = some (some f)
        ∧ f.port = b0.val / 2 + 128 * (b1.val % 2)
        ∧ f.port ≤ 255
        ∧ (f.port ≤ 127 ↔ b1.val % 2 = 0) := by
  refine ⟨decodedFrame b0 b1 b2 b3 b4 b5 b6 b7 b8 b9 b10 b11 b12 b13 b14 rest data_length,
    ?_, ?_, ?_, ?_⟩
  · rw [parse_data_frame_decoded _ _ _ _ _ _ _ _ _ _ _ _ _ _ _ _ _ hlen hdata]
    rfl
  · rw [decodedFrame_port, rx_sourcePort_eq]
  · rw [decodedFrame_port, rx_sourcePort_eq]
    have h0 := b0.isLt
    omega
  · rw [decodedFrame_port, rx_sourcePort_eq]
    have h0 := b0.isLt
    omega

/-- C14 (amended) at a frame whose bytes 0 and 1 are `04 03` (port 130). -/
theorem C14_port_is_eight_bits_witness :
    (∃ f,
      (parse_data_frame ((0x04 : Byte) :: 0x03 :: 0x02 :: 0 :: 0 :: 0 :: 0 :: 0 :: 0 :: 0 :: 0
          :: 0x23 :: 0x01 :: 0 :: 0 :: []) 15).map (fun out => out.data_frame)
          = some (some f)
        ∧ f.port = (0x04 : Byte).val / 2 + 128 * ((0x03 : Byte).val % 2)
        ∧ f.port ≤ 255
        ∧ (f.port ≤ 127 ↔ (0x03 : Byte).val % 2 = 0))
      ∧ (parse_data_frame [0x04, 0x03, 0x02, 0, 0, 0, 0, 0, 0, 0, 0, 0x23, 0x01, 0, 0] 15).map
          (fun out => out.data_frame.map (fun f => f.port)) = some (some 130) :=
  ⟨C14_port_is_eight_bits 0x04 0x03 0x02 0 0 0 0 0 0 0 0 0x23 0x01 0 0 [] 15
    (by decide) (by decide), by decide⟩

theorem rx_timeStamp_ns_raw (b1 b2 : Byte) :
    (b1.val >>> 1) ||| ((b2.val &&& 0x01) <<< 7) = b1.val / 2 + 128 * (b2.val % 2) := by
  have h1 := b1.isLt
  have e : b1.val >>> 1 = b1.val / 2 := by rw [Nat.shiftRight_eq_div_pow, Nat.pow_one]
  rw [e, or_shiftLeft_eq_add _ _ 7 (by norm_num; omega), and01_mod]
  norm_num
  omega

theorem rx_timeStamp_ns_eq (b1 b2 : Byte) :
    rx_timeStamp_ns b1 b2 = 10 * ((b1.val >>> 1) ||| ((b2.val &&& 0x01) <<< 7)) := by
  have h1 := b1.isLt
  have hraw := rx_timeStamp_ns_raw b1 b2
  have e : b1.val >>> 1 = b1.val / 2 := by rw [Nat.shiftRight_eq_div_pow, Nat.pow_one]
  unfold rx_timeStamp_ns
  rw [andFE_shift, Nat.mod_eq_of_lt (by omega : b1.val / 2 < 65536)]
  rw [e] at hraw
  rw [e, hraw]
  omega

/-- C16: for every data-frame buffer of at least 15 bytes the decoded
`timestamp_ns` is exactly 10 times the raw counter
`(byte1 >> 1) | ((byte2 & 1) << 7)`; the raw counter is at most 255, so the
product (at most 2550) does not wrap its 16-bit storage, and `timestamp_ns` is a
multiple of 10. -/
theorem C16_timestamp_ns_is_ten_times_raw
    (b0 b1 b2 b3 b4 b5 b6 b7 b8 b9 b10 b11 b12 b13 b14 : Byte) (rest : List Byte)
    (data_length : Nat) (hlen : data_length ≤ 15 + rest.length) (hdata : b0.val % 2 = 0) :
    ∃ f,
      (parse_data_frame (b0 :: b1 :: b2 :: b3 :: b4 :: b5 :: b6 :: b7 :: b8 :: b9 :: b10
          :: b11 :: b12 :: b13 :: b14 :: rest) data_length).map (fun out => out.data_frame)
          = some (some f)
        ∧ f.ts_ns = 10 * ((b1.val >>> 1) ||| ((b2.val &&& 0x01) <<< 7))
        ∧ (b1.val >>> 1) ||| ((b2.val &&& 0x01) <<< 7) ≤ 255
        ∧ 10 * ((b1.val >>> 1) ||| ((b2.val &&& 0x01) <<< 7)) ≤ 65535
        ∧ f.ts_ns % 10 = 0 := by
  have hraw := rx_timeStamp_ns_raw b1 b2
  have h1 := b1.isLt
  refine ⟨decodedFrame b0 b1 b2 b3 b4 b5 b6 b7 b8 b9 b10 b11 b12 b13 b14 rest data_length,
    ?_, ?_, ?_, ?_, ?_⟩
  · rw [parse_data_frame_decoded _ _ _ _ _ _ _ _ _ _ _ _ _ _ _ _ _ hlen hdata]
    rfl
  · rw [decodedFrame_ts_ns, rx_timeStamp_ns_eq]
  · omega
  · omega
  · rw [decodedFrame_ts_ns, rx_timeStamp_ns_eq]
    omega

/-- C16 at a frame whose bytes 1 and 2 are `FF 03` (raw counter 255). -/
theorem C16_timestamp_ns_is_ten_times_raw_witness :
    (∃ f,
      (parse_data_frame ((0x04 : Byte) :: 0xFF :: 0x03 :: 0 :: 0 :: 0 :: 0 :: 0 :: 0 :: 0 :: 0
          :: 0x23 :: 0x01 :: 0 :: 0 :: []) 15).map (fun out => out.data_frame)
          = some (some f)
        ∧ f.ts_ns = 10 * (((0xFF : Byte).val >>> 1) ||| (((0x03 : Byte).val &&& 0x01) <<< 7))
        ∧ ((0xFF : Byte).val >>> 1) ||| (((0x03 : Byte).val &&& 0x01) <<< 7) ≤ 255
        ∧ 10 * (((0xFF : Byte).val >>> 1) ||| (((0x03 : Byte).val &&& 0x01) <<< 7)) ≤ 65535
        ∧ f.ts_ns % 10 = 0)
      ∧ (parse_data_frame [0x04, 0xFF, 0x03, 0, 0, 0, 0, 0, 0, 0, 0, 0x23, 0x01, 0, 0] 15).map
          (fun out => out.data_frame.map (fun f => f.ts_ns)) = some (some 2550) :=
  ⟨C16_timestamp_ns_is_ten_times_raw 0x04 0xFF 0x03 0 0 0 0 0 0 0 0 0x23 0x01 0 0 [] 15
    (by decide) (by decide), by decide⟩

theorem rx_timeStamp_us_sum (c0 c1 c2 c3 c4 : Byte) :
    (c0.val >>> 1) ||| (c1.val <<< 7) ||| (c2.val <<< 15) ||| (c3.val <<< 23)
        ||| ((c4.val &&& 0x01) <<< 31)
      = c0.val / 2 + c1.val * 128 + c2.val * 32768 + c3.val * 8388608
        + (c4.val % 2) * 2147483648 := by
  have h0 := c0.isLt
  have h1 := c1.isLt
  have h2 := c2.isLt
  have h3 := c3.isLt
  have e : c0.val >>> 1 = c0.val / 2 := by rw [Nat.shiftRight_eq_div_pow, Nat.pow_one]
  rw [e, and01_mod]
  rw [or_shiftLeft_eq_add _ _ 7 (by norm_num; omega)]
  rw [or_shiftLeft_eq_add _ _ 15 (by norm_num; omega)]
  rw [or_shiftLeft_eq_add _ _ 23 (by norm_num; omega)]
  rw [or_shiftLeft_eq_add _ _ 31 (by norm_num; omega)]
  norm_num

theorem rx_timeStamp_us_eq (c0 c1 c2 c3 c4 : Byte) :
    rx_timeStamp_us c0 c1 c2 c3 c4
      = c0.val / 2 + c1.val * 128 + c2.val * 32768 + c3.val * 8388608
        + (c4.val % 2) * 2147483648 := by
  unfold rx_timeStamp_us
  rw [rx_timeStamp_us_sum]
  apply Nat.mod_eq_of_lt
  have h0 := c0.isLt
  have h1 := c1.isLt
  have h2 := c2.isLt
  have h3 := c3.isLt
  omega

/-- The 64 stream bits 17..80 of the eleven leading bytes, as the two words. -/
theorem timestamp_words (b0 b1 b2 b3 b4 b5 b6 b7 b8 b9 b10 : Byte) (N : Nat)
    (hN : N = b0.val + b1.val * 256 + b2.val * 256 ^ 2 + b3.val * 256 ^ 3 + b4.val * 256 ^ 4
      + b5.val * 256 ^ 5 + b6.val * 256 ^ 6 + b7.val * 256 ^ 7 + b8.val * 256 ^ 8
      + b9.val * 256 ^ 9 + b10.val * 256 ^ 10) :
    rx_timeStamp_us b2 b3 b4 b5 b6 = N / 2 ^ 17 % 2 ^ 32
      ∧ rx_timeStamp_us b6 b7 b8 b9 b10 = N / 2 ^ 49 % 2 ^ 32 := by
  rw [rx_timeStamp_us_eq, rx_timeStamp_us_eq]
  have h0 := b0.isLt
  have h1 := b1.isLt
  have h2 := b2.isLt
  have h3 := b3.isLt
  have h4 := b4.isLt
  have h5 := b5.isLt
  have h6 := b6.isLt
  have h7 := b7.isLt
  have h8 := b8.isLt
  have h9 := b9.isLt
  have h10 := b10.isLt
  norm_num at hN ⊢
  constructor <;> omega

theorem littleEndianValue_eleven (b0 b1 b2 b3 b4 b5 b6 b7 b8 b9 b10 : Byte) :
    littleEndianValue [b0, b1, b2, b3, b4, b5, b6, b7, b8, b9, b10]
      = b0.val + b1.val * 256 + b2.val * 256 ^ 2 + b3.val * 256 ^ 3 + b4.val * 256 ^ 4
        + b5.val * 256 ^ 5 + b6.val * 256 ^ 6 + b7.val * 256 ^ 7 + b8.val * 256 ^ 8
        + b9.val * 256 ^ 9 + b10.val * 256 ^ 10 := by
  simp only [littleEndianValue]
  ring

/-- C15: for every data-frame buffer of at least 15 bytes, each decoded
microsecond word fits in 32 bits, and the 64-bit timestamp
`(ts_us_high << 32) | ts_us_low` equals bits 17..80 of the buffer read as a
little-endian bitstream, `floor(N / 2^17) mod 2^64` with `N` the little-endian
value of bytes 0..10. The low word is bits 17..48 and the high word bits 49..80,
so no input bit contributes to both. -/
theorem C15_timestamp_is_bits_17_to_80
    (b0 b1 b2 b3 b4 b5 b6 b7 b8 b9 b10 b11 b12 b13 b14 : Byte) (rest : List Byte)
    (data_length : Nat) (hlen : data_length ≤ 15 + rest.length) (hdata : b0.val % 2 = 0) :
    ∃ f,
      (parse_data_frame (b0 :: b1 :: b2 :: b3 :: b4 :: b5 :: b6 :: b7 :: b8 :: b9 :: b10
          :: b11 :: b12 :: b13 :: b14 :: rest) data_length).map (fun out => out.data_frame)
          = some (some f)
        ∧ f.ts_us_low < 2 ^ 32 ∧ f.ts_us_high < 2 ^ 32
        ∧ (f.ts_us_high <<< 32) ||| f.ts_us_low
            = littleEndianValue [b0, b1, b2, b3, b4, b5, b6, b7, b8, b9, b10] / 2 ^ 17 % 2 ^ 64
        ∧ f.ts_us_low
            = littleEndianValue [b0, b1, b2, b3, b4, b5, b6, b7, b8, b9, b10] / 2 ^ 17 % 2 ^ 32
        ∧ f.ts_us_high
            = littleEndianValue [b0, b1, b2, b3, b4, b5, b6, b7, b8, b9, b10] / 2 ^ 49 % 2 ^ 32 := by
  obtain ⟨hL, hH⟩ := timestamp_words b0 b1 b2 b3 b4 b5 b6 b7 b8 b9 b10 _
    (littleEndianValue_eleven b0 b1 b2 b3 b4 b5 b6 b7 b8 b9 b10)
  generalize littleEndianValue [b0, b1, b2, b3, b4, b5, b6, b7, b8, b9, b10] = N at hL hH ⊢
  have hLlt : rx_timeStamp_us b2 b3 b4 b5 b6 < 2 ^ 32 := by
    rw [hL]; exact Nat.mod_lt _ (Nat.two_pow_pos 32)
  have hHlt : rx_timeStamp_us b6 b7 b8 b9 b10 < 2 ^ 32 := by
    rw [hH]; exact Nat.mod_lt _ (Nat.two_pow_pos 32)
  refine ⟨decodedFrame b0 b1 b2 b3 b4 b5 b6 b7 b8 b9 b10 b11 b12 b13 b14 rest data_length,
    ?_, ?_, ?_, ?_, ?_, ?_⟩
  · rw [parse_data_frame_decoded _ _ _ _ _ _ _ _ _ _ _ _ _ _ _ _ _ hlen hdata]
    rfl
  · rw [decodedFrame_ts_us_low]; exact hLlt
  · rw [decodedFrame_ts_us_high]; exact hHlt
  · rw [decodedFrame_ts_us_low, decodedFrame_ts_us_high, Nat.or_comm,
      or_shiftLeft_eq_add _ _ 32 hLlt, hL, hH]
    norm_num
    omega
  · rw [decodedFrame_ts_us_low]; exact hL
  · rw [decodedFrame_ts_us_high]; exact hH

/-- C15 at a frame whose bits 17..80 hold `0x0123456789ABCDEF`. -/
theorem C15_timestamp_is_bits_17_to_80_witness :
    (∃ f,
      (parse_data_frame ((0x04 : Byte) :: 0x00 :: 0xDE :: 0x9B :: 0x57 :: 0x13 :: 0xCF :: 0x8A
          :: 0x46 :: 0x02 :: 0x00 :: 0x23 :: 0x01 :: 0 :: 0 :: []) 15).map
            (fun out => out.data_frame) = some (some f)
        ∧ f.ts_us_low < 2 ^ 32 ∧ f.ts_us_high < 2 ^ 32
        ∧ (f.ts_us_high <<< 32) ||| f.ts_us_low
            = littleEndianValue [0x04, 0x00, 0xDE, 0x9B, 0x57, 0x13, 0xCF, 0x8A, 0x46, 0x02, 0x00]
                / 2 ^ 17 % 2 ^ 64
        ∧ f.ts_us_low
            = littleEndianValue [0x04, 0x00, 0xDE, 0x9B, 0x57, 0x13, 0xCF, 0x8A, 0x46, 0x02, 0x00]
                / 2 ^ 17 % 2 ^ 32
        ∧ f.ts_us_high
            = littleEndianValue [0x04, 0x00, 0xDE, 0x9B, 0x57, 0x13, 0xCF, 0x8A, 0x46, 0x02, 0x00]
                / 2 ^ 49 % 2 ^ 32)
      ∧ (parse_data_frame [0x04, 0x00, 0xDE, 0x9B, 0x57, 0x13, 0xCF, 0x8A, 0x46, 0x02, 0x00,
          0x23, 0x01, 0, 0] 15).map
          (fun out => out.data_frame.map (fun f => (f.ts_us_high, f.ts_us_low)))
          = some (some (0x01234567, 0x89ABCDEF)) :=
  ⟨C15_timestamp_is_bits_17_to_80 0x04 0x00 0xDE 0x9B 0x57 0x13 0xCF 0x8A 0x46 0x02 0x00
    0x23 0x01 0 0 [] 15 (by decide) (by decide), by decide⟩

theorem rx_protocol_type_cases (b : Byte) : rx_protocol_type b = 0 ∨ rx_protocol_type b = 1 := by
  unfold rx_protocol_type
  split
  · exact Or.inr rfl
  · exact Or.inl rfl

theorem rx_ide_cases (b : Byte) : rx_ide b = 0 ∨ rx_ide b = 1 := by
  unfold rx_ide
  split
  · exact Or.inr rfl
  · exact Or.inl rfl

theorem rx_fdf_cases (b : Byte) : rx_fdf b = 0 ∨ rx_fdf b = 1 := by
  unfold rx_fdf
  split
  · exact Or.inr rfl
  · exact Or.inl rfl

theorem rx_can_id_le (b11 b12 : Byte) : rx_can_id b11 b12 ≤ 0x7FF := by
  rw [rx_can_id_eq]
  have h := b11.isLt
  have h7 := and7_le b12
  omega

theorem rx_lin_id_le (b11 : Byte) : rx_lin_id b11 ≤ 0x3F := and3F_le b11

/-- C17: invariant of every frame produced by `parse_data_frame` from a buffer
of at least 15 bytes: `id ≤ 0x7FF` when the frame type is `CAN_BASE` or
`CANFD_BASE`, `id ≤ 0x1FFFFFFF` when it is `CAN_EXT` or `CANFD_EXT`,
`id ≤ 0x3F` when it is `LIN_RX`; and the protocol is LIN (`proto = 1`, the value
other than `PROTOCOL_CAN`) exactly when the frame type is `LIN_RX`. -/
theorem C17_id_width_agrees_with_frame_type
    (b0 b1 b2 b3 b4 b5 b6 b7 b8 b9 b10 b11 b12 b13 b14 : Byte) (rest : List Byte)
    (data_length : Nat) (hlen : data_length ≤ 15 + rest.length) (hdata : b0.val % 2 = 0) :
    ∃ f,
      (parse_data_frame (b0 :: b1 :: b2 :: b3 :: b4 :: b5 :: b6 :: b7 :: b8 :: b9 :: b10
          :: b11 :: b12 :: b13 :: b14 :: rest) data_length).map (fun out => out.data_frame)
          = some (some f)
        ∧ (f.ftype = FrameType.FRAME_TYPE_CAN_BASE ∨ f.ftype = FrameType.FRAME_TYPE_CANFD_BASE →
            f.ID ≤ 0x7FF)
        ∧ (f.ftype = FrameType.FRAME_TYPE_CAN_EXT ∨ f.ftype = FrameType.FRAME_TYPE_CANFD_EXT →
            f.ID ≤ 0x1FFFFFFF)
        ∧ (f.ftype = FrameType.FRAME_TYPE_LIN_RX → f.ID ≤ 0x3F)
        ∧ (f.proto = 1 ↔ f.ftype = FrameType.FRAME_TYPE_LIN_RX)
        ∧ (f.proto ≠ PROTOCOL_CAN ↔ f.ftype = FrameType.FRAME_TYPE_LIN_RX) := by
  have hcan := rx_can_id_le b11 b12
  have hext := rx_extCan_id_le b11 b12 b13 b14
  have hlin := rx_lin_id_le b11
  refine ⟨decodedFrame b0 b1 b2 b3 b4 b5 b6 b7 b8 b9 b10 b11 b12 b13 b14 rest data_length,
    ?_, ?_⟩
  · rw [parse_data_frame_decoded _ _ _ _ _ _ _ _ _ _ _ _ _ _ _ _ _ hlen hdata]
    rfl
  · rw [decodedFrame_ftype, decodedFrame_ID, decodedFrame_proto]
    rcases rx_protocol_type_cases b10 with hp | hp <;>
      rcases rx_ide_cases b14 with hi | hi <;>
      rcases rx_fdf_cases b14 with hf | hf <;>
      rw [hp, hi, hf] <;>
      simp [rx_ftype, rx_ID, PROTOCOL_CAN, STANDARD_CAN, CAN_FD] <;>
      omega

/-- C17 at an extended CAN FD frame (`byte14 = 0xBF`), with its type and id. -/
theorem C17_id_width_agrees_with_frame_type_witness :
    (∃ f,
      (parse_data_frame ((0x04 : Byte) :: 0x03 :: 0x02 :: 0 :: 0 :: 0 :: 0 :: 0 :: 0 :: 0 :: 0
          :: 0xFF :: 0xFF :: 0xFF :: 0xBF :: []) 15).map (fun out => out.data_frame)
          = some (some f)
        ∧ (f.ftype = FrameType.FRAME_TYPE_CAN_BASE ∨ f.ftype = FrameType.FRAME_TYPE_CANFD_BASE →
            f.ID ≤ 0x7FF)
        ∧ (f.ftype = FrameType.FRAME_TYPE_CAN_EXT ∨ f.ftype = FrameType.FRAME_TYPE_CANFD_EXT →
            f.ID ≤ 0x1FFFFFFF)
        ∧ (f.ftype = FrameType.FRAME_TYPE_LIN_RX → f.ID ≤ 0x3F)
        ∧ (f.proto = 1 ↔ f.ftype = FrameType.FRAME_TYPE_LIN_RX)
        ∧ (f.proto ≠ PROTOCOL_CAN ↔ f.ftype = FrameType.FRAME_TYPE_LIN_RX))
      ∧ (parse_data_frame [0x04, 0x03, 0x02, 0, 0, 0, 0, 0, 0, 0, 0, 0xFF, 0xFF, 0xFF, 0xBF] 15).map
          (fun out => out.data_frame.map (fun f => (f.ftype, f.ID, f.proto)))
          = some (some (FrameType.FRAME_TYPE_CANFD_EXT, 0x1FFFFFFF, 0)) :=
  ⟨C17_id_width_agrees_with_frame_type 0x04 0x03 0x02 0 0 0 0 0 0 0 0 0xFF 0xFF 0xFF 0xBF [] 15
    (by decide) (by decide), by decide⟩

theorem or_marker (x : Nat) (h : x < 2147483648) :
    (x ||| 0x80000000) % 4294967296 = x ||| 0x80000000 ∧ x ||| 0x80000000 = x + 2147483648 := by
  have hs : x ||| 0x80000000 = x + 2147483648 := by
    have h1 := or_shiftLeft_eq_add 1 x 31 (by norm_num; omega)
    norm_num at h1
    exact h1
  rw [hs]
  exact ⟨Nat.mod_eq_of_lt (by omega), rfl⟩

/-- The `route_id` of a CAN data frame, by the IDE flag. -/
theorem route_id_of_can (b0 b1 b2 b3 b4 b5 b6 b7 b8 b9 b10 b11 b12 b13 b14 : Byte)
    (rest : List Byte) (data_length : Nat) (hlen : data_length ≤ 15 + rest.length)
    (hdata : b0.val % 2 = 0) (hcan : b10.val.testBit 7 = false) :
    (b14.val.testBit 7 = true →
        (parse_data_frame (b0 :: b1 :: b2 :: b3 :: b4 :: b5 :: b6 :: b7 :: b8 :: b9 :: b10
          :: b11 :: b12 :: b13 :: b14 :: rest) data_length).map (fun out => out.route_id)
          = some (some (rx_extCan_id b11 b12 b13 b14 + 2147483648))
        ∧ (decodedFrame b0 b1 b2 b3 b4 b5 b6 b7 b8 b9 b10 b11 b12 b13 b14 rest data_length).ID
          = rx_extCan_id b11 b12 b13 b14)
      ∧ (b14.val.testBit 7 = false →
        (parse_data_frame (b0 :: b1 :: b2 :: b3 :: b4 :: b5 :: b6 :: b7 :: b8 :: b9 :: b10
          :: b11 :: b12 :: b13 :: b14 :: rest) data_length).map (fun out => out.route_id)
          = some (some (rx_can_id b11 b12))
        ∧ (decodedFrame b0 b1 b2 b3 b4 b5 b6 b7 b8 b9 b10 b11 b12 b13 b14 rest data_length).ID
          = rx_can_id b11 b12) := by
  have e : rx_protocol_type b10 = 0 := by rw [rx_protocol_type_bit, hcan]; rfl
  have hext := rx_extCan_id_le b11 b12 b13 b14
  have hstd := rx_can_id_le b11 b12
  rw [parse_data_frame_decoded _ _ _ _ _ _ _ _ _ _ _ _ _ _ _ _ _ hlen hdata, decodedFrame_ID, e]
  constructor
  · intro hI
    have e1 : rx_ide b14 = 1 := by rw [rx_ide_bit, hI]; rfl
    rw [e1]
    have hm := or_marker (rx_extCan_id b11 b12 b13 b14) (by omega)
    refine ⟨?_, rfl⟩
    show some (rx_route_id 0 1 (rx_extCan_id b11 b12 b13 b14)) = _
    have : rx_route_id 0 1 (rx_extCan_id b11 b12 b13 b14)
        = some ((rx_extCan_id b11 b12 b13 b14 ||| 0x80000000) % 4294967296) := rfl
    rw [this, hm.1, hm.2]
  · intro hI
    have e1 : rx_ide b14 = 0 := by rw [rx_ide_bit, hI]; rfl
    rw [e1]
    refine ⟨?_, rfl⟩
    show some (rx_route_id 0 0 (rx_can_id b11 b12)) = _
    have : rx_route_id 0 0 (rx_can_id b11 b12) = some (rx_can_id b11 b12 % 4294967296) := rfl
    rw [this, Nat.mod_eq_of_lt (by omega)]

/-- C19: routing tag. For every CAN data-frame buffer of at least 15 bytes: when
IDE (bit 7 of byte 14) is 1 the route identifier is `id | 0x80000000` while the
frame's own `id` keeps bit 31 clear (`id ≤ 0x1FFFFFFF`); when IDE is 0 the route
identifier is the 11-bit `id`. Consequently the route identifier of an extended
frame differs from the route identifier of every standard frame (here: of any
second CAN data-frame buffer with IDE = 0). -/
theorem C19_route_id_marks_extended
    (b0 b1 b2 b3 b4 b5 b6 b7 b8 b9 b10 b11 b12 b13 b14 : Byte) (rest : List Byte)
    (data_length : Nat)
    (c0 c1 c2 c3 c4 c5 c6 c7 c8 c9 c10 c11 c12 c13 c14 : Byte) (rest' : List Byte)
    (data_length' : Nat)
    (hlen : data_length ≤ 15 + rest.length) (hdata : b0.val % 2 = 0)
    (hcan : b10.val.testBit 7 = false)
    (hlen' : data_length' ≤ 15 + rest'.length) (hdata' : c0.val % 2 = 0)
    (hcan' : c10.val.testBit 7 = false) :
    ∃ f,
      (parse_data_frame (b0 :: b1 :: b2 :: b3 :: b4 :: b5 :: b6 :: b7 :: b8 :: b9 :: b10
          :: b11 :: b12 :: b13 :: b14 :: rest) data_length).map (fun out => out.data_frame)
          = some (some f)
        ∧ (b14.val.testBit 7 = true →
            (parse_data_frame (b0 :: b1 :: b2 :: b3 :: b4 :: b5 :: b6 :: b7 :: b8 :: b9 :: b10
              :: b11 :: b12 :: b13 :: b14 :: rest) data_length).map (fun out => out.route_id)
              = some (some (f.ID ||| 0x80000000))
            ∧ f.ID ≤ 0x1FFFFFFF ∧ f.ID.testBit 31 = false)
        ∧ (b14.val.testBit 7 = false →
            (parse_data_frame (b0 :: b1 :: b2 :: b3 :: b4 :: b5 :: b6 :: b7 :: b8 :: b9 :: b10
              :: b11 :: b12 :: b13 :: b14 :: rest) data_length).map (fun out => out.route_id)
              = some (some f.ID)
            ∧ f.ID ≤ 0x7FF)
        ∧ (b14.val.testBit 7 = true → c14.val.testBit 7 = false →
            (parse_data_frame (b0 :: b1 :: b2 :: b3 :: b4 :: b5 :: b6 :: b7 :: b8 :: b9 :: b10
              :: b11 :: b12 :: b13 :: b14 :: rest) data_length).map (fun out => out.route_id)
              ≠ (parse_data_frame (c0 :: c1 :: c2 :: c3 :: c4 :: c5 :: c6 :: c7 :: c8 :: c9
                :: c10 :: c11 :: c12 :: c13 :: c14 :: rest') data_length').map
                  (fun out => out.route_id)) := by
  have hb := route_id_of_can b0 b1 b2 b3 b4 b5 b6 b7 b8 b9 b10 b11 b12 b13 b14 rest data_length
    hlen hdata hcan
  have hc := route_id_of_can c0 c1 c2 c3 c4 c5 c6 c7 c8 c9 c10 c11 c12 c13 c14 rest'
    data_length' hlen' hdata' hcan'
  have hext := rx_extCan_id_le b11 b12 b13 b14
  have hstd := rx_can_id_le b11 b12
  have hstd' := rx_can_id_le c11 c12
  refine ⟨decodedFrame b0 b1 b2 b3 b4 b5 b6 b7 b8 b9 b10 b11 b12 b13 b14 rest data_length,
    ?_, ?_, ?_, ?_⟩
  · rw [parse_data_frame_decoded _ _ _ _ _ _ _ _ _ _ _ _ _ _ _ _ _ hlen hdata]
    rfl
  · intro hI
    obtain ⟨hr, hid⟩ := hb.1 hI
    rw [hr, hid, (or_marker (rx_extCan_id b11 b12 b13 b14) (by omega)).2]
    exact ⟨rfl, hext, Nat.testBit_lt_two_pow (by norm_num; omega)⟩
  · intro hI
    obtain ⟨hr, hid⟩ := hb.2 hI
    rw [hr, hid]
    exact ⟨rfl, hstd⟩
  · intro hI hI'
    rw [(hb.1 hI).1, (hc.2 hI').1]
    intro h
    have h2 := Option.some.inj (Option.some.inj h)
    omega

/-- C19 at the extended frame with id `0x1ABCDE` against the standard frame with
id `0x123`, with both route identifiers evaluated. -/
theorem C19_route_id_marks_extended_witness :
    (∃ f,
      (parse_data_frame ((0x04 : Byte) :: 0x03 :: 0x02 :: 0 :: 0 :: 0 :: 0 :: 0 :: 0 :: 0 :: 0
          :: 0xDE :: 0xBC :: 0x1A :: 0x80 :: []) 15).map (fun out => out.data_frame)
          = some (some f)
        ∧ ((0x80 : Byte).val.testBit 7 = true →
            (parse_data_frame ((0x04 : Byte) :: 0x03 :: 0x02 :: 0 :: 0 :: 0 :: 0 :: 0 :: 0 :: 0
              :: 0 :: 0xDE :: 0xBC :: 0x1A :: 0x80 :: []) 15).map (fun out => out.route_id)
              = some (some (f.ID ||| 0x80000000))
            ∧ f.ID ≤ 0x1FFFFFFF ∧ f.ID.testBit 31 = false)
        ∧ ((0x80 : Byte).val.testBit 7 = false →
            (parse_data_frame ((0x04 : Byte) :: 0x03 :: 0x02 :: 0 :: 0 :: 0 :: 0 :: 0 :: 0 :: 0
              :: 0 :: 0xDE :: 0xBC :: 0x1A :: 0x80 :: []) 15).map (fun out => out.route_id)
              = some (some f.ID)
            ∧ f.ID ≤ 0x7FF)
        ∧ ((0x80 : Byte).val.testBit 7 = true → (0x00 : Byte).val.testBit 7 = false →
            (parse_data_frame ((0x04 : Byte) :: 0x03 :: 0x02 :: 0 :: 0 :: 0 :: 0 :: 0 :: 0 :: 0
              :: 0 :: 0xDE :: 0xBC :: 0x1A :: 0x80 :: []) 15).map (fun out => out.route_id)
              ≠ (parse_data_frame ((0x04 : Byte) :: 0x03 :: 0x02 :: 0 :: 0 :: 0 :: 0 :: 0 :: 0
                :: 0 :: 0 :: 0x23 :: 0x01 :: 0 :: 0x00 :: []) 15).map
                  (fun out => out.route_id)))
      ∧ (parse_data_frame [0x04, 0x03, 0x02, 0, 0, 0, 0, 0, 0, 0, 0, 0xDE, 0xBC, 0x1A, 0x80] 15).map
          (fun out => (out.route_id, out.data_frame.map (fun f => f.ID)))
          = some (some 0x801ABCDE, some 0x1ABCDE)
      ∧ (parse_data_frame [0x04, 0x03, 0x02, 0, 0, 0, 0, 0, 0, 0, 0, 0x23, 0x01, 0, 0x00] 15).map
          (fun out => (out.route_id, out.data_frame.map (fun f => f.ID)))
          = some (some 0x123, some 0x123) :=
  ⟨C19_route_id_marks_extended 0x04 0x03 0x02 0 0 0 0 0 0 0 0 0xDE 0xBC 0x1A 0x80 [] 15
    0x04 0x03 0x02 0 0 0 0 0 0 0 0 0x23 0x01 0 0x00 [] 15
    (by decide) (by decide) (by decide) (by decide) (by decide) (by decide),
   by decide, by decide⟩

/-! ## `build_CANHeader` -/

theorem mask_byte_shift (p k : Nat) : (p &&& (0xFF <<< k)) >>> k = (p >>> k) % 256 := by
  have h3 : (0xFF : Nat) = 2 ^ 8 - 1 := by decide
  have h4 : (256 : Nat) = 2 ^ 8 := by decide
  rw [h3, h4]
  apply Nat.eq_of_testBit_eq
  intro i
  simp only [Nat.testBit_shiftRight, Nat.testBit_and, Nat.testBit_shiftLeft,
    Nat.testBit_mod_two_pow, Nat.testBit_two_pow_sub_one]
  by_cases h : i < 8 <;> simp [h]

theorem headerByte_eq (S k m : Nat) (hm : m = 0xFF <<< (8 * k)) :
    toByte ((S &&& m) >>> (8 * k)) = toByte ((S >>> (8 * k)) &&& 0xFF) := by
  rw [hm, mask_byte_shift, mask_ff]

theorem headerByte_val (S k : Nat) :
    (toByte ((S >>> (8 * k)) &&& 0xFF)).val = S / 2 ^ (8 * k) % 256 := by
  unfold toByte
  simp only []
  rw [mask_ff, Nat.mod_mod, Nat.shiftRight_eq_div_pow]

theorem exists_five (w : List Byte) (h : 5 ≤ w.length) :
    ∃ a0 a1 a2 a3 a4 rest, w = a0 :: a1 :: a2 :: a3 :: a4 :: rest := by
  match w, h with
  | a0 :: a1 :: a2 :: a3 :: a4 :: rest, _ => exact ⟨a0, a1, a2, a3, a4, rest, rfl⟩

theorem storeHeaderBytes_eq (hb : List Byte) (S : Nat) (h : 5 ≤ hb.length) :
    storeHeaderBytes hb S
      = some ([toByte ((S >>> (8 * 0)) &&& 0xFF), toByte ((S >>> (8 * 1)) &&& 0xFF),
          toByte ((S >>> (8 * 2)) &&& 0xFF), toByte ((S >>> (8 * 3)) &&& 0xFF),
          toByte ((S >>> (8 * 4)) &&& 0xFF)] ++ hb.drop 5) := by
  obtain ⟨a0, a1, a2, a3, a4, rest, rfl⟩ := exists_five hb h
  rw [← headerByte_eq S 0 0xFF (by decide), ← headerByte_eq S 1 0xFF00 (by decide),
    ← headerByte_eq S 2 0xFF0000 (by decide), ← headerByte_eq S 3 0xFF000000 (by decide),
    ← headerByte_eq S 4 0xFF00000000 (by decide)]
  simp [storeHeaderBytes, store, List.set]

/-- C18: for all inputs (and whatever the packing macros compute),
`build_CANHeader` writes exactly the five bytes `header_buffer[0..4]`, each
`header_buffer[k] = (S >> 8k) & 0xFF` for the packed scalar `S` it computed, so
that the five bytes read as a little-endian number are `S mod 2^40`; the rest of
`header_buffer` is untouched. -/
theorem C18_header_is_little_endian_slice (M : CanHeaderMacros) (header_buffer : List Byte)
    (Timestamp_onoff uCAN_ID uFDF uIDE uBRS : Nat) (h5 : 5 ≤ header_buffer.length) :
    ∃ out,
      build_CANHeader M header_buffer Timestamp_onoff uCAN_ID uFDF uIDE uBRS = some out
        ∧ out.length = header_buffer.length
        ∧ out.drop 5 = header_buffer.drop 5
        ∧ (∀ k, k < 5 →
            out[k]? = some (toByte
              ((can_header_frame M Timestamp_onoff uCAN_ID uFDF uIDE uBRS >>> (8 * k))
                &&& 0xFF)))
        ∧ littleEndianValue (out.take 5)
            = can_header_frame M Timestamp_onoff uCAN_ID uFDF uIDE uBRS % 2 ^ 40 := by
  unfold build_CANHeader
  generalize can_header_frame M Timestamp_onoff uCAN_ID uFDF uIDE uBRS = S
  refine ⟨_, storeHeaderBytes_eq header_buffer S h5, ?_, ?_, ?_, ?_⟩
  · simp only [List.length_append, List.length_cons, List.length_nil, List.length_drop]
    omega
  · exact List.drop_left' rfl
  · intro k hk
    have hk' : k = 0 ∨ k = 1 ∨ k = 2 ∨ k = 3 ∨ k = 4 := by omega
    rcases hk' with rfl | rfl | rfl | rfl | rfl <;>
      simp only [List.cons_append, List.getElem?_cons_zero, List.getElem?_cons_succ]
  · simp only [List.cons_append, List.take_succ_cons, List.take_zero, littleEndianValue,
      headerByte_val]
    norm_num
    omega

/-- C18 at the sample macros: a standard classic header for id `0x123`, and,
evaluated, the extended FD header for id `0x1ABCDE` with its packed scalar. -/
theorem C18_header_is_little_endian_slice_witness :
    (∃ out,
      build_CANHeader sampleMacros [0, 0, 0, 0, 0, 9, 9] 1 0x123 0 0 0 = some out
        ∧ out.length = ([0, 0, 0, 0, 0, 9, 9] : List Byte).length
        ∧ out.drop 5 = ([0, 0, 0, 0, 0, 9, 9] : List Byte).drop 5
        ∧ (∀ k, k < 5 →
            out[k]? = some (toByte
              ((can_header_frame sampleMacros 1 0x123 0 0 0 >>> (8 * k)) &&& 0xFF)))
        ∧ littleEndianValue (out.take 5) = can_header_frame sampleMacros 1 0x123 0 0 0 % 2 ^ 40)
      ∧ build_CANHeader sampleMacros [0, 0, 0, 0, 0, 9, 9] 1 0x123 0 0 0
          = some [0x8D, 0x04, 0x00, 0x00, 0x00, 9, 9]
      ∧ can_header_frame sampleMacros 1 0x1ABCDE 1 1 1 = 0x06806AF379
      ∧ build_CANHeader sampleMacros [7, 7, 7, 7, 7, 9, 9] 1 0x1ABCDE 1 1 1
          = some [0x79, 0xF3, 0x6A, 0x80, 0x06, 9, 9] :=
  ⟨C18_header_is_little_endian_slice sampleMacros [0, 0, 0, 0, 0, 9, 9] 1 0x123 0 0 0
    (by decide), by decide, by decide, by decide⟩

/-! ## CRC residue -/

set_option maxRecDepth 100000 in
theorem table_zero : crc16Table.getD 0 0 = 0 := by
  decide

/-- Feeding a register its own two bytes, high byte first, clears it. -/
theorem stepN_residue (r : Nat) (hr : r < 65536) :
    stepN (stepN r (toByte (r / 256))) (toByte (r % 256)) = 0 := by
  have h1 : (toByte (r / 256)).val = r / 256 := by
    unfold toByte
    simp only []
    omega
  have h2 : (toByte (r % 256)).val = r % 256 := by
    unfold toByte
    simp only []
    omega
  have e1 : stepN r (toByte (r / 256)) = r % 256 * 256 := by
    unfold stepN
    rw [h1, Nat.mod_eq_of_lt (by omega : r / 256 < 256), Nat.xor_self, table_zero,
      Nat.zero_xor]
  rw [e1]
  unfold stepN
  have e2 : r % 256 * 256 / 256 % 256 = r % 256 := by omega
  have e3 : r % 256 * 256 % 256 = 0 := by omega
  rw [h2, e2, e3, Nat.xor_self, table_zero]
  rfl

theorem foldl_stepN_residue (m : List Byte) (r : Nat) (hr : r < 65536) :
    (m ++ [toByte (m.foldl stepN r / 256), toByte (m.foldl stepN r % 256)]).foldl stepN r
      = 0 := by
  rw [List.foldl_append, List.foldl_cons, List.foldl_cons, List.foldl_nil]
  exact stepN_residue _ (foldl_stepN_lt m r hr)

/-- C20: CRC residue. `IPC_CalcCrc16` with `init = 0` over the whole `n + 11`
byte packet built by `ipc_Lpa_packet` (trailer included) is 0. More generally,
for every byte sequence `m` and every `init` in `0..0xFFFF`, with
`c = IPC_CalcCrc16(m, len m, init)`, the CRC of `m` followed by the two bytes
`c >> 8`, `c & 0xFF`, from the same `init`, is 0. -/
theorem C20_crc_residue_is_zero (charSigned : Bool) (wbuffer ipc_buff : List Byte)
    (cmd1 cmd2 : Int) (n : Nat) (m : List Byte) (init : Int)
    (hn : n ≤ 65535) (hb : n ≤ ipc_buff.length) (hw : n + 11 ≤ wbuffer.length)
    (h0 : 0 ≤ init) (h1 : init ≤ 0xFFFF) :
    (∃ w,
        ipc_Lpa_packet charSigned (some wbuffer) ipc_buff cmd1 cmd2 (n : Int)
            = some (some w, (n : Int) + 11)
          ∧ IPC_CalcCrc16 charSigned (some w) ((n : Int) + 11) 0 = some 0)
      ∧ (∃ c : Nat,
        IPC_CalcCrc16 charSigned (some m) (m.length : Int) init = some (c : Int)
          ∧ IPC_CalcCrc16 charSigned (some (m ++ [toByte (c >>> 8), toByte (c &&& 0xFF)]))
              ((m.length : Int) + 2) init = some 0) := by
  constructor
  · have hpl : (ipc_buff.take n).length = n := by rw [List.length_take]; omega
    refine ⟨_, ipc_Lpa_packet_eq charSigned wbuffer ipc_buff cmd1 cmd2 n (by omega) hw hb, ?_⟩
    unfold builtBuffer
    have hz : ((0 : Nat) : Int) = 0 := rfl
    rw [← hz, calc_initial_segment charSigned _ _ _ 0
      (by
        simp only [List.length_append, headerBytes_length, hpl, List.length_cons,
          List.length_nil]
        push_cast
        omega),
      foldl_stepN_residue _ 0 (by decide)]
  · obtain ⟨r, rfl⟩ := Int.eq_ofNat_of_zero_le h0
    have hlt : r < 65536 := by omega
    refine ⟨m.foldl stepN r, calc_whole charSigned m r, ?_⟩
    have e8 : m.foldl stepN r >>> 8 = m.foldl stepN r / 256 := by
      rw [Nat.shiftRight_eq_div_pow]
    have hz : ((0 : Nat) : Int) = 0 := rfl
    have hlen : (m.length : Int) + 2
        = ((m ++ [toByte (m.foldl stepN r / 256), toByte (m.foldl stepN r % 256)]).length
            : Int) := by
      simp only [List.length_append, List.length_cons, List.length_nil]
      push_cast
      omega
    rw [e8, mask_ff, hlen, calc_whole, foldl_stepN_residue m r hlt, hz]

/-- C20 at the packet of `cmd1 = 0x1234`, `cmd2 = 0xABCD`, payload
`01 02 03 04 05`, and at the check string "123456789" with `init = 0`, both
evaluated. -/
theorem C20_crc_residue_is_zero_witness :
    ((∃ w,
        ipc_Lpa_packet false (some (List.replicate 20 0)) [1, 2, 3, 4, 5] 0x1234 0xABCD
            ((5 : Nat) : Int) = some (some w, ((5 : Nat) : Int) + 11)
          ∧ IPC_CalcCrc16 false (some w) (((5 : Nat) : Int) + 11) 0 = some 0)
      ∧ (∃ c : Nat,
        IPC_CalcCrc16 false (some [0x31, 0x32, 0x33, 0x34, 0x35, 0x36, 0x37, 0x38, 0x39])
            (([0x31, 0x32, 0x33, 0x34, 0x35, 0x36, 0x37, 0x38, 0x39] : List Byte).length : Int)
            0 = some (c : Int)
          ∧ IPC_CalcCrc16 false
              (some (([0x31, 0x32, 0x33, 0x34, 0x35, 0x36, 0x37, 0x38, 0x39] : List Byte)
                ++ [toByte (c >>> 8), toByte (c &&& 0xFF)]))
              ((([0x31, 0x32, 0x33, 0x34, 0x35, 0x36, 0x37, 0x38, 0x39] : List Byte).length
                : Int) + 2) 0 = some 0))
      ∧ IPC_CalcCrc16 false (some [0xFF, 0x55, 0xAA, 0x12, 0x34, 0xAB, 0xCD, 0x00, 0x05,
          1, 2, 3, 4, 5, 0x1C, 0x94]) 16 0 = some 0
      ∧ IPC_CalcCrc16 false (some [0x31, 0x32, 0x33, 0x34, 0x35, 0x36, 0x37, 0x38, 0x39,
          0x31, 0xC3]) 11 0 = some 0 :=
  ⟨C20_crc_residue_is_zero false (List.replicate 20 0) [1, 2, 3, 4, 5] 0x1234 0xABCD 5
    [0x31, 0x32, 0x33, 0x34, 0x35, 0x36, 0x37, 0x38, 0x39] 0
    (by decide) (by decide) (by decide) (by decide) (by decide),
   by set_option maxRecDepth 100000 in decide,
   by set_option maxRecDepth 100000 in decide⟩


end AxonIpc
